import Mathlib

/-!
# Verification of the code-visualization backend against its specification

Shallow embedding of the Python backend (`backend/app`) of the
code-visualization tool, together with theorems settling the frozen claims
about the sanitizer, the chunker, the structural extractor, the LLM JSON
repair routine and the project task pipeline.

Strings are modelled as `List Char`; machine text operations (`str.split`,
`str.strip`, slicing, `re.sub`) are embedded as explicit list functions.
Python regular-expression substitution is embedded rule by rule as a
left-to-right scanner: at each position the rule's pattern is tried; on a
match the replacement is emitted and scanning resumes after the match,
otherwise one character is copied.  Where a pattern's greedy repetitions
are deterministic (the character following a maximal run can never belong
to the repeated class) the scanner uses maximal runs directly; the one
place the Python engine genuinely backtracks (`\s*`/`\s+` followed by
`(.+)$`) is embedded with explicit backtracking.
-/
namespace CodeViz

/-! ## Shared character classes (Python `\s`, `\w`, `\d` on ASCII input) -/
/-- Python `\s` (ASCII range): space, tab, newline, carriage return,
form feed, vertical tab.  Stated on code points to ease reasoning. -/
def isPySpace (c : Char) : Bool :=
  c.toNat = 32 || c.toNat = 9 || c.toNat = 10 || c.toNat = 13 || c.toNat = 11 || c.toNat = 12

/-- Python `\w` (ASCII range): letters, digits, underscore. -/
def isPyWord (c : Char) : Bool :=
  ((97 ≤ c.toNat && c.toNat ≤ 122) || (65 ≤ c.toNat && c.toNat ≤ 90)
    || (48 ≤ c.toNat && c.toNat ≤ 57) || c.toNat = 95)

/-- Python `\d` (ASCII range). -/
def isPyDigit (c : Char) : Bool := 48 ≤ c.toNat && c.toNat ≤ 57

/-- `[a-z]`. -/
def isLowerAlpha (c : Char) : Bool := 97 ≤ c.toNat && c.toNat ≤ 122

/-- The double-quote character. -/
def dq : Char := Char.ofNat 34

/-- The single-quote character. -/
def sq : Char := Char.ofNat 39

namespace Chunker

/-! ## `backend/app/utils/chunker.py` -/
/-- `MAX_FILE_SIZE_BYTES = 500 * 1024` -/
def MAX_FILE_SIZE_BYTES : Nat := 500 * 1024

/-- `MAX_CHUNK_CHARS = 2000` -/
def MAX_CHUNK_CHARS : Nat := 2000

/-- Python `text.split(sep)` for a single-character separator:
splitting the empty string gives `[""]`, and `n` separators give
`n + 1` fields. -/
def splitOnChar (sep : Char) : List Char → List (List Char)
  | [] => [[]]
  | c :: t =>
    match splitOnChar sep t with
    | [] => [[c]]
    | h :: r => if c = sep then [] :: h :: r else (c :: h) :: r

/-- Python `sep.join(xs)` for a single-character separator. -/
def joinSep (sep : Char) : List (List Char) → List Char
  | [] => []
  | [x] => x
  | x :: y :: r => x ++ sep :: joinSep sep (y :: r)

/-- The accumulation loop of `chunk_code`: walks the lines, flushing the
current chunk (a group of lines) whenever adding the next line would
exceed `max_chars` and the current chunk is nonempty.  Returns the chunks
as groups of lines; `chunk_code` joins each group with newlines.
`current_length` is tracked as in the source (`len(line) + 1` per line). -/
def chunkLoop (mc : Int) : List (List Char) → List (List Char) → Int → List (List (List Char))
  | [], cur, _ => if cur = [] then [] else [cur]
  | l :: ls, cur, curLen =>
    let ll : Int := (l.length : Int) + 1
    if curLen + ll > mc ∧ cur ≠ [] then
      cur :: chunkLoop mc ls [l] ll
    else
      chunkLoop mc ls (cur ++ [l]) (curLen + ll)

/-- `chunk_code(content, max_chars=MAX_CHUNK_CHARS)`: return `[content]`
when it already fits, otherwise split on newlines and regroup lines. -/
def chunk_code (content : List Char) (max_chars : Int := (MAX_CHUNK_CHARS : Int)) :
    List (List Char) :=
  if (content.length : Int) ≤ max_chars then [content]
  else (chunkLoop max_chars (splitOnChar '\n' content) [] 0).map (joinSep '\n')

end Chunker

/-! ## Regex-substitution machinery

`re.sub(pattern, repl, text)` scans `text` left to right; at each position
the pattern is tried, on a match the replacement is emitted and scanning
resumes after the consumed characters, otherwise one character is copied.
Context-sensitive assertions (`^` in multiline mode, `\b`) look at the
character preceding the current position **in the original text**, which
the scanner threads through as `prev`.  All the patterns embedded here
consume at least one character on a match, so fuel `s.length` suffices. -/
/-- Result of matching a pattern at the head of `rest`-to-be-scanned text:
the replacement to emit, the original characters consumed, and the rest. -/
structure MatchRes where
  out : List Char
  consumed : List Char
  rest : List Char
deriving Repr, DecidableEq

/-- A pattern matcher: given the previous original character (`none` at the
start of the text) and the current suffix, try to match at this position. -/
def Matcher : Type := Option Char → List Char → Option MatchRes

/-- The scanning loop of `re.sub`. -/
def subScanFuel (m : Matcher) : Nat → Option Char → List Char → List Char
  | 0, _, s => s
  | _ + 1, _, [] => []
  | fuel + 1, prev, c :: s2 =>
    match m prev (c :: s2) with
    | some r =>
      r.out ++ subScanFuel m fuel
        (match r.consumed.getLast? with | some d => some d | none => prev) r.rest
    | none => c :: subScanFuel m fuel (some c) s2

/-- `re.sub` for one rule. -/
def reSub (m : Matcher) (s : List Char) : List Char := subScanFuel m s.length none s

/-- Case-insensitive literal match (`(?i)` flag); the pattern is given in
lowercase.  Returns the original matched characters and the rest. -/
def matchLitCI : List Char → List Char → Option (List Char × List Char)
  | [], s => some ([], s)
  | _ :: _, [] => none
  | p :: ps, c :: s =>
    if c.toLower = p then (matchLitCI ps s).map (fun r => (c :: r.1, r.2)) else none

/-- Case-sensitive literal match. -/
def matchLit : List Char → List Char → Option (List Char × List Char)
  | [], s => some ([], s)
  | _ :: _, [] => none
  | p :: ps, c :: s =>
    if c = p then (matchLit ps s).map (fun r => (c :: r.1, r.2)) else none

/-- Ordered alternation `(a1|a2|...)`.  The embedded key alternations have
no alternative that is a prefix of another, so at most one branch can match
at a given position and trying them in order without cross-branch
backtracking coincides with the Python engine. -/
def matchAlts (alts : List (List Char → Option (List Char × List Char)))
    (s : List Char) : Option (List Char × List Char) :=
  match alts with
  | [] => none
  | a :: rest =>
    match a s with
    | some r => some r
    | none => matchAlts rest s

namespace Sanitizer

/-! ## `backend/app/utils/sanitizer.py` -/
/-- The fixed redaction token. -/
def REDACTED : List Char := "***REDACTED***".toList

/-- `pre[_-]?post` (case-insensitive).  The optional `[_-]` is greedy; when
a `_`/`-` is present but `post` does not follow it, dropping the optional
character cannot help since `post` begins with a letter, so the greedy
choice is deterministic. -/
def matchKeyOpt (pre post : List Char) (s : List Char) : Option (List Char × List Char) :=
  match matchLitCI pre s with
  | some (m1, c :: r2) =>
    if c = '_' || c = '-' then
      (matchLitCI post r2).map (fun r => (m1 ++ c :: r.1, r.2))
    else
      (matchLitCI post (c :: r2)).map (fun r => (m1 ++ r.1, r.2))
  | some (_, []) => none
  | none => none

/-- `\s*[:=]\s*` — deterministic: `:`/`=` are not whitespace, so the greedy
`\s*` runs are the maximal ones. -/
def matchSepColonEq (s : List Char) : Option (List Char × List Char) :=
  let sp1 := s.takeWhile isPySpace
  match s.dropWhile isPySpace with
  | c :: r2 =>
    if c = ':' || c = '=' then
      some (sp1 ++ c :: r2.takeWhile isPySpace, r2.dropWhile isPySpace)
    else none
  | [] => none

/-- `q[^q]*q` for a quote character `q` — deterministic: `[^q]*` stops
exactly at the next `q`. -/
def matchQuoted (q : Char) (s : List Char) : Option (List Char × List Char) :=
  match s with
  | c :: r =>
    if c = q then
      match r.dropWhile (fun x => x ≠ q) with
      | c2 :: r2 => some (c :: r.takeWhile (fun x => x ≠ q) ++ [c2], r2)
      | [] => none
    else none
  | [] => none

/-- A quoted-assignment rule
`(?i)(keys)(\s*[:=]\s*)q[^q]*q` with replacement `\1\2q***REDACTED***q`. -/
def quotedRuleMatcher (alts : List (List Char → Option (List Char × List Char)))
    (q : Char) : Matcher := fun _ s =>
  match matchAlts alts s with
  | none => none
  | some (g1, r1) =>
    match matchSepColonEq r1 with
    | none => none
    | some (g2, r2) =>
      match matchQuoted q r2 with
      | none => none
      | some (qm, r3) =>
        some ⟨g1 ++ g2 ++ q :: REDACTED ++ [q], g1 ++ g2 ++ qm, r3⟩

/-- Alternatives of rules 1 and 2:
`api[_-]?key|secret[_-]?key|access[_-]?token|auth[_-]?token|private[_-]?key`. -/
def rule1Alts : List (List Char → Option (List Char × List Char)) :=
  [matchKeyOpt "api".toList "key".toList,
   matchKeyOpt "secret".toList "key".toList,
   matchKeyOpt "access".toList "token".toList,
   matchKeyOpt "auth".toList "token".toList,
   matchKeyOpt "private".toList "key".toList]

/-- Alternatives of rules 3 and 4:
`password|passwd|pwd|secret|token|credential`. -/
def rule3Alts : List (List Char → Option (List Char × List Char)) :=
  [matchLitCI "password".toList,
   matchLitCI "passwd".toList,
   matchLitCI "pwd".toList,
   matchLitCI "secret".toList,
   matchLitCI "token".toList,
   matchLitCI "credential".toList]

/-- Backtracking tail `\s{min,}(.+)$` (multiline `$`, `.` excludes `\n`):
the engine consumes the maximal whitespace run; since `\n` is whitespace,
the character after a maximal run (if any) is never `\n`, so `.` matches
there.  When the run reaches the end of the text the engine gives back
whitespace characters one at a time until `.` can match.  Returns
(whitespace kept by `\s*`, text matched by `(.+)`, rest). -/
def backGive (w : List Char) (minSp : Nat) : Nat → Option (List Char × List Char × List Char)
  | 0 => none
  | k + 1 =>
    let v := w.drop k
    if k ≥ minSp ∧ v.head? ≠ some '\n' then
      some (w.take k, v.takeWhile (fun x => x ≠ '\n'), v.dropWhile (fun x => x ≠ '\n'))
    else backGive w minSp k

def spaceRunThenValue (minSp : Nat) (s : List Char) :
    Option (List Char × List Char × List Char) :=
  let w := s.takeWhile isPySpace
  match s.dropWhile isPySpace with
  | c :: r =>
    if w.length ≥ minSp then
      some (w, (c :: r).takeWhile (fun x => x ≠ '\n'), (c :: r).dropWhile (fun x => x ≠ '\n'))
    else none
  | [] => backGive w minSp w.length

/-- Key alternatives of the env rule (matched case-insensitively because of
the `(?im)` flags):
`API_KEY|SECRET_KEY|PASSWORD|DB_PASSWORD|AUTH_TOKEN|ACCESS_TOKEN|PRIVATE_KEY`. -/
def envKeys : List (List Char) :=
  ["api_key".toList, "secret_key".toList, "password".toList, "db_password".toList,
   "auth_token".toList, "access_token".toList, "private_key".toList]

/-- Rule 5:
`(?im)^((?:API_KEY|...|PRIVATE_KEY)\s*=\s*)(.+)$` → `\1***REDACTED***`.
`^` matches at the start of the text or right after a newline. -/
def envRuleMatcher : Matcher := fun prev s =>
  if prev = none ∨ prev = some '\n' then
    match matchAlts (envKeys.map (fun k => matchLitCI k)) s with
    | none => none
    | some (g1a, r1) =>
      let sp1 := r1.takeWhile isPySpace
      match r1.dropWhile isPySpace with
      | c :: r2 =>
        if c = '=' then
          match spaceRunThenValue 0 r2 with
          | some (sp2, v, r3) =>
            some ⟨g1a ++ sp1 ++ '=' :: sp2 ++ REDACTED, g1a ++ sp1 ++ '=' :: sp2 ++ v, r3⟩
          | none => none
        else none
      | [] => none
  else none

/-- `\d{1,3}\.` — deterministic: if the maximal digit run is longer than 3
the character after 3 (or fewer) digits is a digit, never `.`, and
backtracking cannot recover. -/
def matchDigits13Dot (s : List Char) : Option (List Char × List Char) :=
  let d := s.takeWhile isPyDigit
  if 1 ≤ d.length ∧ d.length ≤ 3 then
    match s.dropWhile isPyDigit with
    | c :: r2 => if c = '.' then some (d ++ [c], r2) else none
    | [] => none
  else none

/-- Rule 6: `\b(?:\d{1,3}\.){3}\d{1,3}\b` → `***.***.***.***`.
The pattern begins with `\d`, so the leading `\b` holds iff the previous
character is absent or a non-word character.  For the trailing `\b`, a
maximal digit run of length over 3 cannot be saved by backtracking (any
shorter run is followed by a digit), so the run must have length 1–3 and
be followed by a non-word character or the end. -/
def ipv4Matcher : Matcher := fun prev s =>
  let prevWord := match prev with | some p => isPyWord p | none => false
  if prevWord then none
  else
    match matchDigits13Dot s with
    | none => none
    | some (d1, s1) =>
      match matchDigits13Dot s1 with
      | none => none
      | some (d2, s2) =>
        match matchDigits13Dot s2 with
        | none => none
        | some (d3, s3) =>
          let d4 := s3.takeWhile isPyDigit
          let r4 := s3.dropWhile isPyDigit
          if 1 ≤ d4.length && d4.length ≤ 3 &&
              (match r4.head? with | none => true | some c => !(isPyWord c)) then
            some ⟨"***.***.***.***".toList, d1 ++ d2 ++ d3 ++ d4, r4⟩
          else none

/-- `[A-Za-z0-9._%+-]` — the email local-part class. -/
def isLocalClass (c : Char) : Bool :=
  (('a' ≤ c && c ≤ 'z') || ('A' ≤ c && c ≤ 'Z') || ('0' ≤ c && c ≤ '9')
    || c = '.' || c = '_' || c = '%' || c = '+' || c = '-')

/-- `[A-Za-z0-9.-]` — the email domain class. -/
def isDomClass (c : Char) : Bool :=
  (('a' ≤ c && c ≤ 'z') || ('A' ≤ c && c ≤ 'Z') || ('0' ≤ c && c ≤ '9')
    || c = '.' || c = '-')

/-- `[A-Z|a-z]` — the class written for the top-level domain; it contains
the letters and, literally, `|`. -/
def isTldClass (c : Char) : Bool :=
  (('a' ≤ c && c ≤ 'z') || ('A' ≤ c && c ≤ 'Z') || c = '|')

/-- Whether `\b` holds between a last matched character and the following
character (`none` = end of text). -/
def boundaryAfter (last : Char) (next : Option Char) : Bool :=
  match next with
  | none => isPyWord last
  | some nc => isPyWord last != isPyWord nc

/-- Trailing `[A-Z|a-z]{2,}\b` backtracking: `{2,}` consumes the maximal
class run `t` and gives back characters until the boundary holds, keeping
at least 2.  `kk` counts the characters kept; tried from the maximal run
length downwards. -/
def tryTldLen (t : List Char) (afterT : List Char) : Nat → Option Nat
  | 0 => none
  | kk + 1 =>
    if kk + 1 < 2 then none
    else
      let next : Option Char := if kk + 1 < t.length then t.get? (kk + 1) else afterT.head?
      match t.get? kk with
      | some lastC =>
        if boundaryAfter lastC next then some (kk + 1) else tryTldLen t afterT kk
      | none => tryTldLen t afterT kk

/-- Domain-part backtracking `[A-Za-z0-9.-]+\.[A-Z|a-z]{2,}\b` on `whole`:
the greedy `+` consumes the maximal domain-class run and gives characters
back one at a time; a character given back must be matched by `\.`, i.e.
the split index `j` must hold a `.`.  `j` is tried from high to low and
must stay at least 1. -/
def tryDomSplit (localPart whole : List Char) : Nat → Option MatchRes
  | 0 => none
  | j + 1 =>
    let jj := j + 1
    (if whole.get? jj = some '.' then
      let afterDot := whole.drop (jj + 1)
      let t := afterDot.takeWhile isTldClass
      let afterT := afterDot.dropWhile isTldClass
      match tryTldLen t afterT t.length with
      | some kk =>
        some ⟨"***@***.***".toList,
              localPart ++ '@' :: (whole.take (jj + 1) ++ t.take kk),
              t.drop kk ++ afterT⟩
      | none => none
    else none).orElse (fun _ => tryDomSplit localPart whole j)

/-- Rule 7: `\b[A-Za-z0-9._%+-]+@[A-Za-z0-9.-]+\.[A-Z|a-z]{2,}\b` →
`***@***.***`.  The leading `\b` is anchored at the match start; the
local-part `+` and the `@` are deterministic (`@` is outside the class). -/
def emailMatcher : Matcher := fun prev s =>
  match s with
  | [] => none
  | c0 :: _ =>
    let prevWord := match prev with | some p => isPyWord p | none => false
    if isPyWord c0 = prevWord then none
    else
      let lp := s.takeWhile isLocalClass
      match s.dropWhile isLocalClass with
      | a :: r2 =>
        if lp.length ≥ 1 && a = '@' then
          let m := r2.takeWhile isDomClass
          if m.length ≥ 1 then tryDomSplit lp r2 (m.length - 1) else none
        else none
      | [] => none

/-- `SANITIZE_RULES`, in source order: double-quoted API keys,
single-quoted API keys, double-quoted passwords, single-quoted passwords,
env-style unquoted secrets, IPv4 addresses, email addresses. -/
def SANITIZE_RULES : List Matcher :=
  [quotedRuleMatcher rule1Alts dq,
   quotedRuleMatcher rule1Alts sq,
   quotedRuleMatcher rule3Alts dq,
   quotedRuleMatcher rule3Alts sq,
   envRuleMatcher,
   ipv4Matcher,
   emailMatcher]

/-- `sanitize_code`: apply every rule, in order, over the whole text. -/
def sanitize_code (source_code : List Char) : List Char :=
  SANITIZE_RULES.foldl (fun acc m => reSub m acc) source_code

/-- `startswith` on lists. -/
def startsWithL : List Char → List Char → Bool
  | [], _ => true
  | _ :: _, [] => false
  | a :: as, b :: bs => a = b && startsWithL as bs

/-- Python `needle in hay` (substring containment). -/
def containsSub (needle : List Char) : List Char → Bool
  | [] => startsWithL needle []
  | c :: t => startsWithL needle (c :: t) || containsSub needle t

/-- Python `hay.endswith(suffix)`. -/
def endsWithL (suffix s : List Char) : Bool := startsWithL suffix.reverse s.reverse

/-- Lower-casing (ASCII, as in the embedded paths). -/
def lowerL (s : List Char) : List Char := s.map Char.toLower

def config_extensions : List (List Char) :=
  [".env".toList, ".yml".toList, ".yaml".toList, ".ini".toList,
   ".cfg".toList, ".conf".toList, ".toml".toList]

def code_extensions : List (List Char) :=
  [".py".toList, ".js".toList, ".ts".toList, ".jsx".toList, ".tsx".toList,
   ".java".toList, ".go".toList, ".rb".toList, ".php".toList]

/-- `sanitize_file_content`: decide by file name (`lower_path` inlined as
`lowerL file_path`) whether to sanitize. -/
def sanitize_file_content (file_path content : List Char) : List Char :=
  if config_extensions.any (fun ext => endsWithL ext (lowerL file_path)) then
    sanitize_code content
  else if endsWithL ".env".toList (lowerL file_path)
      || containsSub "/.env".toList (lowerL file_path) then
    sanitize_code content
  else if code_extensions.any (fun ext => endsWithL ext (lowerL file_path)) then
    sanitize_code content
  else content

/-- `[A-Z]`. -/
def isUpperAlpha (c : Char) : Bool := 65 ≤ c.toNat && c.toNat ≤ 90

/-- Characters that a key alternative of the quoted and env rules can
consume: letters of either case (the rules carry `(?i)`), `_` and `-`. -/
def keyChar (c : Char) : Bool :=
  isLowerAlpha c || isUpperAlpha c || c = '_' || c = '-'

/-- The modelled secret-value alphabet: alphanumerics of either case and
`*` — no quotes, no whitespace, no `:`/`=`, no `@`, no newline. -/
def plainValChar (c : Char) : Bool :=
  isLowerAlpha c || isUpperAlpha c || isPyDigit c || c = '*'

/-- The modelled surrounding-text alphabet: `;`, space and newline. -/
def ctxChar (c : Char) : Bool := c = ';' || c = ' ' || c = '\n'

/-- The canonical key spellings of the four quoted-assignment rules:
the five `(?i)` alternatives of rules 1–2 (underscore form) and the six
alternatives of rules 3–4. -/
def quotedKeyForms : List (List Char) :=
  ["api_key".toList, "secret_key".toList, "access_token".toList,
   "auth_token".toList, "private_key".toList, "password".toList,
   "passwd".toList, "pwd".toList, "secret".toList, "token".toList,
   "credential".toList]

/-- The env-rule key spellings, in the canonical upper case of `.env`
files and in lower case (rule 5 carries `(?i)`). -/
def envKeyForms : List (List Char) :=
  ["API_KEY".toList, "SECRET_KEY".toList, "PASSWORD".toList,
   "DB_PASSWORD".toList, "AUTH_TOKEN".toList, "ACCESS_TOKEN".toList,
   "PRIVATE_KEY".toList,
   "api_key".toList, "secret_key".toList, "password".toList,
   "db_password".toList, "auth_token".toList, "access_token".toList,
   "private_key".toList]

end Sanitizer

namespace Chunker

/-! ## Structural extraction (`extract_*_summary`, `extract_file_summary`,
and the per-file body of `scan_project_files`) -/
/-- `re.findall` with one capture group: scan left to right, collect the
group of each non-overlapping match.  A capture matcher returns
(capture, consumed, rest). -/
def findAllFuel (m : Option Char → List Char → Option (List Char × List Char × List Char)) :
    Nat → Option Char → List Char → List (List Char)
  | 0, _, _ => []
  | _ + 1, _, [] => []
  | fuel + 1, prev, c :: s2 =>
    match m prev (c :: s2) with
    | some (cap, consumed, rest) =>
      cap :: findAllFuel m fuel
        (match consumed.getLast? with | some d => some d | none => prev) rest
    | none => findAllFuel m fuel (some c) s2

def findAll (m : Option Char → List Char → Option (List Char × List Char × List Char))
    (s : List Char) : List (List Char) :=
  findAllFuel m s.length none s

/-- `^` in multiline mode: start of text or right after a newline. -/
def atLineStart (prev : Option Char) : Bool :=
  match prev with
  | none => true
  | some c => c = '\n'

/-- `\s+(\w+)` (both runs nonempty; deterministic since the classes are
disjoint).  Returns (word, spaces ++ word, rest). -/
def matchSpacesWord (s : List Char) : Option (List Char × List Char × List Char) :=
  let sp := s.takeWhile isPySpace
  let r1 := s.dropWhile isPySpace
  let w := r1.takeWhile isPyWord
  let r2 := r1.dropWhile isPyWord
  if sp.length ≥ 1 && w.length ≥ 1 then some (w, sp ++ w, r2) else none

/-- A keyword followed by `\s+`; returns (consumed, rest). -/
def tryWordSpaces (word : List Char) (s : List Char) : Option (List Char × List Char) :=
  match matchLit word s with
  | some (m1, r1) =>
    let sp := r1.takeWhile isPySpace
    if sp.length ≥ 1 then some (m1 ++ sp, r1.dropWhile isPySpace) else none
  | none => none

/-- `^class\s+(\w+)` (multiline). -/
def pyClassMatcher : Option Char → List Char → Option (List Char × List Char × List Char) :=
  fun prev s =>
    if atLineStart prev then
      match matchLit "class".toList s with
      | some (m1, r1) =>
        (matchSpacesWord r1).map (fun p => (p.1, m1 ++ p.2.1, p.2.2))
      | none => none
    else none

/-- `^(?:async\s+)?def\s+(\w+)` (multiline).  When `async` + whitespace is
present but `def` does not follow, the engine retries without the optional
group at the same position (where `def` cannot match either). -/
def pyDefMatcher : Option Char → List Char → Option (List Char × List Char × List Char) :=
  fun prev s =>
    if atLineStart prev then
      let core := fun (t pre : List Char) =>
        match matchLit "def".toList t with
        | some (m2, r2) =>
          (matchSpacesWord r2).map (fun p => (p.1, pre ++ m2 ++ p.2.1, p.2.2))
        | none => none
      (match tryWordSpaces "async".toList s with
       | some (con1, r1) => (core r1 con1).orElse (fun _ => core s [])
       | none => core s [])
    else none

/-- `^(?:from\s+\S+\s+)?import\s+(.+)$` (multiline). -/
def pyImportMatcher : Option Char → List Char → Option (List Char × List Char × List Char) :=
  fun prev s =>
    if atLineStart prev then
      let plainImport := fun (t pre : List Char) =>
        match matchLit "import".toList t with
        | some (m2, r2) =>
          match Sanitizer.spaceRunThenValue 1 r2 with
          | some (sp, v, rest) => some (v, pre ++ m2 ++ sp ++ v, rest)
          | none => none
        | none => none
      let tryFrom :=
        match matchLit "from".toList s with
        | some (m1, r1) =>
          let sp1 := r1.takeWhile isPySpace
          let r2 := r1.dropWhile isPySpace
          let nw := r2.takeWhile (fun c => !isPySpace c)
          let r3 := r2.dropWhile (fun c => !isPySpace c)
          let sp2 := r3.takeWhile isPySpace
          let r4 := r3.dropWhile isPySpace
          if sp1.length ≥ 1 && nw.length ≥ 1 && sp2.length ≥ 1 then
            plainImport r4 (m1 ++ sp1 ++ nw ++ sp2)
          else none
        | none => none
      tryFrom.orElse (fun _ => plainImport s [])
    else none

/-- Search for the closing `"""` of a (DOTALL, non-greedy) docstring;
returns (text before the closing fence, rest after it). -/
def findTripleClose : List Char → Option (List Char × List Char)
  | [] => none
  | c :: t =>
    if Sanitizer.startsWithL [dq, dq, dq] (c :: t) then some ([], (c :: t).drop 3)
    else (findTripleClose t).map (fun p => (c :: p.1, p.2))

/-- `"""(.*?)"""` with `re.DOTALL`. -/
def pyDocstringMatcher : Option Char → List Char → Option (List Char × List Char × List Char) :=
  fun _ s =>
    if Sanitizer.startsWithL [dq, dq, dq] s then
      (findTripleClose (s.drop 3)).map
        (fun p => (p.1, [dq, dq, dq] ++ p.1 ++ [dq, dq, dq], p.2))
    else none

/-- Python `str.strip()` (ASCII whitespace). -/
def stripL (s : List Char) : List Char :=
  ((s.dropWhile isPySpace).reverse.dropWhile isPySpace).reverse

/-- `extract_python_summary`: (classes, functions, imports, docstring). -/
def extract_python_summary (content : List Char) :
    List (List Char) × List (List Char) × List (List Char) × List Char :=
  let classes := findAll pyClassMatcher content
  let functions := findAll pyDefMatcher content
  let importsRaw := findAll pyImportMatcher content
  let docstrings := findAll pyDocstringMatcher content
  let top := match docstrings.head? with
    | some d => (stripL d).take 200
    | none => []
  (classes, functions, (importsRaw.take 10).map stripL, top)

/-- `(?:export\s+)?class\s+(\w+)` (no anchor). -/
def jsClassMatcher : Option Char → List Char → Option (List Char × List Char × List Char) :=
  fun _ s =>
    let core := fun (t pre : List Char) =>
      match matchLit "class".toList t with
      | some (m2, r2) =>
        (matchSpacesWord r2).map (fun p => (p.1, pre ++ m2 ++ p.2.1, p.2.2))
      | none => none
    match tryWordSpaces "export".toList s with
    | some (con1, r1) => (core r1 con1).orElse (fun _ => core s [])
    | none => core s []

/-- `(?:export\s+)?(?:async\s+)?function\s+(\w+)`. -/
def jsFunctionMatcher : Option Char → List Char → Option (List Char × List Char × List Char) :=
  fun _ s =>
    let core := fun (t pre : List Char) =>
      match matchLit "function".toList t with
      | some (m2, r2) =>
        (matchSpacesWord r2).map (fun p => (p.1, pre ++ m2 ++ p.2.1, p.2.2))
      | none => none
    let withAsync := fun (t pre : List Char) =>
      match tryWordSpaces "async".toList t with
      | some (con2, r2) => (core r2 (pre ++ con2)).orElse (fun _ => core t pre)
      | none => core t pre
    match tryWordSpaces "export".toList s with
    | some (con1, r1) => (withAsync r1 con1).orElse (fun _ => withAsync s [])
    | none => withAsync s []

/-- `(?:export\s+)?(?:const|let|var)\s+(\w+)\s*=\s*(?:async\s+)?\(`. -/
def jsArrowMatcher : Option Char → List Char → Option (List Char × List Char × List Char) :=
  fun _ s =>
    let core := fun (t pre : List Char) =>
      match ((matchLit "const".toList t).orElse (fun _ => matchLit "let".toList t)).orElse
          (fun _ => matchLit "var".toList t) with
      | some (kw, r1) =>
        let sp1 := r1.takeWhile isPySpace
        let r2 := r1.dropWhile isPySpace
        let w := r2.takeWhile isPyWord
        let r3 := r2.dropWhile isPyWord
        if sp1.length ≥ 1 && w.length ≥ 1 then
          let sp2 := r3.takeWhile isPySpace
          match r3.dropWhile isPySpace with
          | '=' :: r4 =>
            let sp3 := r4.takeWhile isPySpace
            let r5 := r4.dropWhile isPySpace
            let finish := fun (t2 pre2 : List Char) =>
              match t2 with
              | '(' :: r6 => some (w, pre2 ++ ['('], r6)
              | _ => none
            let base := pre ++ kw ++ sp1 ++ w ++ sp2 ++ '=' :: sp3
            (match tryWordSpaces "async".toList r5 with
             | some (con3, r6) =>
               (finish r6 (base ++ con3)).orElse (fun _ => finish r5 base)
             | none => finish r5 base)
          | _ => none
        else none
      | none => none
    match tryWordSpaces "export".toList s with
    | some (con1, r1) => (core r1 con1).orElse (fun _ => core s [])
    | none => core s []

/-- Closing search for the lazy `(.+?)['"]` part of the JS import pattern:
minimal nonempty run of non-newline characters up to the first quote. -/
def searchCloseQuote : List Char → Option (List Char × Char × List Char)
  | [] => none
  | a :: r =>
    if a = '\n' then none
    else
      match r with
      | b :: r2 => if b = sq || b = dq then some ([a], b, r2)
                   else (searchCloseQuote r).map (fun p => (a :: p.1, p.2.1, p.2.2))
      | [] => none

/-- The lazy `.*?from\s+['"](.+?)['"]` tail: try the shortest skip first,
never skipping a newline (`.` excludes `\n`).
Returns (capture, skipped ++ matched-tail, rest). -/
def scanLazyFrom : List Char → Option (List Char × List Char × List Char)
  | [] => none
  | c :: t =>
    let tryHere : Option (List Char × List Char × List Char) :=
      match tryWordSpaces "from".toList (c :: t) with
      | some (conF, r2) =>
        (match r2 with
         | q :: r3 =>
           if q = sq || q = dq then
             (searchCloseQuote r3).map
               (fun p => (p.1, conF ++ q :: (p.1 ++ [p.2.1]), p.2.2))
           else none
         | [] => none)
      | none => none
    match tryHere with
    | some res => some res
    | none =>
      if c = '\n' then none
      else (scanLazyFrom t).map (fun p => (p.1, c :: p.2.1, p.2.2))

/-- `import\s+.*?from\s+['"](.+?)['"]`. -/
def jsImportMatcher : Option Char → List Char → Option (List Char × List Char × List Char) :=
  fun _ s =>
    match tryWordSpaces "import".toList s with
    | some (con1, r1) =>
      (scanLazyFrom r1).map (fun p => (p.1, con1 ++ p.2.1, p.2.2))
    | none => none

/-- `(?:export\s+default\s+)?function\s+([A-Z]\w+)`. -/
def jsReactMatcher : Option Char → List Char → Option (List Char × List Char × List Char) :=
  fun _ s =>
    let core := fun (t pre : List Char) =>
      match matchLit "function".toList t with
      | some (m2, r2) =>
        let sp := r2.takeWhile isPySpace
        let r3 := r2.dropWhile isPySpace
        let w := r3.takeWhile isPyWord
        let r4 := r3.dropWhile isPyWord
        if sp.length ≥ 1 && w.length ≥ 2 &&
            (match w.head? with
             | some h => 65 ≤ h.toNat && h.toNat ≤ 90
             | none => false) then
          some (w, pre ++ m2 ++ sp ++ w, r4)
        else none
      | none => none
    match tryWordSpaces "export".toList s with
    | some (con1, r1) =>
      (match tryWordSpaces "default".toList r1 with
       | some (con2, r2) => (core r2 (con1 ++ con2)).orElse (fun _ => core s [])
       | none => core s [])
    | none => core s []

/-- `extract_javascript_summary`:
(classes, functions ++ arrow functions, imports, react components). -/
def extract_javascript_summary (content : List Char) :
    List (List Char) × List (List Char) × List (List Char) × List (List Char) :=
  let classes := findAll jsClassMatcher content
  let functions := findAll jsFunctionMatcher content
  let arrow_functions := findAll jsArrowMatcher content
  let imports := findAll jsImportMatcher content
  let react_components := findAll jsReactMatcher content
  (classes, functions ++ arrow_functions, imports.take 10, react_components)

/-- `[\w.]`. -/
def isWordDot (c : Char) : Bool := isPyWord c || c = '.'

/-- `(?:public|private|protected)` in source order. -/
def javaModAlt (s : List Char) : Option (List Char × List Char) :=
  ((matchLit "public".toList s).orElse (fun _ => matchLit "private".toList s)).orElse
    (fun _ => matchLit "protected".toList s)

/-- `(?:public|private|protected)?\s*class\s+(\w+)`. -/
def javaClassMatcher : Option Char → List Char → Option (List Char × List Char × List Char) :=
  fun _ s =>
    let core := fun (t pre : List Char) =>
      let sp0 := t.takeWhile isPySpace
      match matchLit "class".toList (t.dropWhile isPySpace) with
      | some (m2, r2) =>
        (matchSpacesWord r2).map (fun p => (p.1, pre ++ sp0 ++ m2 ++ p.2.1, p.2.2))
      | none => none
    match javaModAlt s with
    | some (m1, r1) => (core r1 m1).orElse (fun _ => core s [])
    | none => core s []

/-- `interface\s+(\w+)`. -/
def javaInterfaceMatcher : Option Char → List Char → Option (List Char × List Char × List Char) :=
  fun _ s =>
    match matchLit "interface".toList s with
    | some (m1, r1) =>
      (matchSpacesWord r1).map (fun p => (p.1, m1 ++ p.2.1, p.2.2))
    | none => none

/-- `(?:public|private|protected)\s+\w+\s+(\w+)\s*\(`. -/
def javaMethodMatcher : Option Char → List Char → Option (List Char × List Char × List Char) :=
  fun _ s =>
    match javaModAlt s with
    | some (m1, r1) =>
      let sp1 := r1.takeWhile isPySpace
      let r2 := r1.dropWhile isPySpace
      let ret := r2.takeWhile isPyWord
      let r3 := r2.dropWhile isPyWord
      let sp2 := r3.takeWhile isPySpace
      let r4 := r3.dropWhile isPySpace
      let nm := r4.takeWhile isPyWord
      let r5 := r4.dropWhile isPyWord
      if sp1.length ≥ 1 && ret.length ≥ 1 && sp2.length ≥ 1 && nm.length ≥ 1 then
        let sp3 := r5.takeWhile isPySpace
        match r5.dropWhile isPySpace with
        | '(' :: r6 => some (nm, m1 ++ sp1 ++ ret ++ sp2 ++ nm ++ sp3 ++ ['('], r6)
        | _ => none
      else none
    | none => none

/-- `import\s+([\w.]+);` — the run is greedy and `;` is outside the class,
so the maximal run is the only candidate. -/
def javaImportMatcher : Option Char → List Char → Option (List Char × List Char × List Char) :=
  fun _ s =>
    match tryWordSpaces "import".toList s with
    | some (con1, r1) =>
      let w := r1.takeWhile isWordDot
      match r1.dropWhile isWordDot with
      | ';' :: r2 => if w.length ≥ 1 then some (w, con1 ++ w ++ [';'], r2) else none
      | _ => none
    | none => none

/-- `package\s+([\w.]+);`. -/
def javaPackageMatcher : Option Char → List Char → Option (List Char × List Char × List Char) :=
  fun _ s =>
    match tryWordSpaces "package".toList s with
    | some (con1, r1) =>
      let w := r1.takeWhile isWordDot
      match r1.dropWhile isWordDot with
      | ';' :: r2 => if w.length ≥ 1 then some (w, con1 ++ w ++ [';'], r2) else none
      | _ => none
    | none => none

/-- `extract_java_summary`:
(classes, interfaces, methods, imports, package). -/
def extract_java_summary (content : List Char) :
    List (List Char) × List (List Char) × List (List Char) × List (List Char) × List Char :=
  let classes := findAll javaClassMatcher content
  let interfaces := findAll javaInterfaceMatcher content
  let methods := findAll javaMethodMatcher content
  let imports := findAll javaImportMatcher content
  let package_name := findAll javaPackageMatcher content
  (classes, interfaces, methods, imports.take 10,
   match package_name.head? with | some p => p | none => [])

/-- `CODE_EXTENSIONS` (the parse-supported source extensions). -/
def CODE_EXTENSIONS : List (List Char) :=
  [".py".toList, ".js".toList, ".ts".toList, ".jsx".toList, ".tsx".toList,
   ".java".toList, ".go".toList, ".rb".toList, ".php".toList, ".cs".toList,
   ".cpp".toList, ".c".toList, ".h".toList, ".vue".toList, ".svelte".toList,
   ".rs".toList, ".kt".toList, ".swift".toList]

/-- `pathlib.Path(p).name`: the final path component. -/
def pathName (p : List Char) : List Char :=
  match ((splitOnChar '/' p).filter (fun comp => comp ≠ [])).getLast? with
  | some n => n
  | none => []

/-- `pathlib.Path(p).suffix` of a file name: `name[i:]` for the last dot
index `i` when `0 < i < len(name) - 1`, else empty. -/
def pathSuffix (name : List Char) : List Char :=
  match (name.reverse.takeWhile (fun c => c ≠ '.')).length with
  | rseg =>
    if name.reverse.length ≤ rseg then []  -- no dot at all
    else
      let i := name.length - 1 - rseg      -- index of the last dot
      if 0 < i ∧ i < name.length - 1 then name.drop i else []

/-- `is_code_file`: whether the (lower-cased) suffix is a supported
source-code extension. -/
def is_code_file (p : List Char) : Bool :=
  CODE_EXTENSIONS.contains (Sanitizer.lowerL (pathSuffix (pathName p)))

/-- The summary record produced for one file.  Python builds a dict whose
keys vary with the file type; absent keys are `none`. -/
structure FileSummary where
  file_path : List Char
  file_name : List Char
  extension : List Char
  line_count : Nat
  is_large : Bool
  classes : Option (List (List Char)) := none
  functions : Option (List (List Char)) := none
  imports : Option (List (List Char)) := none
  docstring : Option (List Char) := none
  react_components : Option (List (List Char)) := none
  interfaces : Option (List (List Char)) := none
  methods : Option (List (List Char)) := none
  package : Option (List Char) := none
  preview : Option (List Char) := none
  note : Option (List Char) := none
  sanitized_preview : Option (List Char) := none
  ai_summary : Option (List Char) := none
deriving Repr, DecidableEq

/-- `extract_file_summary(file_path, content)`. -/
def extract_file_summary (file_path content : List Char) : FileSummary :=
  let name := pathName file_path
  let suffix := Sanitizer.lowerL (pathSuffix name)
  let base : FileSummary :=
    { file_path := file_path
      file_name := name
      extension := suffix
      line_count := content.count '\n' + 1
      is_large := decide (content.length > MAX_FILE_SIZE_BYTES) }
  if suffix = ".py".toList then
    let e := extract_python_summary content
    { base with classes := some e.1, functions := some e.2.1,
                imports := some e.2.2.1, docstring := some e.2.2.2 }
  else if suffix = ".js".toList ∨ suffix = ".ts".toList ∨ suffix = ".jsx".toList
      ∨ suffix = ".tsx".toList ∨ suffix = ".vue".toList ∨ suffix = ".svelte".toList then
    let e := extract_javascript_summary content
    { base with classes := some e.1, functions := some e.2.1,
                imports := some e.2.2.1, react_components := some e.2.2.2 }
  else if suffix = ".java".toList then
    let e := extract_java_summary content
    { base with classes := some e.1, interfaces := some e.2.1,
                methods := some e.2.2.1, imports := some e.2.2.2.1,
                package := some e.2.2.2.2 }
  else
    { base with preview := some (joinSep '\n' ((splitOnChar '\n' content).take 10)) }

/-- The per-file body of `scan_project_files` for a file that passed the
skip and extension filters: files whose on-disk size exceeds the ceiling
get only a metadata note; the others are read and summarized.
(`file_size` is the raw byte length `st_size`.) -/
def scan_file_entry (relative_path : List Char) (file_size : Nat) (content : List Char) :
    FileSummary :=
  if file_size > MAX_FILE_SIZE_BYTES then
    { file_path := relative_path
      file_name := pathName relative_path
      extension := Sanitizer.lowerL (pathSuffix (pathName relative_path))
      line_count := 0
      is_large := true
      note := some ("文件过大（".toList ++ (Nat.repr (file_size / 1024)).toList
        ++ "KB），仅记录元信息".toList) }
  else
    extract_file_summary relative_path content

end Chunker

namespace LLM

/-! ## `backend/app/services/llm_service.py` — JSON repair

`json.loads` is embedded as a strict JSON parser over `List Char`
(whitespace ` \t\n\r`; literals `true/false/null` plus Python's accepted
`NaN`, `Infinity`, `-Infinity`; strings with the standard escapes; numbers
kept as lexemes, since no claim inspects numeric values; duplicate object
keys resolved last-wins as in a Python dict).  Surrogate-pair `\u` escapes
are out of modelled scope (each unit is decoded independently). -/
/-- A parsed JSON value. -/
inductive Json where
  | null
  | bool (b : Bool)
  | str (s : List Char)
  | num (lexeme : List Char)
  | arr (items : List Json)
  | obj (fields : List (List Char × Json))

/-- JSON whitespace accepted by `json.loads`. -/
def isJsonWs (c : Char) : Bool :=
  c.toNat = 32 || c.toNat = 9 || c.toNat = 10 || c.toNat = 13

/-- Python-dict insertion: updating an existing key keeps its position. -/
def objUpdate (fields : List (List Char × Json)) (k : List Char) (v : Json) :
    List (List Char × Json) :=
  if fields.any (fun p => p.1 = k) then
    fields.map (fun p => if p.1 = k then (k, v) else p)
  else fields ++ [(k, v)]

def hexVal (c : Char) : Option Nat :=
  if 48 ≤ c.toNat ∧ c.toNat ≤ 57 then some (c.toNat - 48)
  else if 97 ≤ c.toNat ∧ c.toNat ≤ 102 then some (c.toNat - 87)
  else if 65 ≤ c.toNat ∧ c.toNat ≤ 70 then some (c.toNat - 55)
  else none

/-- The body of a JSON string after the opening quote; returns
(decoded characters, rest after the closing quote). -/
def parseStringBody : List Char → Option (List Char × List Char)
  | [] => none
  | c :: t =>
    if c = dq then some ([], t)
    else if c = '\\' then
      match t with
      | e :: t2 =>
        if e = 'u' then
          match t2 with
          | h1 :: h2 :: h3 :: h4 :: t3 =>
            match hexVal h1, hexVal h2, hexVal h3, hexVal h4 with
            | some a, some b, some c2, some d =>
              (parseStringBody t3).map
                (fun p => (Char.ofNat (a * 4096 + b * 256 + c2 * 16 + d) :: p.1, p.2))
            | _, _, _, _ => none
          | _ => none
        else
          match
            (if e = dq then some dq
             else if e = '\\' then some '\\'
             else if e = '/' then some '/'
             else if e = 'b' then some (Char.ofNat 8)
             else if e = 'f' then some (Char.ofNat 12)
             else if e = 'n' then some '\n'
             else if e = 'r' then some '\r'
             else if e = 't' then some '\t'
             else none) with
          | some d => (parseStringBody t2).map (fun p => (d :: p.1, p.2))
          | none => none
      | [] => none
    else if c.toNat < 32 then none
    else (parseStringBody t).map (fun p => (c :: p.1, p.2))

/-- The number lexeme `-?(0|[1-9]\d*)(\.\d+)?([eE][-+]?\d+)?`. -/
def parseNumber (s : List Char) : Option (List Char × List Char) :=
  let sgnR : List Char × List Char :=
    match s with
    | '-' :: r => (['-'], r)
    | _ => ([], s)
  match sgnR.2 with
  | [] => none
  | c :: _ =>
    if !(isPyDigit c) then none
    else
      let ipR : List Char × List Char :=
        if c = '0' then (['0'], sgnR.2.tail)
        else (sgnR.2.takeWhile isPyDigit, sgnR.2.dropWhile isPyDigit)
      let fpR : List Char × List Char :=
        match ipR.2 with
        | '.' :: rest =>
          let ds := rest.takeWhile isPyDigit
          if ds.length ≥ 1 then ('.' :: ds, rest.dropWhile isPyDigit) else ([], ipR.2)
        | _ => ([], ipR.2)
      let epR : List Char × List Char :=
        match fpR.2 with
        | e :: rest =>
          if e = 'e' || e = 'E' then
            let esR : List Char × List Char :=
              match rest with
              | '+' :: rr => (['+'], rr)
              | '-' :: rr => (['-'], rr)
              | _ => ([], rest)
            let ds := esR.2.takeWhile isPyDigit
            if ds.length ≥ 1 then (e :: esR.1 ++ ds, esR.2.dropWhile isPyDigit)
            else ([], fpR.2)
          else ([], fpR.2)
        | [] => ([], fpR.2)
      some (sgnR.1 ++ ipR.1 ++ fpR.1 ++ epR.1, epR.2)

mutual

/-- One JSON value (leading whitespace skipped); fuel bounds the nesting
and iteration count and `input length + 1` always suffices. -/
def parseValue : Nat → List Char → Option (Json × List Char)
  | 0, _ => none
  | fuel + 1, s =>
    let t := s.dropWhile isJsonWs
    match t with
    | [] => none
    | c :: r =>
      if c = '{' then
        match r.dropWhile isJsonWs with
        | '}' :: r3 => some (Json.obj [], r3)
        | _ => parseMembers fuel r []
      else if c = '[' then
        match r.dropWhile isJsonWs with
        | ']' :: r3 => some (Json.arr [], r3)
        | _ => parseItems fuel r []
      else if c = dq then
        (parseStringBody r).map (fun p => (Json.str p.1, p.2))
      else if Sanitizer.startsWithL "true".toList t then
        some (Json.bool true, t.drop 4)
      else if Sanitizer.startsWithL "false".toList t then
        some (Json.bool false, t.drop 5)
      else if Sanitizer.startsWithL "null".toList t then
        some (Json.null, t.drop 4)
      else if Sanitizer.startsWithL "NaN".toList t then
        some (Json.num "NaN".toList, t.drop 3)
      else if Sanitizer.startsWithL "Infinity".toList t then
        some (Json.num "Infinity".toList, t.drop 8)
      else if Sanitizer.startsWithL "-Infinity".toList t then
        some (Json.num "-Infinity".toList, t.drop 9)
      else
        (parseNumber t).map (fun p => (Json.num p.1, p.2))

/-- Object members after `{` (at least one member present). -/
def parseMembers : Nat → List Char → List (List Char × Json) →
    Option (Json × List Char)
  | 0, _, _ => none
  | fuel + 1, s, acc =>
    match s.dropWhile isJsonWs with
    | c :: r =>
      if c = dq then
        match parseStringBody r with
        | some (k, r2) =>
          match r2.dropWhile isJsonWs with
          | ':' :: r4 =>
            match parseValue fuel r4 with
            | some (v, r5) =>
              match r5.dropWhile isJsonWs with
              | ',' :: r7 => parseMembers fuel r7 (objUpdate acc k v)
              | '}' :: r7 => some (Json.obj (objUpdate acc k v), r7)
              | _ => none
            | none => none
          | _ => none
        | none => none
      else none
    | [] => none

/-- Array items after `[` (at least one item present). -/
def parseItems : Nat → List Char → List Json → Option (Json × List Char)
  | 0, _, _ => none
  | fuel + 1, s, acc =>
    match parseValue fuel s with
    | some (v, r) =>
      match r.dropWhile isJsonWs with
      | ',' :: r3 => parseItems fuel r3 (acc ++ [v])
      | ']' :: r3 => some (Json.arr (acc ++ [v]), r3)
      | _ => none
    | none => none

end

/-- `json.loads`: a single value spanning the whole (whitespace-trimmed)
input, or failure. -/
def json_loads (s : List Char) : Option Json :=
  match parseValue (s.length + 1) s with
  | some (v, rest) => if rest.dropWhile isJsonWs = [] then some v else none
  | none => none

/-- The typed error of the LLM service; `validate_and_parse_json` raises
it with a message embedding the first 200 characters of the trimmed text. -/
inductive LLMError where
  | llmError (message : List Char)
deriving Repr, DecidableEq

/-- The constant prefix of the parse-failure message
(`无法将 AI 返回内容解析为合法 JSON。原始内容前 200 字符：`). -/
def errPrefix : List Char :=
  "无法将 AI 返回内容解析为合法 JSON。原始内容前 200 字符：".toList

/-- Index of the first occurrence of `c` (`str.find`, `None` for -1). -/
def findIdx (c : Char) (s : List Char) : Option Nat :=
  s.findIdx? (fun x => x = c)

/-- Index of the last occurrence of `c` (`str.rfind`). -/
def rfindIdx (c : Char) (s : List Char) : Option Nat :=
  (s.reverse.findIdx? (fun x => x = c)).map (fun j => s.length - 1 - j)

/-- First index whose stripped line does not start with a code fence
(default 0, as in the source loop). -/
def findFirstNonFence (lines : List (List Char)) : Nat :=
  match lines.findIdx? (fun l => !(Sanitizer.startsWithL "```".toList (Chunker.stripL l))) with
  | some i => i
  | none => 0

/-- One past the last index whose stripped line does not start with a code
fence (default `lines.length`). -/
def findLastNonFence (lines : List (List Char)) : Nat :=
  match lines.reverse.findIdx?
      (fun l => !(Sanitizer.startsWithL "```".toList (Chunker.stripL l))) with
  | some j => lines.length - j
  | none => lines.length

/-- The fence-stripping recovery: join the non-fence line range and parse. -/
def fenceStrategy (cleaned : List Char) : Option Json :=
  if Sanitizer.startsWithL "```".toList cleaned then
    let lines := Chunker.splitOnChar '\n' cleaned
    let start_index := findFirstNonFence lines
    let end_index := findLastNonFence lines
    if start_index < end_index then
      json_loads (Chunker.stripL
        (Chunker.joinSep '\n' ((lines.drop start_index).take (end_index - start_index))))
    else none
  else none

/-- The substring from the first `{` to the last `}`, parsed. -/
def braceStrategy (cleaned : List Char) : Option Json :=
  match findIdx '{' cleaned, rfindIdx '}' cleaned with
  | some a, some b =>
    if b > a then json_loads ((cleaned.drop a).take (b - a + 1)) else none
  | _, _ => none

/-- The substring from the first `[` to the last `]`, parsed and wrapped
under the key `items`. -/
def bracketStrategy (cleaned : List Char) : Option Json :=
  match findIdx '[' cleaned, rfindIdx ']' cleaned with
  | some a, some b =>
    if b > a then
      (json_loads ((cleaned.drop a).take (b - a + 1))).map
        (fun v => Json.obj [("items".toList, v)])
    else none
  | _, _ => none

/-- `validate_and_parse_json`, mirroring the source's try/except cascade
(the source's `cleaned` binding is inlined as `Chunker.stripL raw_text`). -/
def validate_and_parse_json (raw_text : List Char) : Except LLMError Json :=
  match json_loads (Chunker.stripL raw_text) with
  | some v => .ok v
  | none =>
    match fenceStrategy (Chunker.stripL raw_text) with
    | some v => .ok v
    | none =>
      match braceStrategy (Chunker.stripL raw_text) with
      | some v => .ok v
      | none =>
        match bracketStrategy (Chunker.stripL raw_text) with
        | some v => .ok v
        | none => .error (.llmError (errPrefix ++ (Chunker.stripL raw_text).take 200))

/-- The claim's reading of the repair routine: an ordered strategy list —
direct parse of the trimmed text, fence-stripped parse when the text
starts with a code fence, first-`{`-to-last-`}` substring, then
first-`[`-to-last-`]` substring wrapped under `items` — returning the
first success, and otherwise a typed error carrying the first 200
characters of the trimmed text. -/
def validate_and_parse_json_spec (raw_text : List Char) : Except LLMError Json :=
  match ([json_loads (Chunker.stripL raw_text),
          fenceStrategy (Chunker.stripL raw_text),
          braceStrategy (Chunker.stripL raw_text),
          bracketStrategy (Chunker.stripL raw_text)].findSome? (fun x => x)) with
  | some v => .ok v
  | none => .error (.llmError (errPrefix ++ (Chunker.stripL raw_text).take 200))

end LLM

namespace Service

/-! ## `backend/app/services/project_service.py`

The task registry lives in `self.tasks`; times are integers; external
effects — archive extraction, directory scanning, the two LLM calls, and
`shutil.rmtree` — are supplied by an oracle describing their outcomes, so
the pipeline's control flow, task mutations and cleanup are the embedded
program.  Ghost fields (`cleanupCalls`, `extractCalls`, `progTrace`,
`statusTrace`) record the event history that the claims speak about. -/
/-- `TASK_EXPIRY_SECONDS = 24 * 60 * 60`. -/
def TASK_EXPIRY_SECONDS : Int := 24 * 60 * 60

/-- A directory-tree node as built by `_build_tree` (file nodes carry
`name`, `path`, `description`, `summary`). -/
inductive Tree where
  | file (name path description summary : List Char)
  | folder (name path : List Char) (children : List Tree)

/-- The `project_data` payload saved on completion. -/
structure ProjectData where
  tree : Tree
  mermaid_diagram : List Char

/-- One record of `self.tasks`. -/
structure Task where
  task_id : List Char
  file_list : List (List Char)
  directory : List Char
  status : List Char
  progress : Nat
  message : List Char
  project_data : Option ProjectData := none
  file_summaries : List Chunker.FileSummary := []
  created_at : Int

/-- The service state: the task registry plus the task's working
directory flag and ghost event histories. -/
structure SState where
  tasks : List (List Char × Task)
  dirExists : Bool
  cleanupCalls : Nat := 0
  extractCalls : Nat := 0
  progTrace : List Nat := []
  statusTrace : List (List Char) := []

/-- A Python exception: either the typed `LLMError` or any other
exception. -/
inductive PyErr where
  | llm (msg : List Char)
  | other (msg : List Char)
deriving Repr, DecidableEq

def errText : PyErr → List Char
  | .llm m => m
  | .other m => m

/-- Dict lookup (`self.tasks[tid]` / `.get`): last binding wins, though
task ids are in fact unique. -/
def lookupTask (tasks : List (List Char × Task)) (tid : List Char) : Option Task :=
  (tasks.reverse.find? (fun p => p.1 = tid)).map (fun p => p.2)

/-- Dict value update `self.tasks[tid][...] = ...` (keys unchanged). -/
def updateTask (tasks : List (List Char × Task)) (tid : List Char) (f : Task → Task) :
    List (List Char × Task) :=
  tasks.map (fun p => if p.1 = tid then (p.1, f p.2) else p)

/-- Dict insertion `self.tasks[tid] = task`. -/
def insertTask (tasks : List (List Char × Task)) (tid : List Char) (t : Task) :
    List (List Char × Task) :=
  if tasks.any (fun p => p.1 = tid) then
    tasks.map (fun p => if p.1 = tid then (tid, t) else p)
  else tasks ++ [(tid, t)]

/-- `_update_progress`. -/
def update_progress (tid : List Char) (p : Nat) (msg : List Char) (st : SState) : SState :=
  { st with
    tasks := updateTask st.tasks tid (fun t => { t with progress := p, message := msg })
    progTrace := st.progTrace ++ [p] }

def set_status (tid : List Char) (stat : List Char) (st : SState) : SState :=
  { st with
    tasks := updateTask st.tasks tid (fun t => { t with status := stat })
    statusTrace := st.statusTrace ++ [stat] }

def set_message (tid : List Char) (msg : List Char) (st : SState) : SState :=
  { st with tasks := updateTask st.tasks tid (fun t => { t with message := msg }) }

/-- The `except` branch of `_parse_project`: mark the task failed with the
captured message (status write, then message write). -/
def fail_task (tid : List Char) (e : PyErr) (st : SState) : SState :=
  set_message tid ("解析失败: ".toList ++ errText e) (set_status tid "failed".toList st)

/-- `_safe_cleanup`: always invoked where called; removes the directory if
it exists, and an `OSError` from `shutil.rmtree` is logged and swallowed
(`rmtreeOk = false` leaves the directory in place). -/
def safe_cleanup (rmtreeOk : Bool) (st : SState) : SState :=
  let st1 := { st with cleanupCalls := st.cleanupCalls + 1 }
  if st1.dirExists then
    if rmtreeOk then { st1 with dirExists := false } else st1
  else st1

mutual

/-- `_is_empty_project`. -/
def is_empty_project : Tree → Bool
  | .file name _ _ _ => !(Chunker.is_code_file name)
  | .folder _ _ children => is_empty_forest children

def is_empty_forest : List Tree → Bool
  | [] => true
  | t :: ts => is_empty_project t && is_empty_forest ts

end

/-- The `_generate_file_description` suffix table. -/
def descriptionsTable : List (List Char × List Char) :=
  [(".py".toList, "Python 源代码 — 后端逻辑".toList),
   (".js".toList, "JavaScript 源代码 — 前端交互".toList),
   (".ts".toList, "TypeScript 源代码 — 带类型的前端逻辑".toList),
   (".jsx".toList, "React 组件 — 界面模块".toList),
   (".tsx".toList, "React TypeScript 组件 — 带类型的界面模块".toList),
   (".java".toList, "Java 源代码 — 后端服务".toList),
   (".go".toList, "Go 源代码 — 高性能后端".toList),
   (".css".toList, "样式表 — 页面的「衣服」".toList),
   (".scss".toList, "Sass 样式表 — 高级版的「衣服」".toList),
   (".html".toList, "网页模板 — 页面的「骨架」".toList),
   (".json".toList, "配置文件 — 系统的「说明书」".toList),
   (".yml".toList, "配置文件 — 系统的「说明书」".toList),
   (".yaml".toList, "配置文件 — 系统的「说明书」".toList),
   (".md".toList, "文档 — 项目的「使用手册」".toList),
   (".sql".toList, "数据库脚本 — 档案室的「整理规则」".toList),
   (".vue".toList, "Vue 组件 — 界面模块".toList),
   (".svelte".toList, "Svelte 组件 — 轻量界面模块".toList)]

/-- `_generate_file_description`: the static type-based description. -/
def generate_file_description (p : List Char) : List Char :=
  match descriptionsTable.find?
      (fun e => e.1 = Sanitizer.lowerL (Chunker.pathSuffix (Chunker.pathName p))) with
  | some e => e.2
  | none => "文件".toList

/-- Generic dict insertion (last value wins, position kept). -/
def dictInsert (d : List (List Char × List Char)) (k v : List Char) :
    List (List Char × List Char) :=
  if d.any (fun p => p.1 = k) then
    d.map (fun p => if p.1 = k then (k, v) else p)
  else d ++ [(k, v)]

/-- The static fallback map of `_batch_summarize_files`: file path →
type-based description. -/
def static_fallback_summaries (files : List Chunker.FileSummary) :
    List (List Char × List Char) :=
  files.foldl (fun acc f => dictInsert acc f.file_path (generate_file_description f.file_name)) []

/-- `_batch_summarize_files`, with the `generate_json` outcome supplied:
on success keep the string-valued entries of the parsed object; on
`LLMError` fall back to the static descriptions; a non-object success
raises (`.items()` on a non-dict), and any other exception propagates. -/
def batch_summarize_files (files : List Chunker.FileSummary)
    (llm : Except PyErr LLM.Json) :
    Except PyErr (List (List Char × List Char)) :=
  match llm with
  | .ok (LLM.Json.obj fields) =>
    .ok (fields.foldl (fun acc p =>
      match p.2 with
      | LLM.Json.str v => dictInsert acc p.1 v
      | _ => acc) [])
  | .ok _ => .error (.other "AttributeError: items".toList)
  | .error (.llm _) => .ok (static_fallback_summaries files)
  | .error (.other m) => .error (.other m)

/-- In-place `ai_summary` writes via `summary_map`: for each record that
is its path's dict representative (the last with that path), set
`ai_summary` when the batch produced a value for the path. -/
def setAiSummaries : List Chunker.FileSummary → List (List Char × List Char) →
    List Chunker.FileSummary
  | [], _ => []
  | s :: rest, updates =>
    (if rest.all (fun t => t.file_path ≠ s.file_path) then
      match (updates.reverse.find? (fun p => p.1 = s.file_path)) with
      | some p => { s with ai_summary := some p.2 }
      | none => s
    else s) :: setAiSummaries rest updates

mutual

/-- `_apply_summaries_to_tree`: write nonempty `ai_summary` values into
file nodes. -/
def apply_summaries_to_tree : Tree → List Chunker.FileSummary → Tree
  | .file name path description summary, m =>
    (match (m.reverse.find? (fun s => s.file_path = path)) with
     | some s =>
       (match s.ai_summary with
        | some a => if a ≠ [] then .file name path description a
                    else .file name path description summary
        | none => .file name path description summary)
     | none => .file name path description summary)
  | .folder name path children, m => .folder name path (apply_summaries_forest children m)

def apply_summaries_forest : List Tree → List Chunker.FileSummary → List Tree
  | [], _ => []
  | t :: ts, m => apply_summaries_to_tree t m :: apply_summaries_forest ts m

end

/-- `_enrich_tree_with_summaries` (returning the mutated summary list as
well, since the records are shared with the caller's list). -/
def enrich_tree_with_summaries (tree : Tree) (file_summaries : List Chunker.FileSummary)
    (llmBatch : Except PyErr LLM.Json) :
    Except PyErr (Tree × List Chunker.FileSummary) :=
  let code_files := file_summaries.filter (fun s =>
    Chunker.is_code_file s.file_name &&
    Chunker.stripL (match s.sanitized_preview with | some v => v | none => []) ≠ [])
  if code_files = [] then
    .ok (apply_summaries_to_tree tree file_summaries, file_summaries)
  else
    match batch_summarize_files (code_files.take 20) llmBatch with
    | .ok updates =>
      let fs2 := setAiSummaries file_summaries updates
      .ok (apply_summaries_to_tree tree fs2, fs2)
    | .error e => .error e

/-- The markdown-fence cleanup of the mermaid reply. -/
def cleanMermaid (mermaid_code : List Char) : List Char :=
  let cleaned := Chunker.stripL mermaid_code
  let cleaned2 :=
    if Sanitizer.startsWithL "```".toList cleaned then
      Chunker.joinSep '\n' ((Chunker.splitOnChar '\n' cleaned).drop 1)
    else cleaned
  if Sanitizer.endsWithL "```".toList cleaned2 then
    Chunker.stripL (cleaned2.take (cleaned2.length - 3))
  else cleaned2

/-- Append a file name to its top-level folder's list (insertion order). -/
def folderAppend (d : List (List Char × List (List Char))) (k name : List Char) :
    List (List Char × List (List Char)) :=
  if d.any (fun p => p.1 = k) then
    d.map (fun p => if p.1 = k then (p.1, p.2 ++ [name]) else p)
  else d ++ [(k, [name])]

/-- `_generate_fallback_mermaid`: deterministic local graph of top-level
folders `F0 → F1 → ...`. -/
def generate_fallback_mermaid (file_summaries : List Chunker.FileSummary) : List Char :=
  let folders := file_summaries.foldl (fun acc s =>
    match Chunker.splitOnChar '/' s.file_path with
    | _ :: [] => acc
    | [] => acc
    | f :: _ :: _ => folderAppend acc f s.file_name) []
  let nodeLines := (List.range folders.length).zip folders |>.map (fun p =>
    "    F".toList ++ (Nat.repr p.1).toList ++ "[".toList ++ [dq] ++ p.2.1 ++ [dq] ++ "]".toList)
  let edgeLines := (List.range (folders.length - 1)).map (fun i =>
    "    F".toList ++ (Nat.repr i).toList ++ " --> F".toList ++ (Nat.repr (i + 1)).toList)
  Chunker.joinSep '\n' ("graph TD".toList :: (nodeLines ++ edgeLines))

/-- `_generate_mermaid_with_llm` with the `chat_completion` outcome
supplied: clean the reply, or fall back to the local graph on `LLMError`;
other exceptions propagate. -/
def generate_mermaid_with_llm (file_summaries : List Chunker.FileSummary)
    (llm : Except PyErr (List Char)) : Except PyErr (List Char) :=
  match llm with
  | .ok mermaid_code => .ok (cleanMermaid mermaid_code)
  | .error (.llm _) => .ok (generate_fallback_mermaid file_summaries)
  | .error (.other m) => .error (.other m)

/-- Outcomes of the external effects of one `_parse_project` run. -/
structure ParseOracle where
  unzip : Except PyErr Unit
  scanTree : Except PyErr Tree
  scanSummaries : Except PyErr (List Chunker.FileSummary)
  sanitized : Except PyErr (List Chunker.FileSummary)
  llmBatch : Except PyErr LLM.Json
  llmMermaid : Except PyErr (List Char)
  rmtreeOk : Bool

/-- `_parse_project`: the background pipeline.  The `try` body runs the
stages in order; the first exception jumps to the `except` branch; the
`finally` branch (`_safe_cleanup`) runs on every exit path, including the
early `return` of the empty-project branch (which also cleans explicitly,
hence twice there). -/
def parse_project (o : ParseOracle) (tid : List Char) (st0 : SState) : SState :=
  let st1 := update_progress tid 10 "正在解压文件...".toList st0
  let st2 := { st1 with dirExists := true }
  match o.unzip with
  | .error e => safe_cleanup o.rmtreeOk (fail_task tid e st2)
  | .ok _ =>
    let st3 := update_progress tid 25 "正在扫描目录结构...".toList st2
    match o.scanTree with
    | .error e => safe_cleanup o.rmtreeOk (fail_task tid e st3)
    | .ok tree =>
      if is_empty_project tree then
        let stE := set_message tid "项目为空或不包含可解析的源代码文件".toList
          (set_status tid "failed".toList st3)
        safe_cleanup o.rmtreeOk (safe_cleanup o.rmtreeOk stE)
      else
        let st4 := update_progress tid 40 "正在提取代码摘要...".toList st3
        match o.scanSummaries with
        | .error e => safe_cleanup o.rmtreeOk (fail_task tid e st4)
        | .ok _ =>
          let st5 := update_progress tid 50 "正在进行代码脱敏...".toList st4
          match o.sanitized with
          | .error e => safe_cleanup o.rmtreeOk (fail_task tid e st5)
          | .ok sanitized_summaries =>
            let st6 := update_progress tid 60 "AI 正在翻阅代码，生成白话摘要...".toList st5
            match enrich_tree_with_summaries tree sanitized_summaries o.llmBatch with
            | .error e => safe_cleanup o.rmtreeOk (fail_task tid e st6)
            | .ok enriched =>
              let st7 := update_progress tid 80 "正在生成架构图...".toList st6
              match generate_mermaid_with_llm enriched.2 o.llmMermaid with
              | .error e => safe_cleanup o.rmtreeOk (fail_task tid e st7)
              | .ok mermaid_diagram =>
                let st8 := update_progress tid 95 "正在整理结果...".toList st7
                let st9 := { st8 with tasks := updateTask st8.tasks tid (fun t =>
                  { t with project_data := some ⟨enriched.1, mermaid_diagram⟩
                           file_summaries := enriched.2 }) }
                let st10 := set_status tid "completed".toList st9
                let st11 := { st10 with
                  tasks := updateTask st10.tasks tid (fun t => { t with progress := 100 })
                  progTrace := st10.progTrace ++ [100] }
                let st12 := set_message tid "项目解析完成！".toList st11
                safe_cleanup o.rmtreeOk st12

/-- Outcomes of the external effects of one `upload_and_parse` call. -/
structure UploadOracle where
  extract : Except PyErr Unit
  fileList : List (List Char)
  newTaskId : List Char
  uploadTime : Int

/-- `settings.max_upload_size_bytes = MAX_UPLOAD_SIZE_MB * 1024 * 1024`. -/
def max_upload_size_bytes (mb : Nat) : Nat := mb * 1024 * 1024

/-- `upload_and_parse` up to the spawning of the background task: size
check, archive check, extraction, then creation of the task record.  The
result pairs the returned value (or raised `ValueError`) with the new
state. -/
def upload_and_parse (o : UploadOracle) (mb : Nat) (fileLen : Nat) (isZip : Bool)
    (st : SState) : Except PyErr (List Char × List (List Char)) × SState :=
  if fileLen > max_upload_size_bytes mb then
    (.error (.other "文件大小超过限制".toList), st)
  else if !isZip then
    (.error (.other "上传的文件不是有效的 ZIP 格式".toList), st)
  else
    let st1 := { st with dirExists := true, extractCalls := st.extractCalls + 1 }
    match o.extract with
    | .error e => (.error (.other ("解析失败: ".toList ++ errText e)), st1)
    | .ok _ =>
      let task : Task :=
        { task_id := o.newTaskId
          file_list := o.fileList
          directory := "/tmp/codestory_".toList ++ o.newTaskId
          status := "processing".toList
          progress := 0
          message := "开始解析项目...".toList
          created_at := o.uploadTime }
      (.ok (o.newTaskId, o.fileList),
       { st1 with tasks := insertTask st1.tasks o.newTaskId task })

/-- The response shape of `get_task_status`. -/
inductive StatusResp where
  | not_found (message : List Char)
  | found (task_id status : List Char) (progress : Nat) (message : List Char)

/-- `get_task_status` (returns the response and the — untouched — state). -/
def get_task_status (tid : List Char) (st : SState) : StatusResp × SState :=
  match lookupTask st.tasks tid with
  | none => (.not_found "任务不存在".toList, st)
  | some t => (.found tid t.status t.progress t.message, st)

/-- `get_project_data`. -/
def get_project_data (tid : List Char) (st : SState) : Option ProjectData × SState :=
  match lookupTask st.tasks tid with
  | none => (none, st)
  | some t => if t.status ≠ "completed".toList then (none, st) else (t.project_data, st)

/-- `get_file_summaries`. -/
def get_file_summaries (tid : List Char) (st : SState) :
    List Chunker.FileSummary × SState :=
  match lookupTask st.tasks tid with
  | none => ([], st)
  | some t => if t.status ≠ "completed".toList then ([], st) else (t.file_summaries, st)

/-- `_cleanup_expired_tasks`: collect the expired ids, then delete them. -/
def cleanup_expired_tasks (now : Int) (st : SState) : SState :=
  let expired_ids :=
    (st.tasks.filter (fun p => now - p.2.created_at > TASK_EXPIRY_SECONDS)).map (fun p => p.1)
  { st with tasks := expired_ids.foldl (fun acc tid => acc.filter (fun p => p.1 ≠ tid)) st.tasks }

/-- A closed initial state for witnesses. -/
def stEmpty : SState := { tasks := [], dirExists := false }

/-- A fresh `processing` task record for pipeline witnesses. -/
def taskAt0 : Task :=
  { task_id := "t".toList, file_list := [], directory := [], status := "processing".toList
    progress := 0, message := [], created_at := 0 }

/-- An oracle whose stages all succeed on a one-code-file project, with a
failing `rmtree`. -/
def okOracleRmFail : ParseOracle :=
  { unzip := .ok ()
    scanTree := .ok (.file "a.py".toList "a.py".toList [] [])
    scanSummaries := .ok []
    sanitized := .ok []
    llmBatch := .ok (LLM.Json.obj [])
    llmMermaid := .ok "graph TD".toList
    rmtreeOk := false }

/-- A one-task initial state for pipeline witnesses. -/
def stOne : SState :=
  { tasks := [("t".toList, taskAt0)], dirExists := false }

/-- The progress values written on the success path. -/
def fullProgress : List Nat := [10, 25, 40, 50, 60, 80, 95, 100]

/-- The summary list produced by the enrichment stage when the batch LLM
call fails with `LLMError`: the records that were sent for summarization
receive the static type-based description as their `ai_summary`. -/
def fallback_summaries_for (sans : List Chunker.FileSummary) : List Chunker.FileSummary :=
  let code_files := sans.filter (fun s =>
    Chunker.is_code_file s.file_name &&
    Chunker.stripL (match s.sanitized_preview with | some v => v | none => []) ≠ [])
  if code_files = [] then sans
  else setAiSummaries sans (static_fallback_summaries (code_files.take 20))

/-- An oracle on the one-code-file project in which both LLM stages fail
with the typed `LLMError`. -/
def oLLMFail : ParseOracle :=
  { okOracleRmFail with
    llmBatch := .error (.llm "x".toList)
    llmMermaid := .error (.llm "y".toList)
    rmtreeOk := true }

/-- A young and an old task for the C10 witness. -/
def taskAt (tidc : List Char) (t : Int) : Task :=
  { task_id := tidc, file_list := [], directory := [], status := "processing".toList
    progress := 0, message := [], created_at := t }

def stTwo : SState :=
  { tasks := [("a".toList, taskAt "a".toList 0), ("b".toList, taskAt "b".toList 90000)]
    dirExists := false }

end Service

namespace Chunker

theorem splitOnChar_ne_nil (sep : Char) (s : List Char) : splitOnChar sep s ≠ [] := by
  cases s with
  | nil => simp [splitOnChar]
  | cons c t =>
    simp only [splitOnChar]
    cases h : splitOnChar sep t with
    | nil => simp
    | cons h r =>
      by_cases hc : c = sep <;> simp [hc]

theorem joinSep_cons_cons (sep : Char) (c : Char) (h : List Char) (r : List (List Char)) :
    joinSep sep ((c :: h) :: r) = c :: joinSep sep (h :: r) := by
  cases r <;> rfl

theorem joinSep_cons_ne (sep : Char) (x : List Char) (xs : List (List Char)) (hxs : xs ≠ []) :
    joinSep sep (x :: xs) = x ++ sep :: joinSep sep xs := by
  cases xs with
  | nil => exact absurd rfl hxs
  | cons a b => rfl

theorem joinSep_splitOnChar (sep : Char) (s : List Char) :
    joinSep sep (splitOnChar sep s) = s := by
  induction s with
  | nil => rfl
  | cons c t ih =>
    cases hsp : splitOnChar sep t with
    | nil => exact absurd hsp (splitOnChar_ne_nil sep t)
    | cons h r =>
      simp only [splitOnChar, hsp]
      by_cases hc : c = sep
      · rw [if_pos hc]
        rw [joinSep_cons_ne sep [] (h :: r) (by simp)]
        rw [← hsp, ih, hc]
        rfl
      · rw [if_neg hc, joinSep_cons_cons, ← hsp, ih]

theorem chunkLoop_ne_nil (mc : Int) (ls : List (List Char)) (cur : List (List Char))
    (curLen : Int) (hcur : cur ≠ []) : chunkLoop mc ls cur curLen ≠ [] := by
  induction ls generalizing cur curLen with
  | nil => simp [chunkLoop, hcur]
  | cons l ls ih =>
    simp only [chunkLoop]
    split
    · simp
    · exact ih (cur ++ [l]) _ (by simp)

theorem joinSep_append_cons (sep : Char) (xs : List (List Char)) (y : List Char)
    (ys : List (List Char)) (hxs : xs ≠ []) :
    joinSep sep (xs ++ y :: ys) = joinSep sep xs ++ sep :: joinSep sep (y :: ys) := by
  induction xs with
  | nil => exact absurd rfl hxs
  | cons x xs ih =>
    cases xs with
    | nil => rfl
    | cons x2 xs2 =>
      rw [List.cons_append]
      rw [joinSep_cons_ne sep x (x2 :: xs2 ++ y :: ys) (by simp)]
      rw [ih (by simp)]
      rw [joinSep_cons_ne sep x (x2 :: xs2) (by simp)]
      simp

theorem chunkLoop_join (mc : Int) (ls : List (List Char)) :
    ∀ (cur : List (List Char)) (curLen : Int), cur ≠ [] →
    joinSep '\n' ((chunkLoop mc ls cur curLen).map (joinSep '\n'))
      = joinSep '\n' (cur ++ ls) := by
  induction ls with
  | nil =>
    intro cur curLen hcur
    simp [chunkLoop, hcur, joinSep]
  | cons l ls ih =>
    intro cur curLen hcur
    simp only [chunkLoop]
    split
    · have hrec : chunkLoop mc ls [l] ((l.length : Int) + 1) ≠ [] :=
        chunkLoop_ne_nil mc ls [l] _ (by simp)
      simp only [List.map_cons]
      rw [joinSep_cons_ne '\n' _ _ (by simpa using hrec)]
      rw [ih [l] _ (by simp)]
      rw [joinSep_append_cons '\n' cur l ls hcur]
      rfl
    · rw [ih (cur ++ [l]) _ (by simp)]
      simp

/--
**C2.** For every input text and every `max_chars`, joining the chunks
returned by `chunk_code` with newline separators reproduces the input
exactly; and any text whose length is at most `max_chars` (the empty
string included) yields the single chunk `[content]`.
-/
theorem chunk_code_content_preservation (content : List Char) (max_chars : Int) :
    joinSep '\n' (chunk_code content max_chars) = content ∧
    ((content.length : Int) ≤ max_chars → chunk_code content max_chars = [content]) := by
  constructor
  · unfold chunk_code
    by_cases hle : (content.length : Int) ≤ max_chars
    · rw [if_pos hle]; rfl
    · rw [if_neg hle]
      rcases hsp : splitOnChar '\n' content with _ | ⟨l, ls⟩
      · exact absurd hsp (splitOnChar_ne_nil '\n' content)
      · have h0 : chunkLoop max_chars (l :: ls) [] 0
            = chunkLoop max_chars ls [l] ((l.length : Int) + 1) := by
          simp [chunkLoop]
        rw [h0, chunkLoop_join max_chars ls [l] _ (by simp)]
        rw [show ([l] ++ ls : List (List Char)) = l :: ls from rfl]
        rw [← hsp]
        exact joinSep_splitOnChar '\n' content
  · intro hle
    unfold chunk_code
    rw [if_pos hle]

end Chunker

namespace Sanitizer

/-! ### Lemmas about the scanner -/
theorem subScanFuel_nil (m : Matcher) (fuel : Nat) (prev : Option Char) :
    subScanFuel m fuel prev [] = [] := by
  cases fuel <;> rfl

/-- If a matcher can never fire on any string satisfying an invariant that
is stable under taking tails, the scan is the identity. -/
theorem subScanFuel_invariant_eq (m : Matcher) (P : List Char → Prop)
    (hP : ∀ prev s, P s → m prev s = none)
    (htail : ∀ c s, P (c :: s) → (P s ∨ s = [])) :
    ∀ (fuel : Nat) (prev : Option Char) (s : List Char),
      (P s ∨ s = []) → s.length ≤ fuel → subScanFuel m fuel prev s = s := by
  intro fuel
  induction fuel with
  | zero =>
    intro prev s _ hf
    cases s with
    | nil => rfl
    | cons c s2 => simp at hf
  | succ f ih =>
    intro prev s hs hf
    cases s with
    | nil => rfl
    | cons c s2 =>
      rcases hs with hs | hs
      · show subScanFuel m (f + 1) prev (c :: s2) = c :: s2
        have hm := hP prev (c :: s2) hs
        simp only [subScanFuel, hm]
        have := ih (some c) s2 (htail c s2 hs) (by simpa using Nat.le_of_succ_le_succ hf)
        rw [this]
      · exact absurd hs (by simp)

theorem subScanFuel_cons_match (m : Matcher) (prev : Option Char) (c : Char)
    (s : List Char) (r : MatchRes) (fuel : Nat) (h : m prev (c :: s) = some r) :
    subScanFuel m (fuel + 1) prev (c :: s)
      = r.out ++ subScanFuel m fuel
          (match r.consumed.getLast? with | some d => some d | none => prev) r.rest := by
  simp [subScanFuel, h]

/-! ### Character-class facts -/

theorem toLower_eq_of_not_upper (c : Char) (h : isUpperAlpha c = false) :
    c.toLower = c := by
  unfold Char.toLower
  rw [if_neg]
  intro hc
  have : isUpperAlpha c = true := by
    simp only [isUpperAlpha, Bool.and_eq_true, decide_eq_true_eq]
    omega
  rw [this] at h
  exact Bool.noConfusion h

theorem keyChar_false_parts (c : Char) (h : keyChar c = false) :
    isLowerAlpha c = false ∧ isUpperAlpha c = false ∧ c ≠ '_' ∧ c ≠ '-' := by
  simp only [keyChar, Bool.or_eq_false_iff, decide_eq_false_iff_not] at h
  exact ⟨h.1.1.1, h.1.1.2, h.1.2, h.2⟩

theorem not_keyChar_toLower_ne (c p : Char) (hc : keyChar c = false)
    (hp : isLowerAlpha p = true) : c.toLower ≠ p := by
  obtain ⟨h1, h2, _, _⟩ := keyChar_false_parts c hc
  rw [toLower_eq_of_not_upper c h2]
  intro he
  rw [he] at h1
  rw [hp] at h1
  exact Bool.noConfusion h1

theorem keyChar_of_toLower (c : Char)
    (h : isLowerAlpha c.toLower = true ∨ c.toLower = '_') : keyChar c = true := by
  by_cases hu : isUpperAlpha c = true
  · simp [keyChar, hu]
  · have hl := toLower_eq_of_not_upper c (by simpa using hu)
    rw [hl] at h
    rcases h with h | h
    · simp [keyChar, h]
    · simp [keyChar, h]

theorem ctx_keyChar_false (a : Char) (h : ctxChar a = true) : keyChar a = false := by
  simp only [ctxChar, Bool.or_eq_true, decide_eq_true_eq] at h
  rcases h with (rfl | rfl) | rfl <;> decide

theorem ctx_nodigit (a : Char) (h : ctxChar a = true) : isPyDigit a = false := by
  simp only [ctxChar, Bool.or_eq_true, decide_eq_true_eq] at h
  rcases h with (rfl | rfl) | rfl <;> decide

theorem ctx_ne_at (a : Char) (h : ctxChar a = true) : a ≠ '@' := by
  simp only [ctxChar, Bool.or_eq_true, decide_eq_true_eq] at h
  rcases h with (rfl | rfl) | rfl <;> decide

theorem keyChar_parts (a : Char) (h : keyChar a = true) :
    (97 ≤ a.toNat ∧ a.toNat ≤ 122) ∨ (65 ≤ a.toNat ∧ a.toNat ≤ 90)
      ∨ a = '_' ∨ a = '-' := by
  simp only [keyChar, isLowerAlpha, isUpperAlpha, Bool.or_eq_true, Bool.and_eq_true,
    decide_eq_true_eq] at h
  tauto

theorem keyChar_nodigit (a : Char) (h : keyChar a = true) : isPyDigit a = false := by
  simp only [isPyDigit, Bool.and_eq_false_iff, decide_eq_false_iff_not]
  rcases keyChar_parts a h with ⟨h1, h2⟩ | ⟨h1, h2⟩ | rfl | rfl
  · omega
  · omega
  · decide
  · decide

theorem keyChar_ne_nl (a : Char) (h : keyChar a = true) : a ≠ '\n' := by
  rcases keyChar_parts a h with ⟨h1, h2⟩ | ⟨h1, h2⟩ | rfl | rfl
  · intro he; rw [he] at h1; revert h1; decide
  · intro he; rw [he] at h1; revert h1; decide
  · decide
  · decide

theorem keyChar_ne_at (a : Char) (h : keyChar a = true) : a ≠ '@' := by
  rcases keyChar_parts a h with ⟨h1, h2⟩ | ⟨h1, h2⟩ | rfl | rfl
  · intro he; rw [he] at h1; revert h1; decide
  · intro he; rw [he] at h1; revert h1; decide
  · decide
  · decide

theorem plain_parts (x : Char) (h : plainValChar x = true) :
    (97 ≤ x.toNat ∧ x.toNat ≤ 122) ∨ (65 ≤ x.toNat ∧ x.toNat ≤ 90)
      ∨ (48 ≤ x.toNat ∧ x.toNat ≤ 57) ∨ x = '*' := by
  simp only [plainValChar, isLowerAlpha, isUpperAlpha, isPyDigit, Bool.or_eq_true,
    Bool.and_eq_true, decide_eq_true_eq] at h
  tauto

theorem plain_not_ws (x : Char) (h : plainValChar x = true) : isPySpace x = false := by
  simp only [isPySpace, Bool.or_eq_false_iff, decide_eq_false_iff_not]
  rcases plain_parts x h with ⟨h1, h2⟩ | ⟨h1, h2⟩ | ⟨h1, h2⟩ | rfl
  · refine ⟨⟨⟨⟨⟨?_, ?_⟩, ?_⟩, ?_⟩, ?_⟩, ?_⟩ <;> omega
  · refine ⟨⟨⟨⟨⟨?_, ?_⟩, ?_⟩, ?_⟩, ?_⟩, ?_⟩ <;> omega
  · refine ⟨⟨⟨⟨⟨?_, ?_⟩, ?_⟩, ?_⟩, ?_⟩, ?_⟩ <;> omega
  · decide

theorem plain_ne_colon_eq (x : Char) (h : plainValChar x = true) :
    x ≠ ':' ∧ x ≠ '=' := by
  rcases plain_parts x h with ⟨h1, h2⟩ | ⟨h1, h2⟩ | ⟨h1, h2⟩ | rfl
  · constructor <;> intro he <;> rw [he] at h1 h2 <;> revert h1 h2 <;> decide
  · constructor <;> intro he <;> rw [he] at h1 h2 <;> revert h1 h2 <;> decide
  · constructor <;> intro he <;> rw [he] at h1 h2 <;> revert h1 h2 <;> decide
  · exact ⟨by decide, by decide⟩

theorem plain_ne_quote (x : Char) (h : plainValChar x = true) : x ≠ dq ∧ x ≠ sq := by
  rcases plain_parts x h with ⟨h1, h2⟩ | ⟨h1, h2⟩ | ⟨h1, h2⟩ | rfl
  · constructor <;> intro he <;> rw [he] at h1 h2 <;> revert h1 h2 <;> decide
  · constructor <;> intro he <;> rw [he] at h1 h2 <;> revert h1 h2 <;> decide
  · constructor <;> intro he <;> rw [he] at h1 h2 <;> revert h1 h2 <;> decide
  · exact ⟨by decide, by decide⟩

theorem plain_ne_nl (x : Char) (h : plainValChar x = true) : x ≠ '\n' := by
  rcases plain_parts x h with ⟨h1, h2⟩ | ⟨h1, h2⟩ | ⟨h1, h2⟩ | rfl
  · intro he; rw [he] at h1; revert h1; decide
  · intro he; rw [he] at h1; revert h1; decide
  · intro he; rw [he] at h1; revert h1; decide
  · decide

theorem plain_ne_at (x : Char) (h : plainValChar x = true) : x ≠ '@' := by
  rcases plain_parts x h with ⟨h1, h2⟩ | ⟨h1, h2⟩ | ⟨h1, h2⟩ | rfl
  · intro he; rw [he] at h1; revert h1; decide
  · intro he; rw [he] at h1; revert h1; decide
  · intro he; rw [he] at h2; revert h2; decide
  · decide

/-! ### Structure of key-alternative matches -/

theorem matchLitCI_parts (pat : List Char) :
    ∀ s m r, matchLitCI pat s = some (m, r) →
      m.map Char.toLower = pat ∧ s = m ++ r := by
  induction pat with
  | nil =>
    intro s m r h
    simp only [matchLitCI, Option.some.injEq, Prod.mk.injEq] at h
    obtain ⟨h1, h2⟩ := h
    subst h1; subst h2
    simp
  | cons p ps ih =>
    intro s m r h
    cases s with
    | nil => exact absurd h (by simp [matchLitCI])
    | cons c s2 =>
      simp only [matchLitCI] at h
      split at h
      · rename_i hlow
        obtain ⟨pr, hpr, hf⟩ := Option.map_eq_some'.mp h
        obtain ⟨m2, r2⟩ := pr
        obtain ⟨ih1, ih2⟩ := ih s2 m2 r2 hpr
        have hm : m = c :: m2 := by
          have := congrArg Prod.fst hf
          simpa using this.symm
        have hr : r = r2 := by
          have := congrArg Prod.snd hf
          simpa using this.symm
        subst hm; subst hr
        exact ⟨by simp [List.map_cons, hlow, ih1], by simp [ih2]⟩
      · exact absurd h (by simp)

theorem matchLitCI_none_head (p : Char) (ps : List Char) (c : Char) (s : List Char)
    (h : c.toLower ≠ p) : matchLitCI (p :: ps) (c :: s) = none := by
  simp [matchLitCI, h]

theorem matchLitCI_consumed_keyChar (pat : List Char)
    (hpat : ∀ p ∈ pat, isLowerAlpha p = true ∨ p = '_') (s m r : List Char)
    (h : matchLitCI pat s = some (m, r)) : ∀ ch ∈ m, keyChar ch = true := by
  obtain ⟨h1, _⟩ := matchLitCI_parts pat s m r h
  intro ch hch
  apply keyChar_of_toLower
  have hmem : ch.toLower ∈ pat := by
    rw [← h1]
    exact List.mem_map_of_mem Char.toLower hch
  exact hpat _ hmem

theorem matchLitCI_shape (pat : List Char)
    (hpat : ∀ p ∈ pat, isLowerAlpha p = true ∨ p = '_') (hne : pat ≠ [])
    (s m r : List Char) (h : matchLitCI pat s = some (m, r)) :
    s = m ++ r ∧ m ≠ [] ∧ ∀ ch ∈ m, keyChar ch = true := by
  obtain ⟨h1, h2⟩ := matchLitCI_parts pat s m r h
  refine ⟨h2, ?_, matchLitCI_consumed_keyChar pat hpat s m r h⟩
  intro hm
  rw [hm] at h1
  exact hne (by simpa using h1.symm)

theorem matchKeyOpt_shape (pre post : List Char)
    (hpre : ∀ p ∈ pre, isLowerAlpha p = true ∨ p = '_')
    (hpost : ∀ p ∈ post, isLowerAlpha p = true ∨ p = '_')
    (hprene : pre ≠ []) (s m r : List Char)
    (h : matchKeyOpt pre post s = some (m, r)) :
    s = m ++ r ∧ m ≠ [] ∧ ∀ ch ∈ m, keyChar ch = true := by
  unfold matchKeyOpt at h
  split at h
  · rename_i m1 cc r2 hp1
    obtain ⟨hmap1, hsplit1⟩ := matchLitCI_parts pre s m1 (cc :: r2) hp1
    have hkc1 := matchLitCI_consumed_keyChar pre hpre s m1 (cc :: r2) hp1
    have hm1ne : m1 ≠ [] := by
      intro hm
      rw [hm] at hmap1
      exact hprene (by simpa using hmap1.symm)
    split at h
    · rename_i hcc
      obtain ⟨pr, hp2, hf⟩ := Option.map_eq_some'.mp h
      obtain ⟨m2, r3⟩ := pr
      obtain ⟨hmap2, hsplit2⟩ := matchLitCI_parts post r2 m2 r3 hp2
      have hkc2 := matchLitCI_consumed_keyChar post hpost r2 m2 r3 hp2
      have hm : m = m1 ++ cc :: m2 := by
        have := congrArg Prod.fst hf
        simpa using this.symm
      have hr : r = r3 := by
        have := congrArg Prod.snd hf
        simpa using this.symm
      subst hm; subst hr
      refine ⟨by rw [hsplit1, hsplit2]; simp, by simp, ?_⟩
      intro ch hch
      rcases List.mem_append.mp hch with h1 | h2
      · exact hkc1 ch h1
      · rcases List.mem_cons.mp h2 with h3 | h4
        · subst h3
          simp only [Bool.or_eq_true, decide_eq_true_eq] at hcc
          rcases hcc with rfl | rfl <;> decide
        · exact hkc2 ch h4
    · obtain ⟨pr, hp2, hf⟩ := Option.map_eq_some'.mp h
      obtain ⟨m2, r3⟩ := pr
      obtain ⟨hmap2, hsplit2⟩ := matchLitCI_parts post (cc :: r2) m2 r3 hp2
      have hkc2 := matchLitCI_consumed_keyChar post hpost (cc :: r2) m2 r3 hp2
      have hm : m = m1 ++ m2 := by
        have := congrArg Prod.fst hf
        simpa using this.symm
      have hr : r = r3 := by
        have := congrArg Prod.snd hf
        simpa using this.symm
      subst hm; subst hr
      refine ⟨by rw [hsplit1, hsplit2]; simp, ?_, ?_⟩
      · simp [hm1ne]
      · intro ch hch
        rcases List.mem_append.mp hch with h1 | h2
        · exact hkc1 ch h1
        · exact hkc2 ch h2
  · exact absurd h (by simp)
  · exact absurd h (by simp)

theorem matchAlts_shape (A : List (List Char → Option (List Char × List Char)))
    (hA : ∀ a ∈ A, ∀ s m r, a s = some (m, r) →
      s = m ++ r ∧ m ≠ [] ∧ ∀ ch ∈ m, keyChar ch = true) :
    ∀ s m r, matchAlts A s = some (m, r) →
      s = m ++ r ∧ m ≠ [] ∧ ∀ ch ∈ m, keyChar ch = true := by
  induction A with
  | nil => intro s m r h; simp [matchAlts] at h
  | cons a rest ih =>
    intro s m r h
    simp only [matchAlts] at h
    cases h1 : a s with
    | none =>
      rw [h1] at h
      exact ih (fun b hb => hA b (List.mem_cons_of_mem a hb)) s m r h
    | some p =>
      rw [h1] at h
      obtain rfl : p = (m, r) := Option.some.inj h
      exact hA a (List.mem_cons_self a rest) s m r h1

theorem rule1Alts_shape :
    ∀ s m r, matchAlts rule1Alts s = some (m, r) →
      s = m ++ r ∧ m ≠ [] ∧ ∀ ch ∈ m, keyChar ch = true := by
  apply matchAlts_shape
  intro a ha
  simp only [rule1Alts, List.mem_cons, List.not_mem_nil, or_false] at ha
  rcases ha with rfl | rfl | rfl | rfl | rfl <;>
    exact fun s m r h => matchKeyOpt_shape _ _ (by decide) (by decide) (by decide) s m r h

theorem rule3Alts_shape :
    ∀ s m r, matchAlts rule3Alts s = some (m, r) →
      s = m ++ r ∧ m ≠ [] ∧ ∀ ch ∈ m, keyChar ch = true := by
  apply matchAlts_shape
  intro a ha
  simp only [rule3Alts, List.mem_cons, List.not_mem_nil, or_false] at ha
  rcases ha with rfl | rfl | rfl | rfl | rfl | rfl <;>
    exact fun s m r h => matchLitCI_shape _ (by decide) (by decide) s m r h

theorem envAlts_shape :
    ∀ s m r, matchAlts (envKeys.map (fun k => matchLitCI k)) s = some (m, r) →
      s = m ++ r ∧ m ≠ [] ∧ ∀ ch ∈ m, keyChar ch = true := by
  apply matchAlts_shape
  intro a ha
  obtain ⟨k, hk, rfl⟩ := List.mem_map.mp ha
  simp only [envKeys, List.mem_cons, List.not_mem_nil, or_false] at hk
  rcases hk with rfl | rfl | rfl | rfl | rfl | rfl | rfl <;>
    exact fun s m r h => matchLitCI_shape _ (by decide) (by decide) s m r h

theorem matchAlts_none_head (A : List (List Char → Option (List Char × List Char)))
    (hA : ∀ s m r, matchAlts A s = some (m, r) →
      s = m ++ r ∧ m ≠ [] ∧ ∀ ch ∈ m, keyChar ch = true)
    (c : Char) (s : List Char) (h : keyChar c = false) :
    matchAlts A (c :: s) = none := by
  cases hm : matchAlts A (c :: s) with
  | none => rfl
  | some p =>
    obtain ⟨m, r⟩ := p
    obtain ⟨hsplit, hne, hchars⟩ := hA _ _ _ hm
    cases m with
    | nil => exact absurd rfl hne
    | cons m0 mt =>
      have hm0 : m0 = c := by
        have := congrArg (fun l => l.head?) hsplit
        simpa using this.symm
      have := hchars m0 (List.mem_cons_self m0 mt)
      rw [hm0, h] at this
      exact Bool.noConfusion this

/-! ### Separator and quote sub-patterns -/

theorem matchSepColonEq_none_head (x : Char) (s : List Char) (h1 : isPySpace x = false)
    (h2 : x ≠ ':') (h3 : x ≠ '=') : matchSepColonEq (x :: s) = none := by
  unfold matchSepColonEq
  rw [List.dropWhile_cons, if_neg (by simp [h1])]
  simp [h2, h3]

theorem matchSepColonEq_none_ctx (s : List Char) (h : ∀ ch ∈ s, ctxChar ch = true) :
    matchSepColonEq s = none := by
  unfold matchSepColonEq
  cases hd : s.dropWhile isPySpace with
  | nil => rfl
  | cons c r2 =>
    have hc : c ∈ s := (List.dropWhile_sublist isPySpace).mem (hd ▸ List.mem_cons_self c r2)
    have hcx := h c hc
    simp only [ctxChar, Bool.or_eq_true, decide_eq_true_eq] at hcx
    have h2 : (c = ':' || c = '=') = false := by
      rcases hcx with (rfl | rfl) | rfl <;> decide
    simp [h2]

theorem matchSepColonEq_at (c q : Char) (rest : List Char) (hc : c = ':' ∨ c = '=')
    (hq : q = dq ∨ q = sq) :
    matchSepColonEq (c :: q :: rest) = some ([c], q :: rest) := by
  rcases hc with rfl | rfl <;> rcases hq with rfl | rfl <;> rfl

theorem matchSepColonEq_eqval (vh : Char) (rest : List Char) (hws : isPySpace vh = false) :
    matchSepColonEq ('=' :: vh :: rest) = some (['='], vh :: rest) := by
  unfold matchSepColonEq
  have h0 : isPySpace '=' = false := by decide
  have e1 : (vh :: rest).takeWhile isPySpace = [] := by
    rw [List.takeWhile_cons]
    simp [hws]
  have e2 : (vh :: rest).dropWhile isPySpace = vh :: rest := by
    rw [List.dropWhile_cons]
    simp [hws]
  rw [List.takeWhile_cons, List.dropWhile_cons, h0]
  simp [e1, e2]

theorem matchQuoted_none_head (q' c0 : Char) (s : List Char) (h : c0 ≠ q') :
    matchQuoted q' (c0 :: s) = none := by
  unfold matchQuoted
  dsimp only
  rw [if_neg h]

theorem takeWhile_ne_append (x : Char) (v rest : List Char) (hv : ∀ ch ∈ v, ch ≠ x) :
    (v ++ x :: rest).takeWhile (fun ch => ch ≠ x) = v ∧
    (v ++ x :: rest).dropWhile (fun ch => ch ≠ x) = x :: rest := by
  induction v with
  | nil =>
    constructor
    · show List.takeWhile (fun ch => decide (ch ≠ x)) (x :: rest) = []
      rw [List.takeWhile_cons]
      simp
    · show List.dropWhile (fun ch => decide (ch ≠ x)) (x :: rest) = x :: rest
      rw [List.dropWhile_cons]
      simp
  | cons a v2 ih =>
    have ha : (decide (a ≠ x)) = true := by
      simp [hv a (List.mem_cons_self a v2)]
    have ihv := ih (fun ch hch => hv ch (List.mem_cons_of_mem a hch))
    constructor
    · show List.takeWhile (fun ch => decide (ch ≠ x)) (a :: (v2 ++ x :: rest)) = a :: v2
      rw [List.takeWhile_cons, ha]
      simpa using ihv.1
    · show List.dropWhile (fun ch => decide (ch ≠ x)) (a :: (v2 ++ x :: rest)) = x :: rest
      rw [List.dropWhile_cons, ha]
      simpa using ihv.2

theorem takeWhile_ne_all (x : Char) (v : List Char) (hv : ∀ ch ∈ v, ch ≠ x) :
    v.takeWhile (fun ch => ch ≠ x) = v ∧ v.dropWhile (fun ch => ch ≠ x) = [] := by
  induction v with
  | nil => exact ⟨rfl, rfl⟩
  | cons a v2 ih =>
    have ha : (decide (a ≠ x)) = true := by
      simp [hv a (List.mem_cons_self a v2)]
    have ihv := ih (fun ch hch => hv ch (List.mem_cons_of_mem a hch))
    constructor
    · show List.takeWhile (fun ch => decide (ch ≠ x)) (a :: v2) = a :: v2
      rw [List.takeWhile_cons, ha]
      simpa using ihv.1
    · show List.dropWhile (fun ch => decide (ch ≠ x)) (a :: v2) = []
      rw [List.dropWhile_cons, ha]
      simpa using ihv.2

theorem matchQuoted_fire (q : Char) (vv rest : List Char) (hv : ∀ ch ∈ vv, ch ≠ q) :
    matchQuoted q (q :: (vv ++ q :: rest)) = some (q :: vv ++ [q], rest) := by
  obtain ⟨e1, e2⟩ := takeWhile_ne_append q vv rest hv
  unfold matchQuoted
  dsimp only
  rw [if_pos rfl]
  rw [show List.dropWhile (fun x => decide (x ≠ q)) (vv ++ q :: rest) = q :: rest from by
        simpa using e2]
  rw [show List.takeWhile (fun x => decide (x ≠ q)) (vv ++ q :: rest) = vv from by
        simpa using e1]

/-! ### Rule-level outcomes -/

theorem quotedRule_none_of_alts {A : List (List Char → Option (List Char × List Char))}
    {q' : Char} (prev : Option Char) {s : List Char}
    (h : matchAlts A s = none) : quotedRuleMatcher A q' prev s = none := by
  unfold quotedRuleMatcher
  rw [h]

theorem quotedRule_fire {A : List (List Char → Option (List Char × List Char))}
    {q c : Char} {g1 vv post : List Char} (prev : Option Char)
    (halt : matchAlts A (g1 ++ (c :: q :: (vv ++ q :: post)))
      = some (g1, c :: q :: (vv ++ q :: post)))
    (hc : c = ':' ∨ c = '=') (hq : q = dq ∨ q = sq)
    (hv : ∀ ch ∈ vv, ch ≠ q) :
    quotedRuleMatcher A q prev (g1 ++ (c :: q :: (vv ++ q :: post)))
      = some ⟨g1 ++ [c] ++ q :: REDACTED ++ [q], g1 ++ [c] ++ (q :: vv ++ [q]), post⟩ := by
  unfold quotedRuleMatcher
  rw [halt]
  dsimp only
  rw [matchSepColonEq_at c q (vv ++ q :: post) hc hq]
  dsimp only
  rw [matchQuoted_fire q vv post hv]

theorem quoted_none_full {A : List (List Char → Option (List Char × List Char))}
    {q' q c : Char} {g1 vv post : List Char} (prev : Option Char)
    (halt : matchAlts A (g1 ++ (c :: q :: (vv ++ q :: post)))
      = some (g1, c :: q :: (vv ++ q :: post)))
    (hc : c = ':' ∨ c = '=') (hq : q = dq ∨ q = sq) (hne : q ≠ q') :
    quotedRuleMatcher A q' prev (g1 ++ (c :: q :: (vv ++ q :: post))) = none := by
  unfold quotedRuleMatcher
  rw [halt]
  dsimp only
  rw [matchSepColonEq_at c q (vv ++ q :: post) hc hq]
  dsimp only
  rw [matchQuoted_none_head q' q _ hne]

theorem quoted_none_unquoted {A : List (List Char → Option (List Char × List Char))}
    {q' : Char} {g1 : List Char} {vh : Char} {vt post : List Char} (prev : Option Char)
    (halt : matchAlts A (g1 ++ ('=' :: vh :: (vt ++ post)))
      = some (g1, '=' :: vh :: (vt ++ post)))
    (hws : isPySpace vh = false) (hvq : vh ≠ q') :
    quotedRuleMatcher A q' prev (g1 ++ ('=' :: vh :: (vt ++ post))) = none := by
  unfold quotedRuleMatcher
  rw [halt]
  dsimp only
  rw [matchSepColonEq_eqval vh (vt ++ post) hws]
  dsimp only
  rw [matchQuoted_none_head q' vh _ hvq]

theorem splitPlain :
    ∀ (m v' tail r : List Char),
      v' ++ tail = m ++ r → (∀ ch ∈ m, keyChar ch = true) →
      (∀ x s2, tail = x :: s2 → keyChar x = false) →
      ∃ v2, v2 <:+ v' ∧ r = v2 ++ tail := by
  intro m
  induction m with
  | nil =>
    intro v' tail r he _ _
    exact ⟨v', List.suffix_refl v', by simpa using he.symm⟩
  | cons b m2 ih =>
    intro v' tail r he hm ht
    cases v' with
    | nil =>
      simp only [List.nil_append] at he
      have h1 := ht b (m2 ++ r) he
      have h2 := hm b (List.mem_cons_self b m2)
      rw [h1] at h2
      exact Bool.noConfusion h2
    | cons a v2' =>
      simp only [List.cons_append, List.cons.injEq] at he
      obtain ⟨rfl, he2⟩ := he
      obtain ⟨v2, hsuf, hr⟩ := ih v2' tail r he2
        (fun ch hch => hm ch (List.mem_cons_of_mem _ hch)) ht
      exact ⟨v2, hsuf.trans (List.suffix_cons _ _), hr⟩

theorem quoted_none_plain {A : List (List Char → Option (List Char × List Char))}
    {q' : Char}
    (hA : ∀ s m r, matchAlts A s = some (m, r) →
      s = m ++ r ∧ m ≠ [] ∧ ∀ ch ∈ m, keyChar ch = true)
    (v' tail : List Char)
    (hv : ∀ ch ∈ v', plainValChar ch = true)
    (ht1 : matchSepColonEq tail = none)
    (ht2 : ∀ x s2, tail = x :: s2 → keyChar x = false)
    (prev : Option Char) : quotedRuleMatcher A q' prev (v' ++ tail) = none := by
  cases hm : matchAlts A (v' ++ tail) with
  | none => exact quotedRule_none_of_alts prev hm
  | some p =>
    obtain ⟨m, r⟩ := p
    obtain ⟨hsplit, hne, hchars⟩ := hA _ _ _ hm
    obtain ⟨v2, hv2suf, hr⟩ := splitPlain m v' tail r hsplit hchars ht2
    have hsep : matchSepColonEq r = none := by
      rw [hr]
      cases v2 with
      | nil => simpa using ht1
      | cons x xs =>
        have hx : plainValChar x = true := hv x (hv2suf.subset (List.mem_cons_self x xs))
        obtain ⟨hx1, hx2⟩ := plain_ne_colon_eq x hx
        exact matchSepColonEq_none_head x (xs ++ tail) (plain_not_ws x hx) hx1 hx2
    unfold quotedRuleMatcher
    rw [hm]
    dsimp only
    rw [hsep]

/-! ### The env rule -/

theorem env_none_of_alts (prev : Option Char) {s : List Char}
    (h : matchAlts (envKeys.map (fun k => matchLitCI k)) s = none) :
    envRuleMatcher prev s = none := by
  unfold envRuleMatcher
  split
  · rw [h]
  · rfl

theorem env_none_of_gate {prev : Option Char} (s : List Char)
    (h : ¬(prev = none ∨ prev = some '\n')) : envRuleMatcher prev s = none := by
  unfold envRuleMatcher
  rw [if_neg h]

theorem env_fire {key : List Char} {vh : Char} {vt post : List Char} {prev : Option Char}
    (hgate : prev = none ∨ prev = some '\n')
    (halt : matchAlts (envKeys.map (fun k => matchLitCI k)) (key ++ ('=' :: vh :: (vt ++ post)))
        = some (key, '=' :: vh :: (vt ++ post)))
    (hwsv : isPySpace vh = false)
    (hvnl : ∀ ch ∈ vh :: vt, ch ≠ '\n')
    (hpost : post = [] ∨ ∃ p2, post = '\n' :: p2) :
    envRuleMatcher prev (key ++ ('=' :: vh :: (vt ++ post)))
      = some ⟨key ++ ('=' :: REDACTED), key ++ ('=' :: vh :: vt), post⟩ := by
  unfold envRuleMatcher
  rw [if_pos hgate, halt]
  dsimp only
  have e1 : ('=' :: vh :: (vt ++ post)).takeWhile isPySpace = [] := by
    rw [List.takeWhile_cons, if_neg (by decide)]
  have e2 : ('=' :: vh :: (vt ++ post)).dropWhile isPySpace = '=' :: vh :: (vt ++ post) := by
    rw [List.dropWhile_cons, if_neg (by decide)]
  rw [e1, e2]
  dsimp only
  rw [if_pos rfl]
  have e3 : spaceRunThenValue 0 (vh :: (vt ++ post)) = some ([], vh :: vt, post) := by
    unfold spaceRunThenValue
    have w1 : (vh :: (vt ++ post)).takeWhile isPySpace = [] := by
      rw [List.takeWhile_cons]
      simp [hwsv]
    have w2 : (vh :: (vt ++ post)).dropWhile isPySpace = vh :: (vt ++ post) := by
      rw [List.dropWhile_cons]
      simp [hwsv]
    rw [w1, w2]
    dsimp only
    rw [if_pos (by simp)]
    rcases hpost with rfl | ⟨p2, rfl⟩
    · obtain ⟨t1, t2⟩ := takeWhile_ne_all '\n' (vh :: vt) hvnl
      rw [show vh :: (vt ++ ([] : List Char)) = vh :: vt from by simp]
      rw [show List.takeWhile (fun x => decide (x ≠ '\n')) (vh :: vt) = vh :: vt from by
            simpa using t1]
      rw [show List.dropWhile (fun x => decide (x ≠ '\n')) (vh :: vt) = [] from by
            simpa using t2]
    · obtain ⟨t1, t2⟩ := takeWhile_ne_append '\n' (vh :: vt) p2 hvnl
      rw [show List.takeWhile (fun x => decide (x ≠ '\n')) (vh :: (vt ++ '\n' :: p2))
            = vh :: vt from by simpa using t1]
      rw [show List.dropWhile (fun x => decide (x ≠ '\n')) (vh :: (vt ++ '\n' :: p2))
            = '\n' :: p2 from by simpa using t2]
  rw [e3]
  dsimp only
  simp

/-! ### The IPv4 and email rules never fire without digits or `@` -/

theorem matchDigits13Dot_none (t : List Char) (h : ∀ ch ∈ t, isPyDigit ch = false) :
    matchDigits13Dot t = none := by
  unfold matchDigits13Dot
  cases t with
  | nil => simp
  | cons a t2 =>
    have ha : isPyDigit a = false := h a (List.mem_cons_self a t2)
    have e : (a :: t2).takeWhile isPyDigit = [] := by
      rw [List.takeWhile_cons]
      simp [ha]
    rw [e]
    simp

theorem ipv4_none_nodigit (prev : Option Char) (s : List Char)
    (h : ∀ ch ∈ s, isPyDigit ch = false) : ipv4Matcher prev s = none := by
  have hd : matchDigits13Dot s = none := matchDigits13Dot_none s h
  unfold ipv4Matcher
  cases prev with
  | none =>
    dsimp only
    rw [if_neg (by decide), hd]
  | some p =>
    dsimp only
    split
    · rfl
    · rw [hd]

theorem email_none_noat (prev : Option Char) (s : List Char)
    (h : ∀ ch ∈ s, ch ≠ '@') : emailMatcher prev s = none := by
  unfold emailMatcher
  cases s with
  | nil => rfl
  | cons c0 s2 =>
    dsimp only
    split
    · rfl
    · cases hd : (c0 :: s2).dropWhile isLocalClass with
      | nil => rfl
      | cons a r2 =>
        have ha : a ∈ c0 :: s2 :=
          (List.dropWhile_sublist isLocalClass).mem (hd ▸ List.mem_cons_self a r2)
        have hane : a ≠ '@' := h a ha
        dsimp only
        rw [if_neg (by simp [hane])]


/-! ### Scanner engines: prev-threaded invariants and match-then-copy -/

theorem getLastSome (l : List Char) (h : l ≠ []) : ∃ d, l.getLast? = some d := by
  cases hl : l.getLast? with
  | some d => exact ⟨d, rfl⟩
  | none =>
    rw [List.getLast?_eq_none_iff] at hl
    exact absurd hl h

/-- The scan is the identity on strings satisfying a prev-aware invariant
under which the matcher either fails or fires a match whose output equals
the consumed text. -/
theorem subScanFuel_inv_id (m : Matcher) (P : Option Char → List Char → Prop)
    (hstep : ∀ prev c s, P prev (c :: s) →
      (m prev (c :: s) = none ∧ (P (some c) s ∨ s = [])) ∨
      (∃ r, m prev (c :: s) = some r ∧ r.out = r.consumed ∧ c :: s = r.consumed ++ r.rest ∧
        r.consumed ≠ [] ∧ ∀ d, r.consumed.getLast? = some d →
          (P (some d) r.rest ∨ r.rest = []))) :
    ∀ (fuel : Nat) (prev : Option Char) (s : List Char),
      (P prev s ∨ s = []) → s.length ≤ fuel → subScanFuel m fuel prev s = s := by
  intro fuel
  induction fuel with
  | zero => intro prev s _ _; rfl
  | succ f ih =>
    intro prev s hs hf
    cases s with
    | nil => rfl
    | cons c s2 =>
      rcases hs with hs | hs
      · rcases hstep prev c s2 hs with ⟨hm, hnext⟩ | ⟨r, hm, hout, hsplit, hne, hnext⟩
        · show subScanFuel m (f + 1) prev (c :: s2) = c :: s2
          simp only [subScanFuel, hm]
          rw [ih (some c) s2 hnext (by simpa using Nat.le_of_succ_le_succ hf)]
        · obtain ⟨d, hd⟩ := getLastSome r.consumed hne
          have hlen : r.rest.length ≤ f := by
            have hlc := congrArg List.length hsplit
            simp only [List.length_cons, List.length_append] at hlc
            have hc1 : 1 ≤ r.consumed.length := by
              cases hcon : r.consumed with
              | nil => exact absurd hcon hne
              | cons a t => simp
            simp only [List.length_cons] at hf
            omega
          show subScanFuel m (f + 1) prev (c :: s2) = c :: s2
          simp only [subScanFuel, hm, hd]
          rw [ih (some d) r.rest (hnext d hd) hlen, hout, ← hsplit]
      · exact absurd hs (by simp)

/-- Scanning `p ++ T` where the matcher fails at every position inside `p`
copies `p` and continues on `T` with the prev character threaded. -/
theorem subScanFuel_copy (m : Matcher) (T : List Char) :
    ∀ (p : List Char),
      (∀ prev p', p' ≠ [] → p' <:+ p → m prev (p' ++ T) = none) →
      ∀ (fuel : Nat) (prev : Option Char),
        subScanFuel m (p.length + fuel) prev (p ++ T)
          = p ++ subScanFuel m fuel
              (match p.getLast? with | some d => some d | none => prev) T := by
  intro p
  induction p with
  | nil =>
    intro _ fuel prev
    rw [List.length_nil, Nat.zero_add]
    rfl
  | cons a p2 ih =>
    intro h fuel prev
    have hm : m prev (a :: (p2 ++ T)) = none := by
      have := h prev (a :: p2) (by simp) (List.suffix_refl _)
      simpa using this
    have hstep : (a :: p2).length + fuel = (p2.length + fuel) + 1 := by
      simp [Nat.succ_add]
    rw [hstep]
    show subScanFuel m ((p2.length + fuel) + 1) prev ((a :: p2) ++ T)
      = (a :: p2) ++ subScanFuel m fuel
          (match (a :: p2).getLast? with | some d => some d | none => prev) T
    have hcons : (a :: p2) ++ T = a :: (p2 ++ T) := rfl
    rw [hcons]
    simp only [subScanFuel, hm]
    rw [ih (fun prev2 p' hne hsuf => h prev2 p' hne (hsuf.trans (List.suffix_cons a p2)))
        fuel (some a)]
    cases p2 with
    | nil => rfl
    | cons b p3 =>
      rw [List.getLast?_cons_cons]
      rfl

/-- `re.sub` when the matcher fires exactly once, at the boundary between
`pre` and `T = consumed ++ post`. -/
theorem reSub_fire_general (m : Matcher) (pre T out consumed post : List Char)
    (hsplit : T = consumed ++ post) (hne : consumed ≠ [])
    (hpren : ∀ prev p', p' ≠ [] → p' <:+ pre → m prev (p' ++ T) = none)
    (hfire : m pre.getLast? T = some ⟨out, consumed, post⟩)
    (hpostn : ∀ prev p', p' ≠ [] → p' <:+ post → m prev p' = none) :
    reSub m (pre ++ T) = pre ++ (out ++ post) := by
  unfold reSub
  rw [show (pre ++ T).length = pre.length + T.length from by simp]
  rw [subScanFuel_copy m T pre hpren T.length none]
  have hprev : (match pre.getLast? with | some d => some d | none => (none : Option Char))
      = pre.getLast? := by
    cases pre.getLast? <;> rfl
  rw [hprev]
  obtain ⟨c0, ct, rfl⟩ := List.exists_cons_of_ne_nil hne
  subst hsplit
  have hTc : (c0 :: ct) ++ post = c0 :: (ct ++ post) := rfl
  rw [hTc] at hfire ⊢
  rw [show (c0 :: (ct ++ post)).length = (ct ++ post).length + 1 from rfl]
  rw [subScanFuel_cons_match m pre.getLast? c0 (ct ++ post) ⟨out, c0 :: ct, post⟩
      ((ct ++ post)).length hfire]
  have hid : ∀ prevx, subScanFuel m (ct ++ post).length prevx post = post := by
    intro prevx
    apply subScanFuel_invariant_eq m (fun t => t ≠ [] ∧ t <:+ post)
    · intro prev2 t ⟨htne, htsuf⟩
      exact hpostn prev2 t htne htsuf
    · intro c t ⟨_, hsuf⟩
      cases t with
      | nil => exact Or.inr rfl
      | cons x xs => exact Or.inl ⟨by simp, (List.suffix_cons c (x :: xs)).trans hsuf⟩
    · cases post with
      | nil => exact Or.inr rfl
      | cons x xs => exact Or.inl ⟨by simp, List.suffix_refl _⟩
    · simp
  rw [hid]

theorem reSub_noop_suffix (m : Matcher) (s : List Char)
    (h : ∀ prev s', s' ≠ [] → s' <:+ s → m prev s' = none) : reSub m s = s := by
  unfold reSub
  apply subScanFuel_invariant_eq m (fun t => t ≠ [] ∧ t <:+ s)
  · intro prev t ht
    exact h prev t ht.1 ht.2
  · intro c t ht
    cases t with
    | nil => exact Or.inr rfl
    | cons x xs => exact Or.inl ⟨by simp, (List.suffix_cons c (x :: xs)).trans ht.2⟩
  · cases s with
    | nil => exact Or.inr rfl
    | cons x xs => exact Or.inl ⟨by simp, List.suffix_refl _⟩
  · exact Nat.le_refl _

/-! ### Stage identity on an embedded quoted assignment -/

theorem reSub_quotedA_id
    (A : List (List Char → Option (List Char × List Char))) (q' : Char)
    (key vv pre post : List Char) (c q : Char)
    (hA : ∀ s m r, matchAlts A s = some (m, r) →
      s = m ++ r ∧ m ≠ [] ∧ ∀ ch ∈ m, keyChar ch = true)
    (hq : q = dq ∨ q = sq) (hc : c = ':' ∨ c = '=')
    (hvv : ∀ ch ∈ vv, plainValChar ch = true)
    (hpre : ∀ ch ∈ pre, ctxChar ch = true) (hpost : ∀ ch ∈ post, ctxChar ch = true)
    (hpre1 : pre ≠ []) (hkey2 : 2 ≤ key.length)
    (hSt2 : ∀ prev, quotedRuleMatcher A q' prev (key ++ (c :: q :: (vv ++ q :: post))) = none)
    (hSt3 : ∀ j, 0 < j → j < key.length → ∀ prev,
       quotedRuleMatcher A q' prev (key.drop j ++ (c :: q :: (vv ++ q :: post))) = none ∨
       quotedRuleMatcher A q' prev (key.drop j ++ (c :: q :: (vv ++ q :: post)))
          = some ⟨key.drop j ++ (c :: q :: (vv ++ [q])),
                  key.drop j ++ (c :: q :: (vv ++ [q])), post⟩) :
    reSub (quotedRuleMatcher A q') (pre ++ (key ++ (c :: q :: (vv ++ q :: post))))
      = pre ++ (key ++ (c :: q :: (vv ++ q :: post))) := by
  have hkq : keyChar q = false := by rcases hq with rfl | rfl <;> decide
  have hkc : keyChar c = false := by rcases hc with rfl | rfl <;> decide
  unfold reSub
  apply subScanFuel_inv_id (quotedRuleMatcher A q')
    (fun _ s =>
      (∃ p', p' ≠ [] ∧ p' <:+ pre ∧ s = p' ++ (key ++ (c :: q :: (vv ++ q :: post)))) ∨
      (s = key ++ (c :: q :: (vv ++ q :: post))) ∨
      (∃ j, 0 < j ∧ j < key.length ∧ s = key.drop j ++ (c :: q :: (vv ++ q :: post))) ∨
      (s = c :: q :: (vv ++ q :: post)) ∨
      (s = q :: (vv ++ q :: post)) ∨
      (∃ v', v' <:+ vv ∧ s = v' ++ q :: post) ∨
      (∃ p2, p2 ≠ [] ∧ p2 <:+ post ∧ s = p2))
  · intro prev c0 s hP
    rcases hP with ⟨p', hne, hsuf, heq⟩ | heq | ⟨j, hj0, hjlen, heq⟩ | heq | heq
      | ⟨v', hsuf, heq⟩ | ⟨p2, hne, hsuf, heq⟩
    · -- inside pre
      left
      cases p' with
      | nil => exact absurd rfl hne
      | cons a p2 =>
        simp only [List.cons_append, List.cons.injEq] at heq
        obtain ⟨rfl, rfl⟩ := heq
        constructor
        · have ha : ctxChar c0 = true := hpre c0 (hsuf.subset (List.mem_cons_self c0 p2))
          exact quotedRule_none_of_alts prev
            (matchAlts_none_head A hA c0 _ (ctx_keyChar_false c0 ha))
        · cases p2 with
          | nil => exact Or.inl (Or.inr (Or.inl (by simp)))
          | cons b p3 =>
            exact Or.inl (Or.inl ⟨b :: p3, by simp,
              (List.suffix_cons c0 (b :: p3)).trans hsuf, rfl⟩)
    · -- at the key
      left
      constructor
      · rw [show c0 :: s = key ++ (c :: q :: (vv ++ q :: post)) from heq]
        exact hSt2 prev
      · cases key with
        | nil => exact absurd hkey2 (by simp)
        | cons k0 kt =>
          cases kt with
          | nil => exact absurd hkey2 (by simp)
          | cons k1 kr =>
            simp only [List.cons_append, List.cons.injEq] at heq
            obtain ⟨rfl, rfl⟩ := heq
            refine Or.inl (Or.inr (Or.inr (Or.inl ⟨1, Nat.one_pos, by simp, ?_⟩)))
            rfl
    · -- inside the key
      rcases hSt3 j hj0 hjlen prev with hnone | hfire
      · left
        constructor
        · rw [heq]; exact hnone
        · cases hdj : key.drop j with
          | nil =>
            rw [List.drop_eq_nil_iff] at hdj
            omega
          | cons d0 dt =>
            rw [hdj] at heq
            simp only [List.cons_append, List.cons.injEq] at heq
            obtain ⟨rfl, rfl⟩ := heq
            have hdt : dt = key.drop (j + 1) := by
              have h2 := List.tail_drop key j
              rw [hdj] at h2
              simpa using h2
            by_cases hj1 : j + 1 < key.length
            · exact Or.inl (Or.inr (Or.inr (Or.inl ⟨j + 1, by omega, hj1, by rw [hdt]⟩)))
            · have hdrop : key.drop (j + 1) = [] := by
                rw [List.drop_eq_nil_iff]
                omega
              rw [hdt, hdrop]
              exact Or.inl (Or.inr (Or.inr (Or.inr (Or.inl (by simp)))))
      · right
        refine ⟨⟨key.drop j ++ (c :: q :: (vv ++ [q])),
                 key.drop j ++ (c :: q :: (vv ++ [q])), post⟩,
                by rw [heq]; exact hfire, rfl, ?_, by simp, ?_⟩
        · rw [heq]
          simp
        · intro d hd
          have hX : key.drop j ++ (c :: q :: (vv ++ [q]))
              = (key.drop j ++ (c :: q :: vv)) ++ [q] := by simp
          rw [show (⟨key.drop j ++ (c :: q :: (vv ++ [q])),
                key.drop j ++ (c :: q :: (vv ++ [q])), post⟩ : MatchRes).consumed
              = key.drop j ++ (c :: q :: (vv ++ [q])) from rfl, hX,
              List.getLast?_concat] at hd
          obtain rfl : q = d := Option.some.inj hd
          cases post with
          | nil => exact Or.inr rfl
          | cons x xs =>
            exact Or.inl (Or.inr (Or.inr (Or.inr (Or.inr (Or.inr (Or.inr
              ⟨x :: xs, by simp, List.suffix_refl _, rfl⟩))))))
    · -- at the separator
      left
      simp only [List.cons.injEq] at heq
      obtain ⟨rfl, rfl⟩ := heq
      constructor
      · exact quotedRule_none_of_alts prev (matchAlts_none_head A hA c0 _ hkc)
      · exact Or.inl (Or.inr (Or.inr (Or.inr (Or.inr (Or.inl rfl)))))
    · -- at the opening quote
      left
      simp only [List.cons.injEq] at heq
      obtain ⟨rfl, rfl⟩ := heq
      constructor
      · exact quotedRule_none_of_alts prev (matchAlts_none_head A hA c0 _ hkq)
      · exact Or.inl (Or.inr (Or.inr (Or.inr (Or.inr (Or.inr (Or.inl
          ⟨vv, List.suffix_refl _, rfl⟩))))))
    · -- inside the value (or at the closing quote)
      left
      constructor
      · rw [heq]
        refine quoted_none_plain hA v' (q :: post)
          (fun ch hch => hvv ch (hsuf.subset hch)) ?_ ?_ prev
        · rcases hq with rfl | rfl
          · exact matchSepColonEq_none_head _ _ (by decide) (by decide) (by decide)
          · exact matchSepColonEq_none_head _ _ (by decide) (by decide) (by decide)
        · intro x s2 hxe
          obtain ⟨rfl, _⟩ : q = x ∧ post = s2 := by
            constructor <;> [exact (List.cons.inj hxe).1; exact (List.cons.inj hxe).2]
          exact hkq
      · cases v' with
        | nil =>
          simp only [List.nil_append, List.cons.injEq] at heq
          cases post with
          | nil => exact Or.inr heq.2
          | cons x xs =>
            exact Or.inl (Or.inr (Or.inr (Or.inr (Or.inr (Or.inr (Or.inr
              ⟨x :: xs, by simp, List.suffix_refl _, heq.2⟩))))))
        | cons a v2 =>
          simp only [List.cons_append, List.cons.injEq] at heq
          exact Or.inl (Or.inr (Or.inr (Or.inr (Or.inr (Or.inr (Or.inl
            ⟨v2, (List.suffix_cons a v2).trans hsuf, heq.2⟩))))))
    · -- inside the trailing context
      left
      constructor
      · have hc0 : c0 ∈ post := by
          apply hsuf.subset
          rw [← heq]
          exact List.mem_cons_self c0 s
        exact quotedRule_none_of_alts prev
          (matchAlts_none_head A hA c0 _ (ctx_keyChar_false c0 (hpost c0 hc0)))
      · cases s with
        | nil => exact Or.inr rfl
        | cons x xs =>
          refine Or.inl (Or.inr (Or.inr (Or.inr (Or.inr (Or.inr (Or.inr
            ⟨x :: xs, by simp, ?_, rfl⟩))))))
          calc x :: xs <:+ c0 :: x :: xs := List.suffix_cons c0 (x :: xs)
            _ = p2 := heq.symm ▸ rfl
            _ <:+ post := hsuf
  · exact Or.inl (Or.inl ⟨pre, hpre1, List.suffix_refl _, rfl⟩)
  · exact Nat.le_refl _

theorem some_ne_gate {d : Char} (hdne : d ≠ '\n') :
    ¬((some d : Option Char) = none ∨ (some d : Option Char) = some '\n') := by
  rintro (h | h)
  · exact Option.noConfusion h
  · exact hdne (Option.some.inj h)

theorem reSub_envA_id (key vv pre post : List Char) (c q : Char)
    (hq : q = dq ∨ q = sq) (hc : c = ':' ∨ c = '=')
    (hvv : ∀ ch ∈ vv, plainValChar ch = true)
    (hpre : ∀ ch ∈ pre, ctxChar ch = true) (hpost : ∀ ch ∈ post, ctxChar ch = true)
    (hpre1 : pre ≠ []) (hpre2 : pre.getLast? ≠ some '\n')
    (hkeyc : ∀ ch ∈ key, keyChar ch = true) (hkey2 : 2 ≤ key.length) :
    reSub envRuleMatcher (pre ++ (key ++ (c :: q :: (vv ++ q :: post))))
      = pre ++ (key ++ (c :: q :: (vv ++ q :: post))) := by
  have hcnl : c ≠ '\n' := by rcases hc with rfl | rfl <;> decide
  have hqnl : q ≠ '\n' := by rcases hq with rfl | rfl <;> decide
  unfold reSub
  apply subScanFuel_inv_id envRuleMatcher
    (fun prev s =>
      (∃ p', p' ≠ [] ∧ p' <:+ pre ∧ s = p' ++ (key ++ (c :: q :: (vv ++ q :: post)))) ∨
      ((∃ d, prev = some d ∧ d ≠ '\n') ∧
        (s = key ++ (c :: q :: (vv ++ q :: post)) ∨
         (∃ j, 0 < j ∧ j < key.length ∧ s = key.drop j ++ (c :: q :: (vv ++ q :: post))) ∨
         s = c :: q :: (vv ++ q :: post) ∨
         s = q :: (vv ++ q :: post) ∨
         (∃ v', v' <:+ vv ∧ s = v' ++ q :: post))) ∨
      (∃ p2, p2 ≠ [] ∧ p2 <:+ post ∧ s = p2))
  · intro prev c0 s hP
    left
    rcases hP with ⟨p', hne, hsuf, heq⟩ | ⟨⟨d, hdprev, hdne⟩, hshape⟩ | ⟨p2, hne, hsuf, heq⟩
    · -- inside pre: the key alternation cannot start on a context character
      cases p' with
      | nil => exact absurd rfl hne
      | cons a p2 =>
        simp only [List.cons_append, List.cons.injEq] at heq
        obtain ⟨rfl, rfl⟩ := heq
        have ha : ctxChar c0 = true := hpre c0 (hsuf.subset (List.mem_cons_self c0 p2))
        constructor
        · exact env_none_of_alts prev
            (matchAlts_none_head _ envAlts_shape c0 _ (ctx_keyChar_false c0 ha))
        · cases p2 with
          | nil =>
            refine Or.inl (Or.inr (Or.inl ⟨⟨c0, rfl, ?_⟩, Or.inl (by simp)⟩))
            intro hnl
            obtain ⟨t, ht⟩ := hsuf
            apply hpre2
            rw [← ht, hnl]
            exact List.getLast?_concat t
          | cons b p3 =>
            exact Or.inl (Or.inl ⟨b :: p3, by simp,
              (List.suffix_cons c0 (b :: p3)).trans hsuf, rfl⟩)
    · -- at or after the key with a non-newline previous character: gate closed
      subst hdprev
      constructor
      · exact env_none_of_gate _ (some_ne_gate hdne)
      · rcases hshape with heq | ⟨j, hj0, hjlen, heq⟩ | heq | heq | ⟨v', hsuf, heq⟩
        · cases key with
          | nil => exact absurd hkey2 (by simp)
          | cons k0 kt =>
            cases kt with
            | nil => exact absurd hkey2 (by simp)
            | cons k1 kr =>
              simp only [List.cons_append, List.cons.injEq] at heq
              obtain ⟨rfl, rfl⟩ := heq
              refine Or.inl (Or.inr (Or.inl ⟨⟨c0, rfl,
                keyChar_ne_nl c0 (hkeyc c0 (List.mem_cons_self _ _))⟩,
                Or.inr (Or.inl ⟨1, Nat.one_pos, by simp, rfl⟩)⟩))
        · cases hdj : key.drop j with
          | nil =>
            rw [List.drop_eq_nil_iff] at hdj
            omega
          | cons d0 dt =>
            rw [hdj] at heq
            simp only [List.cons_append, List.cons.injEq] at heq
            obtain ⟨rfl, rfl⟩ := heq
            have hd0 : keyChar c0 = true := hkeyc c0 (List.drop_subset j key (hdj ▸ List.mem_cons_self _ _))
            have hdt : dt = key.drop (j + 1) := by
              have h2 := List.tail_drop key j
              rw [hdj] at h2
              simpa using h2
            by_cases hj1 : j + 1 < key.length
            · exact Or.inl (Or.inr (Or.inl ⟨⟨c0, rfl, keyChar_ne_nl c0 hd0⟩,
                Or.inr (Or.inl ⟨j + 1, by omega, hj1, by rw [hdt]⟩)⟩))
            · have hdrop : key.drop (j + 1) = [] := by
                rw [List.drop_eq_nil_iff]
                omega
              rw [hdt, hdrop]
              exact Or.inl (Or.inr (Or.inl ⟨⟨c0, rfl, keyChar_ne_nl c0 hd0⟩,
                Or.inr (Or.inr (Or.inl (by simp)))⟩))
        · simp only [List.cons.injEq] at heq
          obtain ⟨rfl, rfl⟩ := heq
          exact Or.inl (Or.inr (Or.inl ⟨⟨c0, rfl, hcnl⟩, Or.inr (Or.inr (Or.inr (Or.inl rfl)))⟩))
        · simp only [List.cons.injEq] at heq
          obtain ⟨rfl, rfl⟩ := heq
          exact Or.inl (Or.inr (Or.inl ⟨⟨c0, rfl, hqnl⟩,
            Or.inr (Or.inr (Or.inr (Or.inr ⟨vv, List.suffix_refl _, rfl⟩)))⟩))
        · cases v' with
          | nil =>
            simp only [List.nil_append, List.cons.injEq] at heq
            cases post with
            | nil => exact Or.inr heq.2
            | cons x xs =>
              exact Or.inl (Or.inr (Or.inr ⟨x :: xs, by simp, List.suffix_refl _, heq.2⟩))
          | cons a v2 =>
            simp only [List.cons_append, List.cons.injEq] at heq
            refine Or.inl (Or.inr (Or.inl ⟨⟨c0, rfl, ?_⟩,
              Or.inr (Or.inr (Or.inr (Or.inr ⟨v2, (List.suffix_cons a v2).trans hsuf, heq.2⟩)))⟩))
            rw [heq.1]
            exact plain_ne_nl a (hvv a (hsuf.subset (List.mem_cons_self a v2)))
    · -- inside the trailing context
      constructor
      · have hc0 : c0 ∈ post := by
          apply hsuf.subset
          rw [← heq]
          exact List.mem_cons_self c0 s
        exact env_none_of_alts prev
          (matchAlts_none_head _ envAlts_shape c0 _ (ctx_keyChar_false c0 (hpost c0 hc0)))
      · cases s with
        | nil => exact Or.inr rfl
        | cons x xs =>
          refine Or.inl (Or.inr (Or.inr ⟨x :: xs, by simp, ?_, rfl⟩))
          calc x :: xs <:+ c0 :: x :: xs := List.suffix_cons c0 (x :: xs)
            _ = p2 := heq.symm ▸ rfl
            _ <:+ post := hsuf
  · exact Or.inl (Or.inl ⟨pre, hpre1, List.suffix_refl _, rfl⟩)
  · exact Nat.le_refl _

/-! ### Stage identity on an env-style line for the quoted rules -/

theorem reSub_quotedB_id
    (A : List (List Char → Option (List Char × List Char))) (q' : Char)
    (key val pre post : List Char)
    (hA : ∀ s m r, matchAlts A s = some (m, r) →
      s = m ++ r ∧ m ≠ [] ∧ ∀ ch ∈ m, keyChar ch = true)
    (hval : ∀ ch ∈ val, plainValChar ch = true)
    (hpre : ∀ ch ∈ pre, ctxChar ch = true) (hpost : ∀ ch ∈ post, ctxChar ch = true)
    (hkey2 : 2 ≤ key.length)
    (hSt2 : ∀ prev, quotedRuleMatcher A q' prev (key ++ ('=' :: (val ++ post))) = none)
    (hSt3 : ∀ j, 0 < j → j < key.length → ∀ prev,
       quotedRuleMatcher A q' prev (key.drop j ++ ('=' :: (val ++ post))) = none) :
    reSub (quotedRuleMatcher A q') (pre ++ (key ++ ('=' :: (val ++ post))))
      = pre ++ (key ++ ('=' :: (val ++ post))) := by
  unfold reSub
  apply subScanFuel_inv_id (quotedRuleMatcher A q')
    (fun _ s =>
      (∃ p', p' ≠ [] ∧ p' <:+ pre ∧ s = p' ++ (key ++ ('=' :: (val ++ post)))) ∨
      (s = key ++ ('=' :: (val ++ post))) ∨
      (∃ j, 0 < j ∧ j < key.length ∧ s = key.drop j ++ ('=' :: (val ++ post))) ∨
      (s = '=' :: (val ++ post)) ∨
      (∃ v', v' <:+ val ∧ s = v' ++ post) ∨
      (∃ p2, p2 ≠ [] ∧ p2 <:+ post ∧ s = p2))
  · intro prev c0 s hP
    left
    rcases hP with ⟨p', hne, hsuf, heq⟩ | heq | ⟨j, hj0, hjlen, heq⟩ | heq
      | ⟨v', hsuf, heq⟩ | ⟨p2, hne, hsuf, heq⟩
    · cases p' with
      | nil => exact absurd rfl hne
      | cons a p2 =>
        simp only [List.cons_append, List.cons.injEq] at heq
        obtain ⟨rfl, rfl⟩ := heq
        constructor
        · have ha : ctxChar c0 = true := hpre c0 (hsuf.subset (List.mem_cons_self c0 p2))
          exact quotedRule_none_of_alts prev
            (matchAlts_none_head A hA c0 _ (ctx_keyChar_false c0 ha))
        · cases p2 with
          | nil => exact Or.inl (Or.inr (Or.inl (by simp)))
          | cons b p3 =>
            exact Or.inl (Or.inl ⟨b :: p3, by simp,
              (List.suffix_cons c0 (b :: p3)).trans hsuf, rfl⟩)
    · constructor
      · rw [heq]
        exact hSt2 prev
      · cases key with
        | nil => exact absurd hkey2 (by simp)
        | cons k0 kt =>
          cases kt with
          | nil => exact absurd hkey2 (by simp)
          | cons k1 kr =>
            simp only [List.cons_append, List.cons.injEq] at heq
            obtain ⟨rfl, rfl⟩ := heq
            exact Or.inl (Or.inr (Or.inr (Or.inl ⟨1, Nat.one_pos, by simp, rfl⟩)))
    · constructor
      · rw [heq]
        exact hSt3 j hj0 hjlen prev
      · cases hdj : key.drop j with
        | nil =>
          rw [List.drop_eq_nil_iff] at hdj
          omega
        | cons d0 dt =>
          rw [hdj] at heq
          simp only [List.cons_append, List.cons.injEq] at heq
          obtain ⟨rfl, rfl⟩ := heq
          have hdt : dt = key.drop (j + 1) := by
            have h2 := List.tail_drop key j
            rw [hdj] at h2
            simpa using h2
          by_cases hj1 : j + 1 < key.length
          · exact Or.inl (Or.inr (Or.inr (Or.inl ⟨j + 1, by omega, hj1, by rw [hdt]⟩)))
          · have hdrop : key.drop (j + 1) = [] := by
              rw [List.drop_eq_nil_iff]
              omega
            rw [hdt, hdrop]
            exact Or.inl (Or.inr (Or.inr (Or.inr (Or.inl (by simp)))))
    · constructor
      · rw [heq]
        exact quotedRule_none_of_alts prev
          (matchAlts_none_head A hA '=' _ (by decide))
      · have h2 : s = val ++ post := (List.cons.inj heq).2
        rw [h2]
        exact Or.inl (Or.inr (Or.inr (Or.inr (Or.inr (Or.inl
          ⟨val, List.suffix_refl _, rfl⟩)))))
    · constructor
      · rw [heq]
        refine quoted_none_plain hA v' post
          (fun ch hch => hval ch (hsuf.subset hch))
          (matchSepColonEq_none_ctx post hpost) ?_ prev
        intro x s2 hxe
        exact ctx_keyChar_false x (hpost x (hxe ▸ List.mem_cons_self x s2))
      · cases v' with
        | nil =>
          simp only [List.nil_append] at heq
          cases s with
          | nil => exact Or.inr rfl
          | cons x xs =>
            refine Or.inl (Or.inr (Or.inr (Or.inr (Or.inr (Or.inr
              ⟨x :: xs, by simp, ?_, rfl⟩)))))
            have h2 : x :: xs <:+ post := by
              rw [← heq]
              exact List.suffix_cons c0 (x :: xs)
            exact h2
        | cons a v2 =>
          simp only [List.cons_append, List.cons.injEq] at heq
          exact Or.inl (Or.inr (Or.inr (Or.inr (Or.inr (Or.inl
            ⟨v2, (List.suffix_cons a v2).trans hsuf, heq.2⟩)))))
    · constructor
      · have hc0 : c0 ∈ post := by
          apply hsuf.subset
          rw [← heq]
          exact List.mem_cons_self c0 s
        exact quotedRule_none_of_alts prev
          (matchAlts_none_head A hA c0 _ (ctx_keyChar_false c0 (hpost c0 hc0)))
      · cases s with
        | nil => exact Or.inr rfl
        | cons x xs =>
          refine Or.inl (Or.inr (Or.inr (Or.inr (Or.inr (Or.inr
            ⟨x :: xs, by simp, ?_, rfl⟩)))))
          calc x :: xs <:+ c0 :: x :: xs := List.suffix_cons c0 (x :: xs)
            _ = p2 := heq.symm ▸ rfl
            _ <:+ post := hsuf
  · cases pre with
    | nil => exact Or.inl (Or.inr (Or.inl (by simp)))
    | cons a p2 => exact Or.inl (Or.inl ⟨a :: p2, by simp, List.suffix_refl _, rfl⟩)
  · exact Nat.le_refl _

/-! ### The firing stages -/

theorem reSub_quotedA_fire
    (A : List (List Char → Option (List Char × List Char)))
    (key val pre post : List Char) (c q : Char)
    (hA : ∀ s m r, matchAlts A s = some (m, r) →
      s = m ++ r ∧ m ≠ [] ∧ ∀ ch ∈ m, keyChar ch = true)
    (hq : q = dq ∨ q = sq) (hc : c = ':' ∨ c = '=')
    (hval : ∀ ch ∈ val, plainValChar ch = true)
    (hpre : ∀ ch ∈ pre, ctxChar ch = true) (hpost : ∀ ch ∈ post, ctxChar ch = true)
    (halt : matchAlts A (key ++ (c :: q :: (val ++ q :: post)))
      = some (key, c :: q :: (val ++ q :: post))) :
    reSub (quotedRuleMatcher A q) (pre ++ (key ++ (c :: q :: (val ++ q :: post))))
      = pre ++ (key ++ (c :: q :: (REDACTED ++ q :: post))) := by
  have hvq : ∀ ch ∈ val, ch ≠ q := by
    intro ch hch
    rcases hq with rfl | rfl
    · exact (plain_ne_quote ch (hval ch hch)).1
    · exact (plain_ne_quote ch (hval ch hch)).2
  have hfire : quotedRuleMatcher A q pre.getLast? (key ++ (c :: q :: (val ++ q :: post)))
      = some ⟨key ++ [c] ++ q :: REDACTED ++ [q], key ++ [c] ++ (q :: val ++ [q]), post⟩ :=
    quotedRule_fire pre.getLast? halt hc hq hvq
  have h := reSub_fire_general (quotedRuleMatcher A q) pre
      (key ++ (c :: q :: (val ++ q :: post)))
      (key ++ [c] ++ q :: REDACTED ++ [q])
      (key ++ [c] ++ (q :: val ++ [q])) post
      (by simp) (by simp)
      (by
        intro prev p' hne hsuf
        cases p' with
        | nil => exact absurd rfl hne
        | cons a p2 =>
          have ha : ctxChar a = true := hpre a (hsuf.subset (List.mem_cons_self a p2))
          rw [show (a :: p2) ++ (key ++ (c :: q :: (val ++ q :: post)))
              = a :: (p2 ++ (key ++ (c :: q :: (val ++ q :: post)))) from rfl]
          exact quotedRule_none_of_alts prev
            (matchAlts_none_head A hA a _ (ctx_keyChar_false a ha)))
      hfire
      (by
        intro prev p' hne hsuf
        cases p' with
        | nil => exact absurd rfl hne
        | cons a p2 =>
          have ha : ctxChar a = true := hpost a (hsuf.subset (List.mem_cons_self a p2))
          exact quotedRule_none_of_alts prev
            (matchAlts_none_head A hA a _ (ctx_keyChar_false a ha)))
  rw [h]
  simp

theorem reSub_envB_fire (key val pre post : List Char)
    (hval : ∀ ch ∈ val, plainValChar ch = true) (hvne : val ≠ [])
    (hpre : ∀ ch ∈ pre, ctxChar ch = true)
    (hpreLS : pre = [] ∨ pre.getLast? = some '\n')
    (hpost : ∀ ch ∈ post, ctxChar ch = true)
    (hpostNL : post = [] ∨ ∃ p2, post = '\n' :: p2)
    (halt : matchAlts (envKeys.map (fun k => matchLitCI k)) (key ++ ('=' :: (val ++ post)))
      = some (key, '=' :: (val ++ post))) :
    reSub envRuleMatcher (pre ++ (key ++ ('=' :: (val ++ post))))
      = pre ++ (key ++ ('=' :: (REDACTED ++ post))) := by
  obtain ⟨vh, vt, rfl⟩ := List.exists_cons_of_ne_nil hvne
  have hgate : pre.getLast? = none ∨ pre.getLast? = some '\n' := by
    rcases hpreLS with rfl | h2
    · exact Or.inl rfl
    · exact Or.inr h2
  have halt2 : matchAlts (envKeys.map (fun k => matchLitCI k))
      (key ++ ('=' :: vh :: (vt ++ post))) = some (key, '=' :: vh :: (vt ++ post)) := by
    simpa using halt
  have hfire := env_fire hgate halt2
    (plain_not_ws vh (hval vh (List.mem_cons_self vh vt)))
    (fun ch hch => plain_ne_nl ch (hval ch hch)) hpostNL
  have h := reSub_fire_general envRuleMatcher pre
      (key ++ ('=' :: ((vh :: vt) ++ post)))
      (key ++ ('=' :: REDACTED))
      (key ++ ('=' :: vh :: vt)) post
      (by simp) (by simp)
      (by
        intro prev p' hne hsuf
        cases p' with
        | nil => exact absurd rfl hne
        | cons a p2 =>
          have ha : ctxChar a = true := hpre a (hsuf.subset (List.mem_cons_self a p2))
          rw [show (a :: p2) ++ (key ++ ('=' :: ((vh :: vt) ++ post)))
              = a :: (p2 ++ (key ++ ('=' :: ((vh :: vt) ++ post)))) from rfl]
          exact env_none_of_alts prev
            (matchAlts_none_head _ envAlts_shape a _ (ctx_keyChar_false a ha)))
      (by
        rw [show key ++ ('=' :: ((vh :: vt) ++ post)) = key ++ ('=' :: vh :: (vt ++ post))
            from by simp]
        exact hfire)
      (by
        intro prev p' hne hsuf
        cases p' with
        | nil => exact absurd rfl hne
        | cons a p2 =>
          have ha : ctxChar a = true := hpost a (hsuf.subset (List.mem_cons_self a p2))
          exact env_none_of_alts prev
            (matchAlts_none_head _ envAlts_shape a _ (ctx_keyChar_false a ha)))
  rw [h]
  simp

theorem reSub_ipv4_noop (s : List Char) (h : ∀ ch ∈ s, isPyDigit ch = false) :
    reSub ipv4Matcher s = s :=
  reSub_noop_suffix ipv4Matcher s
    (fun prev s2 _ hsuf => ipv4_none_nodigit prev s2 (fun ch hch => h ch (hsuf.subset hch)))

theorem reSub_email_noop (s : List Char) (h : ∀ ch ∈ s, ch ≠ '@') :
    reSub emailMatcher s = s :=
  reSub_noop_suffix emailMatcher s
    (fun prev s2 _ hsuf => email_none_noat prev s2 (fun ch hch => h ch (hsuf.subset hch)))

theorem memA_decomp {pre key vv post : List Char} {c q ch : Char}
    (hch : ch ∈ pre ++ (key ++ (c :: q :: (vv ++ q :: post)))) :
    ch ∈ pre ∨ ch ∈ key ∨ ch = c ∨ ch = q ∨ ch ∈ vv ∨ ch ∈ post := by
  simp only [List.mem_append, List.mem_cons] at hch
  tauto

theorem memB_decomp {pre key val post : List Char} {ch : Char}
    (hch : ch ∈ pre ++ (key ++ ('=' :: (val ++ post)))) :
    ch ∈ pre ∨ ch ∈ key ∨ ch = '=' ∨ ch ∈ val ∨ ch ∈ post := by
  simp only [List.mem_append, List.mem_cons] at hch
  tauto

/-- Per-match redaction of a quoted secret assignment embedded in text:
each stage of the pipeline either rewrites the assignment (the matching
rule replaces the value by `***REDACTED***`, keeping the key, separator
and quotes) or leaves the text unchanged. -/
theorem sanitize_quoted_embedded (key val pre post : List Char) (c q : Char)
    (hkey : key ∈ quotedKeyForms) (hq : q = dq ∨ q = sq) (hc : c = ':' ∨ c = '=')
    (hval : ∀ ch ∈ val, plainValChar ch = true)
    (hpre : ∀ ch ∈ pre, ctxChar ch = true) (hpre1 : pre ≠ [])
    (hpre2 : pre.getLast? ≠ some '\n')
    (hpost : ∀ ch ∈ post, ctxChar ch = true) :
    sanitize_code (pre ++ (key ++ (c :: q :: (val ++ q :: post))))
      = pre ++ (key ++ (c :: q :: (REDACTED ++ q :: post))) := by
  simp only [quotedKeyForms, List.mem_cons, List.not_mem_nil, or_false] at hkey
  unfold sanitize_code SANITIZE_RULES
  simp only [List.foldl_cons, List.foldl_nil]
  rcases hq with rfl | rfl
  · rcases hkey with rfl | rfl | rfl | rfl | rfl | rfl | rfl | rfl | rfl | rfl | rfl
    · have e1 := reSub_quotedA_fire rule1Alts ("api_key".toList) val pre post c dq
        rule1Alts_shape (Or.inl rfl) hc hval hpre hpost rfl
      have e2 := reSub_quotedA_id rule1Alts sq ("api_key".toList) REDACTED pre post c dq
        rule1Alts_shape (Or.inl rfl) hc (by decide) hpre hpost hpre1 (by decide)
        (by intro prev
            first
              | rfl
              | exact quoted_none_full prev rfl hc (Or.inl rfl) (by decide)
              | (rcases hc with rfl | rfl <;> rfl))
        (by intro j hj0 hjlen prev
            have hjm : j ∈ List.range (("api_key".toList).length) := List.mem_range.mpr hjlen
            fin_cases hjm <;>
              first
                | exact absurd hj0 (by decide)
                | exact Or.inl rfl
                | exact Or.inl (quoted_none_full prev rfl hc (Or.inl rfl) (by decide))
                | exact Or.inr (quotedRule_fire prev rfl hc (Or.inl rfl) (by decide))
                | (rcases hc with rfl | rfl <;> exact Or.inl rfl))
      have e3 := reSub_quotedA_id rule3Alts dq ("api_key".toList) REDACTED pre post c dq
        rule3Alts_shape (Or.inl rfl) hc (by decide) hpre hpost hpre1 (by decide)
        (by intro prev
            first
              | rfl
              | exact quoted_none_full prev rfl hc (Or.inl rfl) (by decide)
              | (rcases hc with rfl | rfl <;> rfl))
        (by intro j hj0 hjlen prev
            have hjm : j ∈ List.range (("api_key".toList).length) := List.mem_range.mpr hjlen
            fin_cases hjm <;>
              first
                | exact absurd hj0 (by decide)
                | exact Or.inl rfl
                | exact Or.inl (quoted_none_full prev rfl hc (Or.inl rfl) (by decide))
                | exact Or.inr (quotedRule_fire prev rfl hc (Or.inl rfl) (by decide))
                | (rcases hc with rfl | rfl <;> exact Or.inl rfl))
      have e4 := reSub_quotedA_id rule3Alts sq ("api_key".toList) REDACTED pre post c dq
        rule3Alts_shape (Or.inl rfl) hc (by decide) hpre hpost hpre1 (by decide)
        (by intro prev
            first
              | rfl
              | exact quoted_none_full prev rfl hc (Or.inl rfl) (by decide)
              | (rcases hc with rfl | rfl <;> rfl))
        (by intro j hj0 hjlen prev
            have hjm : j ∈ List.range (("api_key".toList).length) := List.mem_range.mpr hjlen
            fin_cases hjm <;>
              first
                | exact absurd hj0 (by decide)
                | exact Or.inl rfl
                | exact Or.inl (quoted_none_full prev rfl hc (Or.inl rfl) (by decide))
                | exact Or.inr (quotedRule_fire prev rfl hc (Or.inl rfl) (by decide))
                | (rcases hc with rfl | rfl <;> exact Or.inl rfl))
      have e5 := reSub_envA_id ("api_key".toList) REDACTED pre post c dq
        (Or.inl rfl) hc (by decide) hpre hpost hpre1 hpre2 (by decide) (by decide)
      have hdig : ∀ ch ∈ pre ++ ("api_key".toList ++ (c :: dq :: (REDACTED ++ dq :: post))),
          isPyDigit ch = false := by
        intro ch hch
        rcases memA_decomp hch with h | h | h | h | h | h
        · exact ctx_nodigit ch (hpre ch h)
        · exact keyChar_nodigit ch ((by decide : ∀ x ∈ "api_key".toList, keyChar x = true) ch h)
        · subst h; rcases hc with rfl | rfl <;> decide
        · subst h; decide
        · exact (by decide : ∀ x ∈ REDACTED, isPyDigit x = false) ch h
        · exact ctx_nodigit ch (hpost ch h)
      have hat : ∀ ch ∈ pre ++ ("api_key".toList ++ (c :: dq :: (REDACTED ++ dq :: post))),
          ch ≠ '@' := by
        intro ch hch
        rcases memA_decomp hch with h | h | h | h | h | h
        · exact ctx_ne_at ch (hpre ch h)
        · exact keyChar_ne_at ch ((by decide : ∀ x ∈ "api_key".toList, keyChar x = true) ch h)
        · subst h; rcases hc with rfl | rfl <;> decide
        · subst h; decide
        · exact (by decide : ∀ x ∈ REDACTED, x ≠ '@') ch h
        · exact ctx_ne_at ch (hpost ch h)
      have e6 := reSub_ipv4_noop _ hdig
      have e7 := reSub_email_noop _ hat
      rw [e1, e2, e3, e4, e5, e6, e7]

    · have e1 := reSub_quotedA_fire rule1Alts ("secret_key".toList) val pre post c dq
        rule1Alts_shape (Or.inl rfl) hc hval hpre hpost rfl
      have e2 := reSub_quotedA_id rule1Alts sq ("secret_key".toList) REDACTED pre post c dq
        rule1Alts_shape (Or.inl rfl) hc (by decide) hpre hpost hpre1 (by decide)
        (by intro prev
            first
              | rfl
              | exact quoted_none_full prev rfl hc (Or.inl rfl) (by decide)
              | (rcases hc with rfl | rfl <;> rfl))
        (by intro j hj0 hjlen prev
            have hjm : j ∈ List.range (("secret_key".toList).length) := List.mem_range.mpr hjlen
            fin_cases hjm <;>
              first
                | exact absurd hj0 (by decide)
                | exact Or.inl rfl
                | exact Or.inl (quoted_none_full prev rfl hc (Or.inl rfl) (by decide))
                | exact Or.inr (quotedRule_fire prev rfl hc (Or.inl rfl) (by decide))
                | (rcases hc with rfl | rfl <;> exact Or.inl rfl))
      have e3 := reSub_quotedA_id rule3Alts dq ("secret_key".toList) REDACTED pre post c dq
        rule3Alts_shape (Or.inl rfl) hc (by decide) hpre hpost hpre1 (by decide)
        (by intro prev
            first
              | rfl
              | exact quoted_none_full prev rfl hc (Or.inl rfl) (by decide)
              | (rcases hc with rfl | rfl <;> rfl))
        (by intro j hj0 hjlen prev
            have hjm : j ∈ List.range (("secret_key".toList).length) := List.mem_range.mpr hjlen
            fin_cases hjm <;>
              first
                | exact absurd hj0 (by decide)
                | exact Or.inl rfl
                | exact Or.inl (quoted_none_full prev rfl hc (Or.inl rfl) (by decide))
                | exact Or.inr (quotedRule_fire prev rfl hc (Or.inl rfl) (by decide))
                | (rcases hc with rfl | rfl <;> exact Or.inl rfl))
      have e4 := reSub_quotedA_id rule3Alts sq ("secret_key".toList) REDACTED pre post c dq
        rule3Alts_shape (Or.inl rfl) hc (by decide) hpre hpost hpre1 (by decide)
        (by intro prev
            first
              | rfl
              | exact quoted_none_full prev rfl hc (Or.inl rfl) (by decide)
              | (rcases hc with rfl | rfl <;> rfl))
        (by intro j hj0 hjlen prev
            have hjm : j ∈ List.range (("secret_key".toList).length) := List.mem_range.mpr hjlen
            fin_cases hjm <;>
              first
                | exact absurd hj0 (by decide)
                | exact Or.inl rfl
                | exact Or.inl (quoted_none_full prev rfl hc (Or.inl rfl) (by decide))
                | exact Or.inr (quotedRule_fire prev rfl hc (Or.inl rfl) (by decide))
                | (rcases hc with rfl | rfl <;> exact Or.inl rfl))
      have e5 := reSub_envA_id ("secret_key".toList) REDACTED pre post c dq
        (Or.inl rfl) hc (by decide) hpre hpost hpre1 hpre2 (by decide) (by decide)
      have hdig : ∀ ch ∈ pre ++ ("secret_key".toList ++ (c :: dq :: (REDACTED ++ dq :: post))),
          isPyDigit ch = false := by
        intro ch hch
        rcases memA_decomp hch with h | h | h | h | h | h
        · exact ctx_nodigit ch (hpre ch h)
        · exact keyChar_nodigit ch ((by decide : ∀ x ∈ "secret_key".toList, keyChar x = true) ch h)
        · subst h; rcases hc with rfl | rfl <;> decide
        · subst h; decide
        · exact (by decide : ∀ x ∈ REDACTED, isPyDigit x = false) ch h
        · exact ctx_nodigit ch (hpost ch h)
      have hat : ∀ ch ∈ pre ++ ("secret_key".toList ++ (c :: dq :: (REDACTED ++ dq :: post))),
          ch ≠ '@' := by
        intro ch hch
        rcases memA_decomp hch with h | h | h | h | h | h
        · exact ctx_ne_at ch (hpre ch h)
        · exact keyChar_ne_at ch ((by decide : ∀ x ∈ "secret_key".toList, keyChar x = true) ch h)
        · subst h; rcases hc with rfl | rfl <;> decide
        · subst h; decide
        · exact (by decide : ∀ x ∈ REDACTED, x ≠ '@') ch h
        · exact ctx_ne_at ch (hpost ch h)
      have e6 := reSub_ipv4_noop _ hdig
      have e7 := reSub_email_noop _ hat
      rw [e1, e2, e3, e4, e5, e6, e7]

    · have e1 := reSub_quotedA_fire rule1Alts ("access_token".toList) val pre post c dq
        rule1Alts_shape (Or.inl rfl) hc hval hpre hpost rfl
      have e2 := reSub_quotedA_id rule1Alts sq ("access_token".toList) REDACTED pre post c dq
        rule1Alts_shape (Or.inl rfl) hc (by decide) hpre hpost hpre1 (by decide)
        (by intro prev
            first
              | rfl
              | exact quoted_none_full prev rfl hc (Or.inl rfl) (by decide)
              | (rcases hc with rfl | rfl <;> rfl))
        (by intro j hj0 hjlen prev
            have hjm : j ∈ List.range (("access_token".toList).length) := List.mem_range.mpr hjlen
            fin_cases hjm <;>
              first
                | exact absurd hj0 (by decide)
                | exact Or.inl rfl
                | exact Or.inl (quoted_none_full prev rfl hc (Or.inl rfl) (by decide))
                | exact Or.inr (quotedRule_fire prev rfl hc (Or.inl rfl) (by decide))
                | (rcases hc with rfl | rfl <;> exact Or.inl rfl))
      have e3 := reSub_quotedA_id rule3Alts dq ("access_token".toList) REDACTED pre post c dq
        rule3Alts_shape (Or.inl rfl) hc (by decide) hpre hpost hpre1 (by decide)
        (by intro prev
            first
              | rfl
              | exact quoted_none_full prev rfl hc (Or.inl rfl) (by decide)
              | (rcases hc with rfl | rfl <;> rfl))
        (by intro j hj0 hjlen prev
            have hjm : j ∈ List.range (("access_token".toList).length) := List.mem_range.mpr hjlen
            fin_cases hjm <;>
              first
                | exact absurd hj0 (by decide)
                | exact Or.inl rfl
                | exact Or.inl (quoted_none_full prev rfl hc (Or.inl rfl) (by decide))
                | exact Or.inr (quotedRule_fire prev rfl hc (Or.inl rfl) (by decide))
                | (rcases hc with rfl | rfl <;> exact Or.inl rfl))
      have e4 := reSub_quotedA_id rule3Alts sq ("access_token".toList) REDACTED pre post c dq
        rule3Alts_shape (Or.inl rfl) hc (by decide) hpre hpost hpre1 (by decide)
        (by intro prev
            first
              | rfl
              | exact quoted_none_full prev rfl hc (Or.inl rfl) (by decide)
              | (rcases hc with rfl | rfl <;> rfl))
        (by intro j hj0 hjlen prev
            have hjm : j ∈ List.range (("access_token".toList).length) := List.mem_range.mpr hjlen
            fin_cases hjm <;>
              first
                | exact absurd hj0 (by decide)
                | exact Or.inl rfl
                | exact Or.inl (quoted_none_full prev rfl hc (Or.inl rfl) (by decide))
                | exact Or.inr (quotedRule_fire prev rfl hc (Or.inl rfl) (by decide))
                | (rcases hc with rfl | rfl <;> exact Or.inl rfl))
      have e5 := reSub_envA_id ("access_token".toList) REDACTED pre post c dq
        (Or.inl rfl) hc (by decide) hpre hpost hpre1 hpre2 (by decide) (by decide)
      have hdig : ∀ ch ∈ pre ++ ("access_token".toList ++ (c :: dq :: (REDACTED ++ dq :: post))),
          isPyDigit ch = false := by
        intro ch hch
        rcases memA_decomp hch with h | h | h | h | h | h
        · exact ctx_nodigit ch (hpre ch h)
        · exact keyChar_nodigit ch ((by decide : ∀ x ∈ "access_token".toList, keyChar x = true) ch h)
        · subst h; rcases hc with rfl | rfl <;> decide
        · subst h; decide
        · exact (by decide : ∀ x ∈ REDACTED, isPyDigit x = false) ch h
        · exact ctx_nodigit ch (hpost ch h)
      have hat : ∀ ch ∈ pre ++ ("access_token".toList ++ (c :: dq :: (REDACTED ++ dq :: post))),
          ch ≠ '@' := by
        intro ch hch
        rcases memA_decomp hch with h | h | h | h | h | h
        · exact ctx_ne_at ch (hpre ch h)
        · exact keyChar_ne_at ch ((by decide : ∀ x ∈ "access_token".toList, keyChar x = true) ch h)
        · subst h; rcases hc with rfl | rfl <;> decide
        · subst h; decide
        · exact (by decide : ∀ x ∈ REDACTED, x ≠ '@') ch h
        · exact ctx_ne_at ch (hpost ch h)
      have e6 := reSub_ipv4_noop _ hdig
      have e7 := reSub_email_noop _ hat
      rw [e1, e2, e3, e4, e5, e6, e7]

    · have e1 := reSub_quotedA_fire rule1Alts ("auth_token".toList) val pre post c dq
        rule1Alts_shape (Or.inl rfl) hc hval hpre hpost rfl
      have e2 := reSub_quotedA_id rule1Alts sq ("auth_token".toList) REDACTED pre post c dq
        rule1Alts_shape (Or.inl rfl) hc (by decide) hpre hpost hpre1 (by decide)
        (by intro prev
            first
              | rfl
              | exact quoted_none_full prev rfl hc (Or.inl rfl) (by decide)
              | (rcases hc with rfl | rfl <;> rfl))
        (by intro j hj0 hjlen prev
            have hjm : j ∈ List.range (("auth_token".toList).length) := List.mem_range.mpr hjlen
            fin_cases hjm <;>
              first
                | exact absurd hj0 (by decide)
                | exact Or.inl rfl
                | exact Or.inl (quoted_none_full prev rfl hc (Or.inl rfl) (by decide))
                | exact Or.inr (quotedRule_fire prev rfl hc (Or.inl rfl) (by decide))
                | (rcases hc with rfl | rfl <;> exact Or.inl rfl))
      have e3 := reSub_quotedA_id rule3Alts dq ("auth_token".toList) REDACTED pre post c dq
        rule3Alts_shape (Or.inl rfl) hc (by decide) hpre hpost hpre1 (by decide)
        (by intro prev
            first
              | rfl
              | exact quoted_none_full prev rfl hc (Or.inl rfl) (by decide)
              | (rcases hc with rfl | rfl <;> rfl))
        (by intro j hj0 hjlen prev
            have hjm : j ∈ List.range (("auth_token".toList).length) := List.mem_range.mpr hjlen
            fin_cases hjm <;>
              first
                | exact absurd hj0 (by decide)
                | exact Or.inl rfl
                | exact Or.inl (quoted_none_full prev rfl hc (Or.inl rfl) (by decide))
                | exact Or.inr (quotedRule_fire prev rfl hc (Or.inl rfl) (by decide))
                | (rcases hc with rfl | rfl <;> exact Or.inl rfl))
      have e4 := reSub_quotedA_id rule3Alts sq ("auth_token".toList) REDACTED pre post c dq
        rule3Alts_shape (Or.inl rfl) hc (by decide) hpre hpost hpre1 (by decide)
        (by intro prev
            first
              | rfl
              | exact quoted_none_full prev rfl hc (Or.inl rfl) (by decide)
              | (rcases hc with rfl | rfl <;> rfl))
        (by intro j hj0 hjlen prev
            have hjm : j ∈ List.range (("auth_token".toList).length) := List.mem_range.mpr hjlen
            fin_cases hjm <;>
              first
                | exact absurd hj0 (by decide)
                | exact Or.inl rfl
                | exact Or.inl (quoted_none_full prev rfl hc (Or.inl rfl) (by decide))
                | exact Or.inr (quotedRule_fire prev rfl hc (Or.inl rfl) (by decide))
                | (rcases hc with rfl | rfl <;> exact Or.inl rfl))
      have e5 := reSub_envA_id ("auth_token".toList) REDACTED pre post c dq
        (Or.inl rfl) hc (by decide) hpre hpost hpre1 hpre2 (by decide) (by decide)
      have hdig : ∀ ch ∈ pre ++ ("auth_token".toList ++ (c :: dq :: (REDACTED ++ dq :: post))),
          isPyDigit ch = false := by
        intro ch hch
        rcases memA_decomp hch with h | h | h | h | h | h
        · exact ctx_nodigit ch (hpre ch h)
        · exact keyChar_nodigit ch ((by decide : ∀ x ∈ "auth_token".toList, keyChar x = true) ch h)
        · subst h; rcases hc with rfl | rfl <;> decide
        · subst h; decide
        · exact (by decide : ∀ x ∈ REDACTED, isPyDigit x = false) ch h
        · exact ctx_nodigit ch (hpost ch h)
      have hat : ∀ ch ∈ pre ++ ("auth_token".toList ++ (c :: dq :: (REDACTED ++ dq :: post))),
          ch ≠ '@' := by
        intro ch hch
        rcases memA_decomp hch with h | h | h | h | h | h
        · exact ctx_ne_at ch (hpre ch h)
        · exact keyChar_ne_at ch ((by decide : ∀ x ∈ "auth_token".toList, keyChar x = true) ch h)
        · subst h; rcases hc with rfl | rfl <;> decide
        · subst h; decide
        · exact (by decide : ∀ x ∈ REDACTED, x ≠ '@') ch h
        · exact ctx_ne_at ch (hpost ch h)
      have e6 := reSub_ipv4_noop _ hdig
      have e7 := reSub_email_noop _ hat
      rw [e1, e2, e3, e4, e5, e6, e7]

    · have e1 := reSub_quotedA_fire rule1Alts ("private_key".toList) val pre post c dq
        rule1Alts_shape (Or.inl rfl) hc hval hpre hpost rfl
      have e2 := reSub_quotedA_id rule1Alts sq ("private_key".toList) REDACTED pre post c dq
        rule1Alts_shape (Or.inl rfl) hc (by decide) hpre hpost hpre1 (by decide)
        (by intro prev
            first
              | rfl
              | exact quoted_none_full prev rfl hc (Or.inl rfl) (by decide)
              | (rcases hc with rfl | rfl <;> rfl))
        (by intro j hj0 hjlen prev
            have hjm : j ∈ List.range (("private_key".toList).length) := List.mem_range.mpr hjlen
            fin_cases hjm <;>
              first
                | exact absurd hj0 (by decide)
                | exact Or.inl rfl
                | exact Or.inl (quoted_none_full prev rfl hc (Or.inl rfl) (by decide))
                | exact Or.inr (quotedRule_fire prev rfl hc (Or.inl rfl) (by decide))
                | (rcases hc with rfl | rfl <;> exact Or.inl rfl))
      have e3 := reSub_quotedA_id rule3Alts dq ("private_key".toList) REDACTED pre post c dq
        rule3Alts_shape (Or.inl rfl) hc (by decide) hpre hpost hpre1 (by decide)
        (by intro prev
            first
              | rfl
              | exact quoted_none_full prev rfl hc (Or.inl rfl) (by decide)
              | (rcases hc with rfl | rfl <;> rfl))
        (by intro j hj0 hjlen prev
            have hjm : j ∈ List.range (("private_key".toList).length) := List.mem_range.mpr hjlen
            fin_cases hjm <;>
              first
                | exact absurd hj0 (by decide)
                | exact Or.inl rfl
                | exact Or.inl (quoted_none_full prev rfl hc (Or.inl rfl) (by decide))
                | exact Or.inr (quotedRule_fire prev rfl hc (Or.inl rfl) (by decide))
                | (rcases hc with rfl | rfl <;> exact Or.inl rfl))
      have e4 := reSub_quotedA_id rule3Alts sq ("private_key".toList) REDACTED pre post c dq
        rule3Alts_shape (Or.inl rfl) hc (by decide) hpre hpost hpre1 (by decide)
        (by intro prev
            first
              | rfl
              | exact quoted_none_full prev rfl hc (Or.inl rfl) (by decide)
              | (rcases hc with rfl | rfl <;> rfl))
        (by intro j hj0 hjlen prev
            have hjm : j ∈ List.range (("private_key".toList).length) := List.mem_range.mpr hjlen
            fin_cases hjm <;>
              first
                | exact absurd hj0 (by decide)
                | exact Or.inl rfl
                | exact Or.inl (quoted_none_full prev rfl hc (Or.inl rfl) (by decide))
                | exact Or.inr (quotedRule_fire prev rfl hc (Or.inl rfl) (by decide))
                | (rcases hc with rfl | rfl <;> exact Or.inl rfl))
      have e5 := reSub_envA_id ("private_key".toList) REDACTED pre post c dq
        (Or.inl rfl) hc (by decide) hpre hpost hpre1 hpre2 (by decide) (by decide)
      have hdig : ∀ ch ∈ pre ++ ("private_key".toList ++ (c :: dq :: (REDACTED ++ dq :: post))),
          isPyDigit ch = false := by
        intro ch hch
        rcases memA_decomp hch with h | h | h | h | h | h
        · exact ctx_nodigit ch (hpre ch h)
        · exact keyChar_nodigit ch ((by decide : ∀ x ∈ "private_key".toList, keyChar x = true) ch h)
        · subst h; rcases hc with rfl | rfl <;> decide
        · subst h; decide
        · exact (by decide : ∀ x ∈ REDACTED, isPyDigit x = false) ch h
        · exact ctx_nodigit ch (hpost ch h)
      have hat : ∀ ch ∈ pre ++ ("private_key".toList ++ (c :: dq :: (REDACTED ++ dq :: post))),
          ch ≠ '@' := by
        intro ch hch
        rcases memA_decomp hch with h | h | h | h | h | h
        · exact ctx_ne_at ch (hpre ch h)
        · exact keyChar_ne_at ch ((by decide : ∀ x ∈ "private_key".toList, keyChar x = true) ch h)
        · subst h; rcases hc with rfl | rfl <;> decide
        · subst h; decide
        · exact (by decide : ∀ x ∈ REDACTED, x ≠ '@') ch h
        · exact ctx_ne_at ch (hpost ch h)
      have e6 := reSub_ipv4_noop _ hdig
      have e7 := reSub_email_noop _ hat
      rw [e1, e2, e3, e4, e5, e6, e7]

    · have e1 := reSub_quotedA_id rule1Alts dq ("password".toList) val pre post c dq
        rule1Alts_shape (Or.inl rfl) hc hval hpre hpost hpre1 (by decide)
        (by intro prev
            first
              | rfl
              | exact quoted_none_full prev rfl hc (Or.inl rfl) (by decide)
              | (rcases hc with rfl | rfl <;> rfl))
        (by intro j hj0 hjlen prev
            have hjm : j ∈ List.range (("password".toList).length) := List.mem_range.mpr hjlen
            fin_cases hjm <;>
              first
                | exact absurd hj0 (by decide)
                | exact Or.inl rfl
                | exact Or.inl (quoted_none_full prev rfl hc (Or.inl rfl) (by decide))
                | exact Or.inr (quotedRule_fire prev rfl hc (Or.inl rfl) (by decide))
                | (rcases hc with rfl | rfl <;> exact Or.inl rfl))
      have e2 := reSub_quotedA_id rule1Alts sq ("password".toList) val pre post c dq
        rule1Alts_shape (Or.inl rfl) hc hval hpre hpost hpre1 (by decide)
        (by intro prev
            first
              | rfl
              | exact quoted_none_full prev rfl hc (Or.inl rfl) (by decide)
              | (rcases hc with rfl | rfl <;> rfl))
        (by intro j hj0 hjlen prev
            have hjm : j ∈ List.range (("password".toList).length) := List.mem_range.mpr hjlen
            fin_cases hjm <;>
              first
                | exact absurd hj0 (by decide)
                | exact Or.inl rfl
                | exact Or.inl (quoted_none_full prev rfl hc (Or.inl rfl) (by decide))
                | exact Or.inr (quotedRule_fire prev rfl hc (Or.inl rfl) (by decide))
                | (rcases hc with rfl | rfl <;> exact Or.inl rfl))
      have e3 := reSub_quotedA_fire rule3Alts ("password".toList) val pre post c dq
        rule3Alts_shape (Or.inl rfl) hc hval hpre hpost rfl
      have e4 := reSub_quotedA_id rule3Alts sq ("password".toList) REDACTED pre post c dq
        rule3Alts_shape (Or.inl rfl) hc (by decide) hpre hpost hpre1 (by decide)
        (by intro prev
            first
              | rfl
              | exact quoted_none_full prev rfl hc (Or.inl rfl) (by decide)
              | (rcases hc with rfl | rfl <;> rfl))
        (by intro j hj0 hjlen prev
            have hjm : j ∈ List.range (("password".toList).length) := List.mem_range.mpr hjlen
            fin_cases hjm <;>
              first
                | exact absurd hj0 (by decide)
                | exact Or.inl rfl
                | exact Or.inl (quoted_none_full prev rfl hc (Or.inl rfl) (by decide))
                | exact Or.inr (quotedRule_fire prev rfl hc (Or.inl rfl) (by decide))
                | (rcases hc with rfl | rfl <;> exact Or.inl rfl))
      have e5 := reSub_envA_id ("password".toList) REDACTED pre post c dq
        (Or.inl rfl) hc (by decide) hpre hpost hpre1 hpre2 (by decide) (by decide)
      have hdig : ∀ ch ∈ pre ++ ("password".toList ++ (c :: dq :: (REDACTED ++ dq :: post))),
          isPyDigit ch = false := by
        intro ch hch
        rcases memA_decomp hch with h | h | h | h | h | h
        · exact ctx_nodigit ch (hpre ch h)
        · exact keyChar_nodigit ch ((by decide : ∀ x ∈ "password".toList, keyChar x = true) ch h)
        · subst h; rcases hc with rfl | rfl <;> decide
        · subst h; decide
        · exact (by decide : ∀ x ∈ REDACTED, isPyDigit x = false) ch h
        · exact ctx_nodigit ch (hpost ch h)
      have hat : ∀ ch ∈ pre ++ ("password".toList ++ (c :: dq :: (REDACTED ++ dq :: post))),
          ch ≠ '@' := by
        intro ch hch
        rcases memA_decomp hch with h | h | h | h | h | h
        · exact ctx_ne_at ch (hpre ch h)
        · exact keyChar_ne_at ch ((by decide : ∀ x ∈ "password".toList, keyChar x = true) ch h)
        · subst h; rcases hc with rfl | rfl <;> decide
        · subst h; decide
        · exact (by decide : ∀ x ∈ REDACTED, x ≠ '@') ch h
        · exact ctx_ne_at ch (hpost ch h)
      have e6 := reSub_ipv4_noop _ hdig
      have e7 := reSub_email_noop _ hat
      rw [e1, e2, e3, e4, e5, e6, e7]

    · have e1 := reSub_quotedA_id rule1Alts dq ("passwd".toList) val pre post c dq
        rule1Alts_shape (Or.inl rfl) hc hval hpre hpost hpre1 (by decide)
        (by intro prev
            first
              | rfl
              | exact quoted_none_full prev rfl hc (Or.inl rfl) (by decide)
              | (rcases hc with rfl | rfl <;> rfl))
        (by intro j hj0 hjlen prev
            have hjm : j ∈ List.range (("passwd".toList).length) := List.mem_range.mpr hjlen
            fin_cases hjm <;>
              first
                | exact absurd hj0 (by decide)
                | exact Or.inl rfl
                | exact Or.inl (quoted_none_full prev rfl hc (Or.inl rfl) (by decide))
                | exact Or.inr (quotedRule_fire prev rfl hc (Or.inl rfl) (by decide))
                | (rcases hc with rfl | rfl <;> exact Or.inl rfl))
      have e2 := reSub_quotedA_id rule1Alts sq ("passwd".toList) val pre post c dq
        rule1Alts_shape (Or.inl rfl) hc hval hpre hpost hpre1 (by decide)
        (by intro prev
            first
              | rfl
              | exact quoted_none_full prev rfl hc (Or.inl rfl) (by decide)
              | (rcases hc with rfl | rfl <;> rfl))
        (by intro j hj0 hjlen prev
            have hjm : j ∈ List.range (("passwd".toList).length) := List.mem_range.mpr hjlen
            fin_cases hjm <;>
              first
                | exact absurd hj0 (by decide)
                | exact Or.inl rfl
                | exact Or.inl (quoted_none_full prev rfl hc (Or.inl rfl) (by decide))
                | exact Or.inr (quotedRule_fire prev rfl hc (Or.inl rfl) (by decide))
                | (rcases hc with rfl | rfl <;> exact Or.inl rfl))
      have e3 := reSub_quotedA_fire rule3Alts ("passwd".toList) val pre post c dq
        rule3Alts_shape (Or.inl rfl) hc hval hpre hpost rfl
      have e4 := reSub_quotedA_id rule3Alts sq ("passwd".toList) REDACTED pre post c dq
        rule3Alts_shape (Or.inl rfl) hc (by decide) hpre hpost hpre1 (by decide)
        (by intro prev
            first
              | rfl
              | exact quoted_none_full prev rfl hc (Or.inl rfl) (by decide)
              | (rcases hc with rfl | rfl <;> rfl))
        (by intro j hj0 hjlen prev
            have hjm : j ∈ List.range (("passwd".toList).length) := List.mem_range.mpr hjlen
            fin_cases hjm <;>
              first
                | exact absurd hj0 (by decide)
                | exact Or.inl rfl
                | exact Or.inl (quoted_none_full prev rfl hc (Or.inl rfl) (by decide))
                | exact Or.inr (quotedRule_fire prev rfl hc (Or.inl rfl) (by decide))
                | (rcases hc with rfl | rfl <;> exact Or.inl rfl))
      have e5 := reSub_envA_id ("passwd".toList) REDACTED pre post c dq
        (Or.inl rfl) hc (by decide) hpre hpost hpre1 hpre2 (by decide) (by decide)
      have hdig : ∀ ch ∈ pre ++ ("passwd".toList ++ (c :: dq :: (REDACTED ++ dq :: post))),
          isPyDigit ch = false := by
        intro ch hch
        rcases memA_decomp hch with h | h | h | h | h | h
        · exact ctx_nodigit ch (hpre ch h)
        · exact keyChar_nodigit ch ((by decide : ∀ x ∈ "passwd".toList, keyChar x = true) ch h)
        · subst h; rcases hc with rfl | rfl <;> decide
        · subst h; decide
        · exact (by decide : ∀ x ∈ REDACTED, isPyDigit x = false) ch h
        · exact ctx_nodigit ch (hpost ch h)
      have hat : ∀ ch ∈ pre ++ ("passwd".toList ++ (c :: dq :: (REDACTED ++ dq :: post))),
          ch ≠ '@' := by
        intro ch hch
        rcases memA_decomp hch with h | h | h | h | h | h
        · exact ctx_ne_at ch (hpre ch h)
        · exact keyChar_ne_at ch ((by decide : ∀ x ∈ "passwd".toList, keyChar x = true) ch h)
        · subst h; rcases hc with rfl | rfl <;> decide
        · subst h; decide
        · exact (by decide : ∀ x ∈ REDACTED, x ≠ '@') ch h
        · exact ctx_ne_at ch (hpost ch h)
      have e6 := reSub_ipv4_noop _ hdig
      have e7 := reSub_email_noop _ hat
      rw [e1, e2, e3, e4, e5, e6, e7]

    · have e1 := reSub_quotedA_id rule1Alts dq ("pwd".toList) val pre post c dq
        rule1Alts_shape (Or.inl rfl) hc hval hpre hpost hpre1 (by decide)
        (by intro prev
            first
              | rfl
              | exact quoted_none_full prev rfl hc (Or.inl rfl) (by decide)
              | (rcases hc with rfl | rfl <;> rfl))
        (by intro j hj0 hjlen prev
            have hjm : j ∈ List.range (("pwd".toList).length) := List.mem_range.mpr hjlen
            fin_cases hjm <;>
              first
                | exact absurd hj0 (by decide)
                | exact Or.inl rfl
                | exact Or.inl (quoted_none_full prev rfl hc (Or.inl rfl) (by decide))
                | exact Or.inr (quotedRule_fire prev rfl hc (Or.inl rfl) (by decide))
                | (rcases hc with rfl | rfl <;> exact Or.inl rfl))
      have e2 := reSub_quotedA_id rule1Alts sq ("pwd".toList) val pre post c dq
        rule1Alts_shape (Or.inl rfl) hc hval hpre hpost hpre1 (by decide)
        (by intro prev
            first
              | rfl
              | exact quoted_none_full prev rfl hc (Or.inl rfl) (by decide)
              | (rcases hc with rfl | rfl <;> rfl))
        (by intro j hj0 hjlen prev
            have hjm : j ∈ List.range (("pwd".toList).length) := List.mem_range.mpr hjlen
            fin_cases hjm <;>
              first
                | exact absurd hj0 (by decide)
                | exact Or.inl rfl
                | exact Or.inl (quoted_none_full prev rfl hc (Or.inl rfl) (by decide))
                | exact Or.inr (quotedRule_fire prev rfl hc (Or.inl rfl) (by decide))
                | (rcases hc with rfl | rfl <;> exact Or.inl rfl))
      have e3 := reSub_quotedA_fire rule3Alts ("pwd".toList) val pre post c dq
        rule3Alts_shape (Or.inl rfl) hc hval hpre hpost rfl
      have e4 := reSub_quotedA_id rule3Alts sq ("pwd".toList) REDACTED pre post c dq
        rule3Alts_shape (Or.inl rfl) hc (by decide) hpre hpost hpre1 (by decide)
        (by intro prev
            first
              | rfl
              | exact quoted_none_full prev rfl hc (Or.inl rfl) (by decide)
              | (rcases hc with rfl | rfl <;> rfl))
        (by intro j hj0 hjlen prev
            have hjm : j ∈ List.range (("pwd".toList).length) := List.mem_range.mpr hjlen
            fin_cases hjm <;>
              first
                | exact absurd hj0 (by decide)
                | exact Or.inl rfl
                | exact Or.inl (quoted_none_full prev rfl hc (Or.inl rfl) (by decide))
                | exact Or.inr (quotedRule_fire prev rfl hc (Or.inl rfl) (by decide))
                | (rcases hc with rfl | rfl <;> exact Or.inl rfl))
      have e5 := reSub_envA_id ("pwd".toList) REDACTED pre post c dq
        (Or.inl rfl) hc (by decide) hpre hpost hpre1 hpre2 (by decide) (by decide)
      have hdig : ∀ ch ∈ pre ++ ("pwd".toList ++ (c :: dq :: (REDACTED ++ dq :: post))),
          isPyDigit ch = false := by
        intro ch hch
        rcases memA_decomp hch with h | h | h | h | h | h
        · exact ctx_nodigit ch (hpre ch h)
        · exact keyChar_nodigit ch ((by decide : ∀ x ∈ "pwd".toList, keyChar x = true) ch h)
        · subst h; rcases hc with rfl | rfl <;> decide
        · subst h; decide
        · exact (by decide : ∀ x ∈ REDACTED, isPyDigit x = false) ch h
        · exact ctx_nodigit ch (hpost ch h)
      have hat : ∀ ch ∈ pre ++ ("pwd".toList ++ (c :: dq :: (REDACTED ++ dq :: post))),
          ch ≠ '@' := by
        intro ch hch
        rcases memA_decomp hch with h | h | h | h | h | h
        · exact ctx_ne_at ch (hpre ch h)
        · exact keyChar_ne_at ch ((by decide : ∀ x ∈ "pwd".toList, keyChar x = true) ch h)
        · subst h; rcases hc with rfl | rfl <;> decide
        · subst h; decide
        · exact (by decide : ∀ x ∈ REDACTED, x ≠ '@') ch h
        · exact ctx_ne_at ch (hpost ch h)
      have e6 := reSub_ipv4_noop _ hdig
      have e7 := reSub_email_noop _ hat
      rw [e1, e2, e3, e4, e5, e6, e7]

    · have e1 := reSub_quotedA_id rule1Alts dq ("secret".toList) val pre post c dq
        rule1Alts_shape (Or.inl rfl) hc hval hpre hpost hpre1 (by decide)
        (by intro prev
            first
              | rfl
              | exact quoted_none_full prev rfl hc (Or.inl rfl) (by decide)
              | (rcases hc with rfl | rfl <;> rfl))
        (by intro j hj0 hjlen prev
            have hjm : j ∈ List.range (("secret".toList).length) := List.mem_range.mpr hjlen
            fin_cases hjm <;>
              first
                | exact absurd hj0 (by decide)
                | exact Or.inl rfl
                | exact Or.inl (quoted_none_full prev rfl hc (Or.inl rfl) (by decide))
                | exact Or.inr (quotedRule_fire prev rfl hc (Or.inl rfl) (by decide))
                | (rcases hc with rfl | rfl <;> exact Or.inl rfl))
      have e2 := reSub_quotedA_id rule1Alts sq ("secret".toList) val pre post c dq
        rule1Alts_shape (Or.inl rfl) hc hval hpre hpost hpre1 (by decide)
        (by intro prev
            first
              | rfl
              | exact quoted_none_full prev rfl hc (Or.inl rfl) (by decide)
              | (rcases hc with rfl | rfl <;> rfl))
        (by intro j hj0 hjlen prev
            have hjm : j ∈ List.range (("secret".toList).length) := List.mem_range.mpr hjlen
            fin_cases hjm <;>
              first
                | exact absurd hj0 (by decide)
                | exact Or.inl rfl
                | exact Or.inl (quoted_none_full prev rfl hc (Or.inl rfl) (by decide))
                | exact Or.inr (quotedRule_fire prev rfl hc (Or.inl rfl) (by decide))
                | (rcases hc with rfl | rfl <;> exact Or.inl rfl))
      have e3 := reSub_quotedA_fire rule3Alts ("secret".toList) val pre post c dq
        rule3Alts_shape (Or.inl rfl) hc hval hpre hpost rfl
      have e4 := reSub_quotedA_id rule3Alts sq ("secret".toList) REDACTED pre post c dq
        rule3Alts_shape (Or.inl rfl) hc (by decide) hpre hpost hpre1 (by decide)
        (by intro prev
            first
              | rfl
              | exact quoted_none_full prev rfl hc (Or.inl rfl) (by decide)
              | (rcases hc with rfl | rfl <;> rfl))
        (by intro j hj0 hjlen prev
            have hjm : j ∈ List.range (("secret".toList).length) := List.mem_range.mpr hjlen
            fin_cases hjm <;>
              first
                | exact absurd hj0 (by decide)
                | exact Or.inl rfl
                | exact Or.inl (quoted_none_full prev rfl hc (Or.inl rfl) (by decide))
                | exact Or.inr (quotedRule_fire prev rfl hc (Or.inl rfl) (by decide))
                | (rcases hc with rfl | rfl <;> exact Or.inl rfl))
      have e5 := reSub_envA_id ("secret".toList) REDACTED pre post c dq
        (Or.inl rfl) hc (by decide) hpre hpost hpre1 hpre2 (by decide) (by decide)
      have hdig : ∀ ch ∈ pre ++ ("secret".toList ++ (c :: dq :: (REDACTED ++ dq :: post))),
          isPyDigit ch = false := by
        intro ch hch
        rcases memA_decomp hch with h | h | h | h | h | h
        · exact ctx_nodigit ch (hpre ch h)
        · exact keyChar_nodigit ch ((by decide : ∀ x ∈ "secret".toList, keyChar x = true) ch h)
        · subst h; rcases hc with rfl | rfl <;> decide
        · subst h; decide
        · exact (by decide : ∀ x ∈ REDACTED, isPyDigit x = false) ch h
        · exact ctx_nodigit ch (hpost ch h)
      have hat : ∀ ch ∈ pre ++ ("secret".toList ++ (c :: dq :: (REDACTED ++ dq :: post))),
          ch ≠ '@' := by
        intro ch hch
        rcases memA_decomp hch with h | h | h | h | h | h
        · exact ctx_ne_at ch (hpre ch h)
        · exact keyChar_ne_at ch ((by decide : ∀ x ∈ "secret".toList, keyChar x = true) ch h)
        · subst h; rcases hc with rfl | rfl <;> decide
        · subst h; decide
        · exact (by decide : ∀ x ∈ REDACTED, x ≠ '@') ch h
        · exact ctx_ne_at ch (hpost ch h)
      have e6 := reSub_ipv4_noop _ hdig
      have e7 := reSub_email_noop _ hat
      rw [e1, e2, e3, e4, e5, e6, e7]

    · have e1 := reSub_quotedA_id rule1Alts dq ("token".toList) val pre post c dq
        rule1Alts_shape (Or.inl rfl) hc hval hpre hpost hpre1 (by decide)
        (by intro prev
            first
              | rfl
              | exact quoted_none_full prev rfl hc (Or.inl rfl) (by decide)
              | (rcases hc with rfl | rfl <;> rfl))
        (by intro j hj0 hjlen prev
            have hjm : j ∈ List.range (("token".toList).length) := List.mem_range.mpr hjlen
            fin_cases hjm <;>
              first
                | exact absurd hj0 (by decide)
                | exact Or.inl rfl
                | exact Or.inl (quoted_none_full prev rfl hc (Or.inl rfl) (by decide))
                | exact Or.inr (quotedRule_fire prev rfl hc (Or.inl rfl) (by decide))
                | (rcases hc with rfl | rfl <;> exact Or.inl rfl))
      have e2 := reSub_quotedA_id rule1Alts sq ("token".toList) val pre post c dq
        rule1Alts_shape (Or.inl rfl) hc hval hpre hpost hpre1 (by decide)
        (by intro prev
            first
              | rfl
              | exact quoted_none_full prev rfl hc (Or.inl rfl) (by decide)
              | (rcases hc with rfl | rfl <;> rfl))
        (by intro j hj0 hjlen prev
            have hjm : j ∈ List.range (("token".toList).length) := List.mem_range.mpr hjlen
            fin_cases hjm <;>
              first
                | exact absurd hj0 (by decide)
                | exact Or.inl rfl
                | exact Or.inl (quoted_none_full prev rfl hc (Or.inl rfl) (by decide))
                | exact Or.inr (quotedRule_fire prev rfl hc (Or.inl rfl) (by decide))
                | (rcases hc with rfl | rfl <;> exact Or.inl rfl))
      have e3 := reSub_quotedA_fire rule3Alts ("token".toList) val pre post c dq
        rule3Alts_shape (Or.inl rfl) hc hval hpre hpost rfl
      have e4 := reSub_quotedA_id rule3Alts sq ("token".toList) REDACTED pre post c dq
        rule3Alts_shape (Or.inl rfl) hc (by decide) hpre hpost hpre1 (by decide)
        (by intro prev
            first
              | rfl
              | exact quoted_none_full prev rfl hc (Or.inl rfl) (by decide)
              | (rcases hc with rfl | rfl <;> rfl))
        (by intro j hj0 hjlen prev
            have hjm : j ∈ List.range (("token".toList).length) := List.mem_range.mpr hjlen
            fin_cases hjm <;>
              first
                | exact absurd hj0 (by decide)
                | exact Or.inl rfl
                | exact Or.inl (quoted_none_full prev rfl hc (Or.inl rfl) (by decide))
                | exact Or.inr (quotedRule_fire prev rfl hc (Or.inl rfl) (by decide))
                | (rcases hc with rfl | rfl <;> exact Or.inl rfl))
      have e5 := reSub_envA_id ("token".toList) REDACTED pre post c dq
        (Or.inl rfl) hc (by decide) hpre hpost hpre1 hpre2 (by decide) (by decide)
      have hdig : ∀ ch ∈ pre ++ ("token".toList ++ (c :: dq :: (REDACTED ++ dq :: post))),
          isPyDigit ch = false := by
        intro ch hch
        rcases memA_decomp hch with h | h | h | h | h | h
        · exact ctx_nodigit ch (hpre ch h)
        · exact keyChar_nodigit ch ((by decide : ∀ x ∈ "token".toList, keyChar x = true) ch h)
        · subst h; rcases hc with rfl | rfl <;> decide
        · subst h; decide
        · exact (by decide : ∀ x ∈ REDACTED, isPyDigit x = false) ch h
        · exact ctx_nodigit ch (hpost ch h)
      have hat : ∀ ch ∈ pre ++ ("token".toList ++ (c :: dq :: (REDACTED ++ dq :: post))),
          ch ≠ '@' := by
        intro ch hch
        rcases memA_decomp hch with h | h | h | h | h | h
        · exact ctx_ne_at ch (hpre ch h)
        · exact keyChar_ne_at ch ((by decide : ∀ x ∈ "token".toList, keyChar x = true) ch h)
        · subst h; rcases hc with rfl | rfl <;> decide
        · subst h; decide
        · exact (by decide : ∀ x ∈ REDACTED, x ≠ '@') ch h
        · exact ctx_ne_at ch (hpost ch h)
      have e6 := reSub_ipv4_noop _ hdig
      have e7 := reSub_email_noop _ hat
      rw [e1, e2, e3, e4, e5, e6, e7]

    · have e1 := reSub_quotedA_id rule1Alts dq ("credential".toList) val pre post c dq
        rule1Alts_shape (Or.inl rfl) hc hval hpre hpost hpre1 (by decide)
        (by intro prev
            first
              | rfl
              | exact quoted_none_full prev rfl hc (Or.inl rfl) (by decide)
              | (rcases hc with rfl | rfl <;> rfl))
        (by intro j hj0 hjlen prev
            have hjm : j ∈ List.range (("credential".toList).length) := List.mem_range.mpr hjlen
            fin_cases hjm <;>
              first
                | exact absurd hj0 (by decide)
                | exact Or.inl rfl
                | exact Or.inl (quoted_none_full prev rfl hc (Or.inl rfl) (by decide))
                | exact Or.inr (quotedRule_fire prev rfl hc (Or.inl rfl) (by decide))
                | (rcases hc with rfl | rfl <;> exact Or.inl rfl))
      have e2 := reSub_quotedA_id rule1Alts sq ("credential".toList) val pre post c dq
        rule1Alts_shape (Or.inl rfl) hc hval hpre hpost hpre1 (by decide)
        (by intro prev
            first
              | rfl
              | exact quoted_none_full prev rfl hc (Or.inl rfl) (by decide)
              | (rcases hc with rfl | rfl <;> rfl))
        (by intro j hj0 hjlen prev
            have hjm : j ∈ List.range (("credential".toList).length) := List.mem_range.mpr hjlen
            fin_cases hjm <;>
              first
                | exact absurd hj0 (by decide)
                | exact Or.inl rfl
                | exact Or.inl (quoted_none_full prev rfl hc (Or.inl rfl) (by decide))
                | exact Or.inr (quotedRule_fire prev rfl hc (Or.inl rfl) (by decide))
                | (rcases hc with rfl | rfl <;> exact Or.inl rfl))
      have e3 := reSub_quotedA_fire rule3Alts ("credential".toList) val pre post c dq
        rule3Alts_shape (Or.inl rfl) hc hval hpre hpost rfl
      have e4 := reSub_quotedA_id rule3Alts sq ("credential".toList) REDACTED pre post c dq
        rule3Alts_shape (Or.inl rfl) hc (by decide) hpre hpost hpre1 (by decide)
        (by intro prev
            first
              | rfl
              | exact quoted_none_full prev rfl hc (Or.inl rfl) (by decide)
              | (rcases hc with rfl | rfl <;> rfl))
        (by intro j hj0 hjlen prev
            have hjm : j ∈ List.range (("credential".toList).length) := List.mem_range.mpr hjlen
            fin_cases hjm <;>
              first
                | exact absurd hj0 (by decide)
                | exact Or.inl rfl
                | exact Or.inl (quoted_none_full prev rfl hc (Or.inl rfl) (by decide))
                | exact Or.inr (quotedRule_fire prev rfl hc (Or.inl rfl) (by decide))
                | (rcases hc with rfl | rfl <;> exact Or.inl rfl))
      have e5 := reSub_envA_id ("credential".toList) REDACTED pre post c dq
        (Or.inl rfl) hc (by decide) hpre hpost hpre1 hpre2 (by decide) (by decide)
      have hdig : ∀ ch ∈ pre ++ ("credential".toList ++ (c :: dq :: (REDACTED ++ dq :: post))),
          isPyDigit ch = false := by
        intro ch hch
        rcases memA_decomp hch with h | h | h | h | h | h
        · exact ctx_nodigit ch (hpre ch h)
        · exact keyChar_nodigit ch ((by decide : ∀ x ∈ "credential".toList, keyChar x = true) ch h)
        · subst h; rcases hc with rfl | rfl <;> decide
        · subst h; decide
        · exact (by decide : ∀ x ∈ REDACTED, isPyDigit x = false) ch h
        · exact ctx_nodigit ch (hpost ch h)
      have hat : ∀ ch ∈ pre ++ ("credential".toList ++ (c :: dq :: (REDACTED ++ dq :: post))),
          ch ≠ '@' := by
        intro ch hch
        rcases memA_decomp hch with h | h | h | h | h | h
        · exact ctx_ne_at ch (hpre ch h)
        · exact keyChar_ne_at ch ((by decide : ∀ x ∈ "credential".toList, keyChar x = true) ch h)
        · subst h; rcases hc with rfl | rfl <;> decide
        · subst h; decide
        · exact (by decide : ∀ x ∈ REDACTED, x ≠ '@') ch h
        · exact ctx_ne_at ch (hpost ch h)
      have e6 := reSub_ipv4_noop _ hdig
      have e7 := reSub_email_noop _ hat
      rw [e1, e2, e3, e4, e5, e6, e7]

  · rcases hkey with rfl | rfl | rfl | rfl | rfl | rfl | rfl | rfl | rfl | rfl | rfl
    · have e1 := reSub_quotedA_id rule1Alts dq ("api_key".toList) val pre post c sq
        rule1Alts_shape (Or.inr rfl) hc hval hpre hpost hpre1 (by decide)
        (by intro prev
            first
              | rfl
              | exact quoted_none_full prev rfl hc (Or.inr rfl) (by decide)
              | (rcases hc with rfl | rfl <;> rfl))
        (by intro j hj0 hjlen prev
            have hjm : j ∈ List.range (("api_key".toList).length) := List.mem_range.mpr hjlen
            fin_cases hjm <;>
              first
                | exact absurd hj0 (by decide)
                | exact Or.inl rfl
                | exact Or.inl (quoted_none_full prev rfl hc (Or.inr rfl) (by decide))
                | exact Or.inr (quotedRule_fire prev rfl hc (Or.inr rfl) (by decide))
                | (rcases hc with rfl | rfl <;> exact Or.inl rfl))
      have e2 := reSub_quotedA_fire rule1Alts ("api_key".toList) val pre post c sq
        rule1Alts_shape (Or.inr rfl) hc hval hpre hpost rfl
      have e3 := reSub_quotedA_id rule3Alts dq ("api_key".toList) REDACTED pre post c sq
        rule3Alts_shape (Or.inr rfl) hc (by decide) hpre hpost hpre1 (by decide)
        (by intro prev
            first
              | rfl
              | exact quoted_none_full prev rfl hc (Or.inr rfl) (by decide)
              | (rcases hc with rfl | rfl <;> rfl))
        (by intro j hj0 hjlen prev
            have hjm : j ∈ List.range (("api_key".toList).length) := List.mem_range.mpr hjlen
            fin_cases hjm <;>
              first
                | exact absurd hj0 (by decide)
                | exact Or.inl rfl
                | exact Or.inl (quoted_none_full prev rfl hc (Or.inr rfl) (by decide))
                | exact Or.inr (quotedRule_fire prev rfl hc (Or.inr rfl) (by decide))
                | (rcases hc with rfl | rfl <;> exact Or.inl rfl))
      have e4 := reSub_quotedA_id rule3Alts sq ("api_key".toList) REDACTED pre post c sq
        rule3Alts_shape (Or.inr rfl) hc (by decide) hpre hpost hpre1 (by decide)
        (by intro prev
            first
              | rfl
              | exact quoted_none_full prev rfl hc (Or.inr rfl) (by decide)
              | (rcases hc with rfl | rfl <;> rfl))
        (by intro j hj0 hjlen prev
            have hjm : j ∈ List.range (("api_key".toList).length) := List.mem_range.mpr hjlen
            fin_cases hjm <;>
              first
                | exact absurd hj0 (by decide)
                | exact Or.inl rfl
                | exact Or.inl (quoted_none_full prev rfl hc (Or.inr rfl) (by decide))
                | exact Or.inr (quotedRule_fire prev rfl hc (Or.inr rfl) (by decide))
                | (rcases hc with rfl | rfl <;> exact Or.inl rfl))
      have e5 := reSub_envA_id ("api_key".toList) REDACTED pre post c sq
        (Or.inr rfl) hc (by decide) hpre hpost hpre1 hpre2 (by decide) (by decide)
      have hdig : ∀ ch ∈ pre ++ ("api_key".toList ++ (c :: sq :: (REDACTED ++ sq :: post))),
          isPyDigit ch = false := by
        intro ch hch
        rcases memA_decomp hch with h | h | h | h | h | h
        · exact ctx_nodigit ch (hpre ch h)
        · exact keyChar_nodigit ch ((by decide : ∀ x ∈ "api_key".toList, keyChar x = true) ch h)
        · subst h; rcases hc with rfl | rfl <;> decide
        · subst h; decide
        · exact (by decide : ∀ x ∈ REDACTED, isPyDigit x = false) ch h
        · exact ctx_nodigit ch (hpost ch h)
      have hat : ∀ ch ∈ pre ++ ("api_key".toList ++ (c :: sq :: (REDACTED ++ sq :: post))),
          ch ≠ '@' := by
        intro ch hch
        rcases memA_decomp hch with h | h | h | h | h | h
        · exact ctx_ne_at ch (hpre ch h)
        · exact keyChar_ne_at ch ((by decide : ∀ x ∈ "api_key".toList, keyChar x = true) ch h)
        · subst h; rcases hc with rfl | rfl <;> decide
        · subst h; decide
        · exact (by decide : ∀ x ∈ REDACTED, x ≠ '@') ch h
        · exact ctx_ne_at ch (hpost ch h)
      have e6 := reSub_ipv4_noop _ hdig
      have e7 := reSub_email_noop _ hat
      rw [e1, e2, e3, e4, e5, e6, e7]

    · have e1 := reSub_quotedA_id rule1Alts dq ("secret_key".toList) val pre post c sq
        rule1Alts_shape (Or.inr rfl) hc hval hpre hpost hpre1 (by decide)
        (by intro prev
            first
              | rfl
              | exact quoted_none_full prev rfl hc (Or.inr rfl) (by decide)
              | (rcases hc with rfl | rfl <;> rfl))
        (by intro j hj0 hjlen prev
            have hjm : j ∈ List.range (("secret_key".toList).length) := List.mem_range.mpr hjlen
            fin_cases hjm <;>
              first
                | exact absurd hj0 (by decide)
                | exact Or.inl rfl
                | exact Or.inl (quoted_none_full prev rfl hc (Or.inr rfl) (by decide))
                | exact Or.inr (quotedRule_fire prev rfl hc (Or.inr rfl) (by decide))
                | (rcases hc with rfl | rfl <;> exact Or.inl rfl))
      have e2 := reSub_quotedA_fire rule1Alts ("secret_key".toList) val pre post c sq
        rule1Alts_shape (Or.inr rfl) hc hval hpre hpost rfl
      have e3 := reSub_quotedA_id rule3Alts dq ("secret_key".toList) REDACTED pre post c sq
        rule3Alts_shape (Or.inr rfl) hc (by decide) hpre hpost hpre1 (by decide)
        (by intro prev
            first
              | rfl
              | exact quoted_none_full prev rfl hc (Or.inr rfl) (by decide)
              | (rcases hc with rfl | rfl <;> rfl))
        (by intro j hj0 hjlen prev
            have hjm : j ∈ List.range (("secret_key".toList).length) := List.mem_range.mpr hjlen
            fin_cases hjm <;>
              first
                | exact absurd hj0 (by decide)
                | exact Or.inl rfl
                | exact Or.inl (quoted_none_full prev rfl hc (Or.inr rfl) (by decide))
                | exact Or.inr (quotedRule_fire prev rfl hc (Or.inr rfl) (by decide))
                | (rcases hc with rfl | rfl <;> exact Or.inl rfl))
      have e4 := reSub_quotedA_id rule3Alts sq ("secret_key".toList) REDACTED pre post c sq
        rule3Alts_shape (Or.inr rfl) hc (by decide) hpre hpost hpre1 (by decide)
        (by intro prev
            first
              | rfl
              | exact quoted_none_full prev rfl hc (Or.inr rfl) (by decide)
              | (rcases hc with rfl | rfl <;> rfl))
        (by intro j hj0 hjlen prev
            have hjm : j ∈ List.range (("secret_key".toList).length) := List.mem_range.mpr hjlen
            fin_cases hjm <;>
              first
                | exact absurd hj0 (by decide)
                | exact Or.inl rfl
                | exact Or.inl (quoted_none_full prev rfl hc (Or.inr rfl) (by decide))
                | exact Or.inr (quotedRule_fire prev rfl hc (Or.inr rfl) (by decide))
                | (rcases hc with rfl | rfl <;> exact Or.inl rfl))
      have e5 := reSub_envA_id ("secret_key".toList) REDACTED pre post c sq
        (Or.inr rfl) hc (by decide) hpre hpost hpre1 hpre2 (by decide) (by decide)
      have hdig : ∀ ch ∈ pre ++ ("secret_key".toList ++ (c :: sq :: (REDACTED ++ sq :: post))),
          isPyDigit ch = false := by
        intro ch hch
        rcases memA_decomp hch with h | h | h | h | h | h
        · exact ctx_nodigit ch (hpre ch h)
        · exact keyChar_nodigit ch ((by decide : ∀ x ∈ "secret_key".toList, keyChar x = true) ch h)
        · subst h; rcases hc with rfl | rfl <;> decide
        · subst h; decide
        · exact (by decide : ∀ x ∈ REDACTED, isPyDigit x = false) ch h
        · exact ctx_nodigit ch (hpost ch h)
      have hat : ∀ ch ∈ pre ++ ("secret_key".toList ++ (c :: sq :: (REDACTED ++ sq :: post))),
          ch ≠ '@' := by
        intro ch hch
        rcases memA_decomp hch with h | h | h | h | h | h
        · exact ctx_ne_at ch (hpre ch h)
        · exact keyChar_ne_at ch ((by decide : ∀ x ∈ "secret_key".toList, keyChar x = true) ch h)
        · subst h; rcases hc with rfl | rfl <;> decide
        · subst h; decide
        · exact (by decide : ∀ x ∈ REDACTED, x ≠ '@') ch h
        · exact ctx_ne_at ch (hpost ch h)
      have e6 := reSub_ipv4_noop _ hdig
      have e7 := reSub_email_noop _ hat
      rw [e1, e2, e3, e4, e5, e6, e7]

    · have e1 := reSub_quotedA_id rule1Alts dq ("access_token".toList) val pre post c sq
        rule1Alts_shape (Or.inr rfl) hc hval hpre hpost hpre1 (by decide)
        (by intro prev
            first
              | rfl
              | exact quoted_none_full prev rfl hc (Or.inr rfl) (by decide)
              | (rcases hc with rfl | rfl <;> rfl))
        (by intro j hj0 hjlen prev
            have hjm : j ∈ List.range (("access_token".toList).length) := List.mem_range.mpr hjlen
            fin_cases hjm <;>
              first
                | exact absurd hj0 (by decide)
                | exact Or.inl rfl
                | exact Or.inl (quoted_none_full prev rfl hc (Or.inr rfl) (by decide))
                | exact Or.inr (quotedRule_fire prev rfl hc (Or.inr rfl) (by decide))
                | (rcases hc with rfl | rfl <;> exact Or.inl rfl))
      have e2 := reSub_quotedA_fire rule1Alts ("access_token".toList) val pre post c sq
        rule1Alts_shape (Or.inr rfl) hc hval hpre hpost rfl
      have e3 := reSub_quotedA_id rule3Alts dq ("access_token".toList) REDACTED pre post c sq
        rule3Alts_shape (Or.inr rfl) hc (by decide) hpre hpost hpre1 (by decide)
        (by intro prev
            first
              | rfl
              | exact quoted_none_full prev rfl hc (Or.inr rfl) (by decide)
              | (rcases hc with rfl | rfl <;> rfl))
        (by intro j hj0 hjlen prev
            have hjm : j ∈ List.range (("access_token".toList).length) := List.mem_range.mpr hjlen
            fin_cases hjm <;>
              first
                | exact absurd hj0 (by decide)
                | exact Or.inl rfl
                | exact Or.inl (quoted_none_full prev rfl hc (Or.inr rfl) (by decide))
                | exact Or.inr (quotedRule_fire prev rfl hc (Or.inr rfl) (by decide))
                | (rcases hc with rfl | rfl <;> exact Or.inl rfl))
      have e4 := reSub_quotedA_id rule3Alts sq ("access_token".toList) REDACTED pre post c sq
        rule3Alts_shape (Or.inr rfl) hc (by decide) hpre hpost hpre1 (by decide)
        (by intro prev
            first
              | rfl
              | exact quoted_none_full prev rfl hc (Or.inr rfl) (by decide)
              | (rcases hc with rfl | rfl <;> rfl))
        (by intro j hj0 hjlen prev
            have hjm : j ∈ List.range (("access_token".toList).length) := List.mem_range.mpr hjlen
            fin_cases hjm <;>
              first
                | exact absurd hj0 (by decide)
                | exact Or.inl rfl
                | exact Or.inl (quoted_none_full prev rfl hc (Or.inr rfl) (by decide))
                | exact Or.inr (quotedRule_fire prev rfl hc (Or.inr rfl) (by decide))
                | (rcases hc with rfl | rfl <;> exact Or.inl rfl))
      have e5 := reSub_envA_id ("access_token".toList) REDACTED pre post c sq
        (Or.inr rfl) hc (by decide) hpre hpost hpre1 hpre2 (by decide) (by decide)
      have hdig : ∀ ch ∈ pre ++ ("access_token".toList ++ (c :: sq :: (REDACTED ++ sq :: post))),
          isPyDigit ch = false := by
        intro ch hch
        rcases memA_decomp hch with h | h | h | h | h | h
        · exact ctx_nodigit ch (hpre ch h)
        · exact keyChar_nodigit ch ((by decide : ∀ x ∈ "access_token".toList, keyChar x = true) ch h)
        · subst h; rcases hc with rfl | rfl <;> decide
        · subst h; decide
        · exact (by decide : ∀ x ∈ REDACTED, isPyDigit x = false) ch h
        · exact ctx_nodigit ch (hpost ch h)
      have hat : ∀ ch ∈ pre ++ ("access_token".toList ++ (c :: sq :: (REDACTED ++ sq :: post))),
          ch ≠ '@' := by
        intro ch hch
        rcases memA_decomp hch with h | h | h | h | h | h
        · exact ctx_ne_at ch (hpre ch h)
        · exact keyChar_ne_at ch ((by decide : ∀ x ∈ "access_token".toList, keyChar x = true) ch h)
        · subst h; rcases hc with rfl | rfl <;> decide
        · subst h; decide
        · exact (by decide : ∀ x ∈ REDACTED, x ≠ '@') ch h
        · exact ctx_ne_at ch (hpost ch h)
      have e6 := reSub_ipv4_noop _ hdig
      have e7 := reSub_email_noop _ hat
      rw [e1, e2, e3, e4, e5, e6, e7]

    · have e1 := reSub_quotedA_id rule1Alts dq ("auth_token".toList) val pre post c sq
        rule1Alts_shape (Or.inr rfl) hc hval hpre hpost hpre1 (by decide)
        (by intro prev
            first
              | rfl
              | exact quoted_none_full prev rfl hc (Or.inr rfl) (by decide)
              | (rcases hc with rfl | rfl <;> rfl))
        (by intro j hj0 hjlen prev
            have hjm : j ∈ List.range (("auth_token".toList).length) := List.mem_range.mpr hjlen
            fin_cases hjm <;>
              first
                | exact absurd hj0 (by decide)
                | exact Or.inl rfl
                | exact Or.inl (quoted_none_full prev rfl hc (Or.inr rfl) (by decide))
                | exact Or.inr (quotedRule_fire prev rfl hc (Or.inr rfl) (by decide))
                | (rcases hc with rfl | rfl <;> exact Or.inl rfl))
      have e2 := reSub_quotedA_fire rule1Alts ("auth_token".toList) val pre post c sq
        rule1Alts_shape (Or.inr rfl) hc hval hpre hpost rfl
      have e3 := reSub_quotedA_id rule3Alts dq ("auth_token".toList) REDACTED pre post c sq
        rule3Alts_shape (Or.inr rfl) hc (by decide) hpre hpost hpre1 (by decide)
        (by intro prev
            first
              | rfl
              | exact quoted_none_full prev rfl hc (Or.inr rfl) (by decide)
              | (rcases hc with rfl | rfl <;> rfl))
        (by intro j hj0 hjlen prev
            have hjm : j ∈ List.range (("auth_token".toList).length) := List.mem_range.mpr hjlen
            fin_cases hjm <;>
              first
                | exact absurd hj0 (by decide)
                | exact Or.inl rfl
                | exact Or.inl (quoted_none_full prev rfl hc (Or.inr rfl) (by decide))
                | exact Or.inr (quotedRule_fire prev rfl hc (Or.inr rfl) (by decide))
                | (rcases hc with rfl | rfl <;> exact Or.inl rfl))
      have e4 := reSub_quotedA_id rule3Alts sq ("auth_token".toList) REDACTED pre post c sq
        rule3Alts_shape (Or.inr rfl) hc (by decide) hpre hpost hpre1 (by decide)
        (by intro prev
            first
              | rfl
              | exact quoted_none_full prev rfl hc (Or.inr rfl) (by decide)
              | (rcases hc with rfl | rfl <;> rfl))
        (by intro j hj0 hjlen prev
            have hjm : j ∈ List.range (("auth_token".toList).length) := List.mem_range.mpr hjlen
            fin_cases hjm <;>
              first
                | exact absurd hj0 (by decide)
                | exact Or.inl rfl
                | exact Or.inl (quoted_none_full prev rfl hc (Or.inr rfl) (by decide))
                | exact Or.inr (quotedRule_fire prev rfl hc (Or.inr rfl) (by decide))
                | (rcases hc with rfl | rfl <;> exact Or.inl rfl))
      have e5 := reSub_envA_id ("auth_token".toList) REDACTED pre post c sq
        (Or.inr rfl) hc (by decide) hpre hpost hpre1 hpre2 (by decide) (by decide)
      have hdig : ∀ ch ∈ pre ++ ("auth_token".toList ++ (c :: sq :: (REDACTED ++ sq :: post))),
          isPyDigit ch = false := by
        intro ch hch
        rcases memA_decomp hch with h | h | h | h | h | h
        · exact ctx_nodigit ch (hpre ch h)
        · exact keyChar_nodigit ch ((by decide : ∀ x ∈ "auth_token".toList, keyChar x = true) ch h)
        · subst h; rcases hc with rfl | rfl <;> decide
        · subst h; decide
        · exact (by decide : ∀ x ∈ REDACTED, isPyDigit x = false) ch h
        · exact ctx_nodigit ch (hpost ch h)
      have hat : ∀ ch ∈ pre ++ ("auth_token".toList ++ (c :: sq :: (REDACTED ++ sq :: post))),
          ch ≠ '@' := by
        intro ch hch
        rcases memA_decomp hch with h | h | h | h | h | h
        · exact ctx_ne_at ch (hpre ch h)
        · exact keyChar_ne_at ch ((by decide : ∀ x ∈ "auth_token".toList, keyChar x = true) ch h)
        · subst h; rcases hc with rfl | rfl <;> decide
        · subst h; decide
        · exact (by decide : ∀ x ∈ REDACTED, x ≠ '@') ch h
        · exact ctx_ne_at ch (hpost ch h)
      have e6 := reSub_ipv4_noop _ hdig
      have e7 := reSub_email_noop _ hat
      rw [e1, e2, e3, e4, e5, e6, e7]

    · have e1 := reSub_quotedA_id rule1Alts dq ("private_key".toList) val pre post c sq
        rule1Alts_shape (Or.inr rfl) hc hval hpre hpost hpre1 (by decide)
        (by intro prev
            first
              | rfl
              | exact quoted_none_full prev rfl hc (Or.inr rfl) (by decide)
              | (rcases hc with rfl | rfl <;> rfl))
        (by intro j hj0 hjlen prev
            have hjm : j ∈ List.range (("private_key".toList).length) := List.mem_range.mpr hjlen
            fin_cases hjm <;>
              first
                | exact absurd hj0 (by decide)
                | exact Or.inl rfl
                | exact Or.inl (quoted_none_full prev rfl hc (Or.inr rfl) (by decide))
                | exact Or.inr (quotedRule_fire prev rfl hc (Or.inr rfl) (by decide))
                | (rcases hc with rfl | rfl <;> exact Or.inl rfl))
      have e2 := reSub_quotedA_fire rule1Alts ("private_key".toList) val pre post c sq
        rule1Alts_shape (Or.inr rfl) hc hval hpre hpost rfl
      have e3 := reSub_quotedA_id rule3Alts dq ("private_key".toList) REDACTED pre post c sq
        rule3Alts_shape (Or.inr rfl) hc (by decide) hpre hpost hpre1 (by decide)
        (by intro prev
            first
              | rfl
              | exact quoted_none_full prev rfl hc (Or.inr rfl) (by decide)
              | (rcases hc with rfl | rfl <;> rfl))
        (by intro j hj0 hjlen prev
            have hjm : j ∈ List.range (("private_key".toList).length) := List.mem_range.mpr hjlen
            fin_cases hjm <;>
              first
                | exact absurd hj0 (by decide)
                | exact Or.inl rfl
                | exact Or.inl (quoted_none_full prev rfl hc (Or.inr rfl) (by decide))
                | exact Or.inr (quotedRule_fire prev rfl hc (Or.inr rfl) (by decide))
                | (rcases hc with rfl | rfl <;> exact Or.inl rfl))
      have e4 := reSub_quotedA_id rule3Alts sq ("private_key".toList) REDACTED pre post c sq
        rule3Alts_shape (Or.inr rfl) hc (by decide) hpre hpost hpre1 (by decide)
        (by intro prev
            first
              | rfl
              | exact quoted_none_full prev rfl hc (Or.inr rfl) (by decide)
              | (rcases hc with rfl | rfl <;> rfl))
        (by intro j hj0 hjlen prev
            have hjm : j ∈ List.range (("private_key".toList).length) := List.mem_range.mpr hjlen
            fin_cases hjm <;>
              first
                | exact absurd hj0 (by decide)
                | exact Or.inl rfl
                | exact Or.inl (quoted_none_full prev rfl hc (Or.inr rfl) (by decide))
                | exact Or.inr (quotedRule_fire prev rfl hc (Or.inr rfl) (by decide))
                | (rcases hc with rfl | rfl <;> exact Or.inl rfl))
      have e5 := reSub_envA_id ("private_key".toList) REDACTED pre post c sq
        (Or.inr rfl) hc (by decide) hpre hpost hpre1 hpre2 (by decide) (by decide)
      have hdig : ∀ ch ∈ pre ++ ("private_key".toList ++ (c :: sq :: (REDACTED ++ sq :: post))),
          isPyDigit ch = false := by
        intro ch hch
        rcases memA_decomp hch with h | h | h | h | h | h
        · exact ctx_nodigit ch (hpre ch h)
        · exact keyChar_nodigit ch ((by decide : ∀ x ∈ "private_key".toList, keyChar x = true) ch h)
        · subst h; rcases hc with rfl | rfl <;> decide
        · subst h; decide
        · exact (by decide : ∀ x ∈ REDACTED, isPyDigit x = false) ch h
        · exact ctx_nodigit ch (hpost ch h)
      have hat : ∀ ch ∈ pre ++ ("private_key".toList ++ (c :: sq :: (REDACTED ++ sq :: post))),
          ch ≠ '@' := by
        intro ch hch
        rcases memA_decomp hch with h | h | h | h | h | h
        · exact ctx_ne_at ch (hpre ch h)
        · exact keyChar_ne_at ch ((by decide : ∀ x ∈ "private_key".toList, keyChar x = true) ch h)
        · subst h; rcases hc with rfl | rfl <;> decide
        · subst h; decide
        · exact (by decide : ∀ x ∈ REDACTED, x ≠ '@') ch h
        · exact ctx_ne_at ch (hpost ch h)
      have e6 := reSub_ipv4_noop _ hdig
      have e7 := reSub_email_noop _ hat
      rw [e1, e2, e3, e4, e5, e6, e7]

    · have e1 := reSub_quotedA_id rule1Alts dq ("password".toList) val pre post c sq
        rule1Alts_shape (Or.inr rfl) hc hval hpre hpost hpre1 (by decide)
        (by intro prev
            first
              | rfl
              | exact quoted_none_full prev rfl hc (Or.inr rfl) (by decide)
              | (rcases hc with rfl | rfl <;> rfl))
        (by intro j hj0 hjlen prev
            have hjm : j ∈ List.range (("password".toList).length) := List.mem_range.mpr hjlen
            fin_cases hjm <;>
              first
                | exact absurd hj0 (by decide)
                | exact Or.inl rfl
                | exact Or.inl (quoted_none_full prev rfl hc (Or.inr rfl) (by decide))
                | exact Or.inr (quotedRule_fire prev rfl hc (Or.inr rfl) (by decide))
                | (rcases hc with rfl | rfl <;> exact Or.inl rfl))
      have e2 := reSub_quotedA_id rule1Alts sq ("password".toList) val pre post c sq
        rule1Alts_shape (Or.inr rfl) hc hval hpre hpost hpre1 (by decide)
        (by intro prev
            first
              | rfl
              | exact quoted_none_full prev rfl hc (Or.inr rfl) (by decide)
              | (rcases hc with rfl | rfl <;> rfl))
        (by intro j hj0 hjlen prev
            have hjm : j ∈ List.range (("password".toList).length) := List.mem_range.mpr hjlen
            fin_cases hjm <;>
              first
                | exact absurd hj0 (by decide)
                | exact Or.inl rfl
                | exact Or.inl (quoted_none_full prev rfl hc (Or.inr rfl) (by decide))
                | exact Or.inr (quotedRule_fire prev rfl hc (Or.inr rfl) (by decide))
                | (rcases hc with rfl | rfl <;> exact Or.inl rfl))
      have e3 := reSub_quotedA_id rule3Alts dq ("password".toList) val pre post c sq
        rule3Alts_shape (Or.inr rfl) hc hval hpre hpost hpre1 (by decide)
        (by intro prev
            first
              | rfl
              | exact quoted_none_full prev rfl hc (Or.inr rfl) (by decide)
              | (rcases hc with rfl | rfl <;> rfl))
        (by intro j hj0 hjlen prev
            have hjm : j ∈ List.range (("password".toList).length) := List.mem_range.mpr hjlen
            fin_cases hjm <;>
              first
                | exact absurd hj0 (by decide)
                | exact Or.inl rfl
                | exact Or.inl (quoted_none_full prev rfl hc (Or.inr rfl) (by decide))
                | exact Or.inr (quotedRule_fire prev rfl hc (Or.inr rfl) (by decide))
                | (rcases hc with rfl | rfl <;> exact Or.inl rfl))
      have e4 := reSub_quotedA_fire rule3Alts ("password".toList) val pre post c sq
        rule3Alts_shape (Or.inr rfl) hc hval hpre hpost rfl
      have e5 := reSub_envA_id ("password".toList) REDACTED pre post c sq
        (Or.inr rfl) hc (by decide) hpre hpost hpre1 hpre2 (by decide) (by decide)
      have hdig : ∀ ch ∈ pre ++ ("password".toList ++ (c :: sq :: (REDACTED ++ sq :: post))),
          isPyDigit ch = false := by
        intro ch hch
        rcases memA_decomp hch with h | h | h | h | h | h
        · exact ctx_nodigit ch (hpre ch h)
        · exact keyChar_nodigit ch ((by decide : ∀ x ∈ "password".toList, keyChar x = true) ch h)
        · subst h; rcases hc with rfl | rfl <;> decide
        · subst h; decide
        · exact (by decide : ∀ x ∈ REDACTED, isPyDigit x = false) ch h
        · exact ctx_nodigit ch (hpost ch h)
      have hat : ∀ ch ∈ pre ++ ("password".toList ++ (c :: sq :: (REDACTED ++ sq :: post))),
          ch ≠ '@' := by
        intro ch hch
        rcases memA_decomp hch with h | h | h | h | h | h
        · exact ctx_ne_at ch (hpre ch h)
        · exact keyChar_ne_at ch ((by decide : ∀ x ∈ "password".toList, keyChar x = true) ch h)
        · subst h; rcases hc with rfl | rfl <;> decide
        · subst h; decide
        · exact (by decide : ∀ x ∈ REDACTED, x ≠ '@') ch h
        · exact ctx_ne_at ch (hpost ch h)
      have e6 := reSub_ipv4_noop _ hdig
      have e7 := reSub_email_noop _ hat
      rw [e1, e2, e3, e4, e5, e6, e7]

    · have e1 := reSub_quotedA_id rule1Alts dq ("passwd".toList) val pre post c sq
        rule1Alts_shape (Or.inr rfl) hc hval hpre hpost hpre1 (by decide)
        (by intro prev
            first
              | rfl
              | exact quoted_none_full prev rfl hc (Or.inr rfl) (by decide)
              | (rcases hc with rfl | rfl <;> rfl))
        (by intro j hj0 hjlen prev
            have hjm : j ∈ List.range (("passwd".toList).length) := List.mem_range.mpr hjlen
            fin_cases hjm <;>
              first
                | exact absurd hj0 (by decide)
                | exact Or.inl rfl
                | exact Or.inl (quoted_none_full prev rfl hc (Or.inr rfl) (by decide))
                | exact Or.inr (quotedRule_fire prev rfl hc (Or.inr rfl) (by decide))
                | (rcases hc with rfl | rfl <;> exact Or.inl rfl))
      have e2 := reSub_quotedA_id rule1Alts sq ("passwd".toList) val pre post c sq
        rule1Alts_shape (Or.inr rfl) hc hval hpre hpost hpre1 (by decide)
        (by intro prev
            first
              | rfl
              | exact quoted_none_full prev rfl hc (Or.inr rfl) (by decide)
              | (rcases hc with rfl | rfl <;> rfl))
        (by intro j hj0 hjlen prev
            have hjm : j ∈ List.range (("passwd".toList).length) := List.mem_range.mpr hjlen
            fin_cases hjm <;>
              first
                | exact absurd hj0 (by decide)
                | exact Or.inl rfl
                | exact Or.inl (quoted_none_full prev rfl hc (Or.inr rfl) (by decide))
                | exact Or.inr (quotedRule_fire prev rfl hc (Or.inr rfl) (by decide))
                | (rcases hc with rfl | rfl <;> exact Or.inl rfl))
      have e3 := reSub_quotedA_id rule3Alts dq ("passwd".toList) val pre post c sq
        rule3Alts_shape (Or.inr rfl) hc hval hpre hpost hpre1 (by decide)
        (by intro prev
            first
              | rfl
              | exact quoted_none_full prev rfl hc (Or.inr rfl) (by decide)
              | (rcases hc with rfl | rfl <;> rfl))
        (by intro j hj0 hjlen prev
            have hjm : j ∈ List.range (("passwd".toList).length) := List.mem_range.mpr hjlen
            fin_cases hjm <;>
              first
                | exact absurd hj0 (by decide)
                | exact Or.inl rfl
                | exact Or.inl (quoted_none_full prev rfl hc (Or.inr rfl) (by decide))
                | exact Or.inr (quotedRule_fire prev rfl hc (Or.inr rfl) (by decide))
                | (rcases hc with rfl | rfl <;> exact Or.inl rfl))
      have e4 := reSub_quotedA_fire rule3Alts ("passwd".toList) val pre post c sq
        rule3Alts_shape (Or.inr rfl) hc hval hpre hpost rfl
      have e5 := reSub_envA_id ("passwd".toList) REDACTED pre post c sq
        (Or.inr rfl) hc (by decide) hpre hpost hpre1 hpre2 (by decide) (by decide)
      have hdig : ∀ ch ∈ pre ++ ("passwd".toList ++ (c :: sq :: (REDACTED ++ sq :: post))),
          isPyDigit ch = false := by
        intro ch hch
        rcases memA_decomp hch with h | h | h | h | h | h
        · exact ctx_nodigit ch (hpre ch h)
        · exact keyChar_nodigit ch ((by decide : ∀ x ∈ "passwd".toList, keyChar x = true) ch h)
        · subst h; rcases hc with rfl | rfl <;> decide
        · subst h; decide
        · exact (by decide : ∀ x ∈ REDACTED, isPyDigit x = false) ch h
        · exact ctx_nodigit ch (hpost ch h)
      have hat : ∀ ch ∈ pre ++ ("passwd".toList ++ (c :: sq :: (REDACTED ++ sq :: post))),
          ch ≠ '@' := by
        intro ch hch
        rcases memA_decomp hch with h | h | h | h | h | h
        · exact ctx_ne_at ch (hpre ch h)
        · exact keyChar_ne_at ch ((by decide : ∀ x ∈ "passwd".toList, keyChar x = true) ch h)
        · subst h; rcases hc with rfl | rfl <;> decide
        · subst h; decide
        · exact (by decide : ∀ x ∈ REDACTED, x ≠ '@') ch h
        · exact ctx_ne_at ch (hpost ch h)
      have e6 := reSub_ipv4_noop _ hdig
      have e7 := reSub_email_noop _ hat
      rw [e1, e2, e3, e4, e5, e6, e7]

    · have e1 := reSub_quotedA_id rule1Alts dq ("pwd".toList) val pre post c sq
        rule1Alts_shape (Or.inr rfl) hc hval hpre hpost hpre1 (by decide)
        (by intro prev
            first
              | rfl
              | exact quoted_none_full prev rfl hc (Or.inr rfl) (by decide)
              | (rcases hc with rfl | rfl <;> rfl))
        (by intro j hj0 hjlen prev
            have hjm : j ∈ List.range (("pwd".toList).length) := List.mem_range.mpr hjlen
            fin_cases hjm <;>
              first
                | exact absurd hj0 (by decide)
                | exact Or.inl rfl
                | exact Or.inl (quoted_none_full prev rfl hc (Or.inr rfl) (by decide))
                | exact Or.inr (quotedRule_fire prev rfl hc (Or.inr rfl) (by decide))
                | (rcases hc with rfl | rfl <;> exact Or.inl rfl))
      have e2 := reSub_quotedA_id rule1Alts sq ("pwd".toList) val pre post c sq
        rule1Alts_shape (Or.inr rfl) hc hval hpre hpost hpre1 (by decide)
        (by intro prev
            first
              | rfl
              | exact quoted_none_full prev rfl hc (Or.inr rfl) (by decide)
              | (rcases hc with rfl | rfl <;> rfl))
        (by intro j hj0 hjlen prev
            have hjm : j ∈ List.range (("pwd".toList).length) := List.mem_range.mpr hjlen
            fin_cases hjm <;>
              first
                | exact absurd hj0 (by decide)
                | exact Or.inl rfl
                | exact Or.inl (quoted_none_full prev rfl hc (Or.inr rfl) (by decide))
                | exact Or.inr (quotedRule_fire prev rfl hc (Or.inr rfl) (by decide))
                | (rcases hc with rfl | rfl <;> exact Or.inl rfl))
      have e3 := reSub_quotedA_id rule3Alts dq ("pwd".toList) val pre post c sq
        rule3Alts_shape (Or.inr rfl) hc hval hpre hpost hpre1 (by decide)
        (by intro prev
            first
              | rfl
              | exact quoted_none_full prev rfl hc (Or.inr rfl) (by decide)
              | (rcases hc with rfl | rfl <;> rfl))
        (by intro j hj0 hjlen prev
            have hjm : j ∈ List.range (("pwd".toList).length) := List.mem_range.mpr hjlen
            fin_cases hjm <;>
              first
                | exact absurd hj0 (by decide)
                | exact Or.inl rfl
                | exact Or.inl (quoted_none_full prev rfl hc (Or.inr rfl) (by decide))
                | exact Or.inr (quotedRule_fire prev rfl hc (Or.inr rfl) (by decide))
                | (rcases hc with rfl | rfl <;> exact Or.inl rfl))
      have e4 := reSub_quotedA_fire rule3Alts ("pwd".toList) val pre post c sq
        rule3Alts_shape (Or.inr rfl) hc hval hpre hpost rfl
      have e5 := reSub_envA_id ("pwd".toList) REDACTED pre post c sq
        (Or.inr rfl) hc (by decide) hpre hpost hpre1 hpre2 (by decide) (by decide)
      have hdig : ∀ ch ∈ pre ++ ("pwd".toList ++ (c :: sq :: (REDACTED ++ sq :: post))),
          isPyDigit ch = false := by
        intro ch hch
        rcases memA_decomp hch with h | h | h | h | h | h
        · exact ctx_nodigit ch (hpre ch h)
        · exact keyChar_nodigit ch ((by decide : ∀ x ∈ "pwd".toList, keyChar x = true) ch h)
        · subst h; rcases hc with rfl | rfl <;> decide
        · subst h; decide
        · exact (by decide : ∀ x ∈ REDACTED, isPyDigit x = false) ch h
        · exact ctx_nodigit ch (hpost ch h)
      have hat : ∀ ch ∈ pre ++ ("pwd".toList ++ (c :: sq :: (REDACTED ++ sq :: post))),
          ch ≠ '@' := by
        intro ch hch
        rcases memA_decomp hch with h | h | h | h | h | h
        · exact ctx_ne_at ch (hpre ch h)
        · exact keyChar_ne_at ch ((by decide : ∀ x ∈ "pwd".toList, keyChar x = true) ch h)
        · subst h; rcases hc with rfl | rfl <;> decide
        · subst h; decide
        · exact (by decide : ∀ x ∈ REDACTED, x ≠ '@') ch h
        · exact ctx_ne_at ch (hpost ch h)
      have e6 := reSub_ipv4_noop _ hdig
      have e7 := reSub_email_noop _ hat
      rw [e1, e2, e3, e4, e5, e6, e7]

    · have e1 := reSub_quotedA_id rule1Alts dq ("secret".toList) val pre post c sq
        rule1Alts_shape (Or.inr rfl) hc hval hpre hpost hpre1 (by decide)
        (by intro prev
            first
              | rfl
              | exact quoted_none_full prev rfl hc (Or.inr rfl) (by decide)
              | (rcases hc with rfl | rfl <;> rfl))
        (by intro j hj0 hjlen prev
            have hjm : j ∈ List.range (("secret".toList).length) := List.mem_range.mpr hjlen
            fin_cases hjm <;>
              first
                | exact absurd hj0 (by decide)
                | exact Or.inl rfl
                | exact Or.inl (quoted_none_full prev rfl hc (Or.inr rfl) (by decide))
                | exact Or.inr (quotedRule_fire prev rfl hc (Or.inr rfl) (by decide))
                | (rcases hc with rfl | rfl <;> exact Or.inl rfl))
      have e2 := reSub_quotedA_id rule1Alts sq ("secret".toList) val pre post c sq
        rule1Alts_shape (Or.inr rfl) hc hval hpre hpost hpre1 (by decide)
        (by intro prev
            first
              | rfl
              | exact quoted_none_full prev rfl hc (Or.inr rfl) (by decide)
              | (rcases hc with rfl | rfl <;> rfl))
        (by intro j hj0 hjlen prev
            have hjm : j ∈ List.range (("secret".toList).length) := List.mem_range.mpr hjlen
            fin_cases hjm <;>
              first
                | exact absurd hj0 (by decide)
                | exact Or.inl rfl
                | exact Or.inl (quoted_none_full prev rfl hc (Or.inr rfl) (by decide))
                | exact Or.inr (quotedRule_fire prev rfl hc (Or.inr rfl) (by decide))
                | (rcases hc with rfl | rfl <;> exact Or.inl rfl))
      have e3 := reSub_quotedA_id rule3Alts dq ("secret".toList) val pre post c sq
        rule3Alts_shape (Or.inr rfl) hc hval hpre hpost hpre1 (by decide)
        (by intro prev
            first
              | rfl
              | exact quoted_none_full prev rfl hc (Or.inr rfl) (by decide)
              | (rcases hc with rfl | rfl <;> rfl))
        (by intro j hj0 hjlen prev
            have hjm : j ∈ List.range (("secret".toList).length) := List.mem_range.mpr hjlen
            fin_cases hjm <;>
              first
                | exact absurd hj0 (by decide)
                | exact Or.inl rfl
                | exact Or.inl (quoted_none_full prev rfl hc (Or.inr rfl) (by decide))
                | exact Or.inr (quotedRule_fire prev rfl hc (Or.inr rfl) (by decide))
                | (rcases hc with rfl | rfl <;> exact Or.inl rfl))
      have e4 := reSub_quotedA_fire rule3Alts ("secret".toList) val pre post c sq
        rule3Alts_shape (Or.inr rfl) hc hval hpre hpost rfl
      have e5 := reSub_envA_id ("secret".toList) REDACTED pre post c sq
        (Or.inr rfl) hc (by decide) hpre hpost hpre1 hpre2 (by decide) (by decide)
      have hdig : ∀ ch ∈ pre ++ ("secret".toList ++ (c :: sq :: (REDACTED ++ sq :: post))),
          isPyDigit ch = false := by
        intro ch hch
        rcases memA_decomp hch with h | h | h | h | h | h
        · exact ctx_nodigit ch (hpre ch h)
        · exact keyChar_nodigit ch ((by decide : ∀ x ∈ "secret".toList, keyChar x = true) ch h)
        · subst h; rcases hc with rfl | rfl <;> decide
        · subst h; decide
        · exact (by decide : ∀ x ∈ REDACTED, isPyDigit x = false) ch h
        · exact ctx_nodigit ch (hpost ch h)
      have hat : ∀ ch ∈ pre ++ ("secret".toList ++ (c :: sq :: (REDACTED ++ sq :: post))),
          ch ≠ '@' := by
        intro ch hch
        rcases memA_decomp hch with h | h | h | h | h | h
        · exact ctx_ne_at ch (hpre ch h)
        · exact keyChar_ne_at ch ((by decide : ∀ x ∈ "secret".toList, keyChar x = true) ch h)
        · subst h; rcases hc with rfl | rfl <;> decide
        · subst h; decide
        · exact (by decide : ∀ x ∈ REDACTED, x ≠ '@') ch h
        · exact ctx_ne_at ch (hpost ch h)
      have e6 := reSub_ipv4_noop _ hdig
      have e7 := reSub_email_noop _ hat
      rw [e1, e2, e3, e4, e5, e6, e7]

    · have e1 := reSub_quotedA_id rule1Alts dq ("token".toList) val pre post c sq
        rule1Alts_shape (Or.inr rfl) hc hval hpre hpost hpre1 (by decide)
        (by intro prev
            first
              | rfl
              | exact quoted_none_full prev rfl hc (Or.inr rfl) (by decide)
              | (rcases hc with rfl | rfl <;> rfl))
        (by intro j hj0 hjlen prev
            have hjm : j ∈ List.range (("token".toList).length) := List.mem_range.mpr hjlen
            fin_cases hjm <;>
              first
                | exact absurd hj0 (by decide)
                | exact Or.inl rfl
                | exact Or.inl (quoted_none_full prev rfl hc (Or.inr rfl) (by decide))
                | exact Or.inr (quotedRule_fire prev rfl hc (Or.inr rfl) (by decide))
                | (rcases hc with rfl | rfl <;> exact Or.inl rfl))
      have e2 := reSub_quotedA_id rule1Alts sq ("token".toList) val pre post c sq
        rule1Alts_shape (Or.inr rfl) hc hval hpre hpost hpre1 (by decide)
        (by intro prev
            first
              | rfl
              | exact quoted_none_full prev rfl hc (Or.inr rfl) (by decide)
              | (rcases hc with rfl | rfl <;> rfl))
        (by intro j hj0 hjlen prev
            have hjm : j ∈ List.range (("token".toList).length) := List.mem_range.mpr hjlen
            fin_cases hjm <;>
              first
                | exact absurd hj0 (by decide)
                | exact Or.inl rfl
                | exact Or.inl (quoted_none_full prev rfl hc (Or.inr rfl) (by decide))
                | exact Or.inr (quotedRule_fire prev rfl hc (Or.inr rfl) (by decide))
                | (rcases hc with rfl | rfl <;> exact Or.inl rfl))
      have e3 := reSub_quotedA_id rule3Alts dq ("token".toList) val pre post c sq
        rule3Alts_shape (Or.inr rfl) hc hval hpre hpost hpre1 (by decide)
        (by intro prev
            first
              | rfl
              | exact quoted_none_full prev rfl hc (Or.inr rfl) (by decide)
              | (rcases hc with rfl | rfl <;> rfl))
        (by intro j hj0 hjlen prev
            have hjm : j ∈ List.range (("token".toList).length) := List.mem_range.mpr hjlen
            fin_cases hjm <;>
              first
                | exact absurd hj0 (by decide)
                | exact Or.inl rfl
                | exact Or.inl (quoted_none_full prev rfl hc (Or.inr rfl) (by decide))
                | exact Or.inr (quotedRule_fire prev rfl hc (Or.inr rfl) (by decide))
                | (rcases hc with rfl | rfl <;> exact Or.inl rfl))
      have e4 := reSub_quotedA_fire rule3Alts ("token".toList) val pre post c sq
        rule3Alts_shape (Or.inr rfl) hc hval hpre hpost rfl
      have e5 := reSub_envA_id ("token".toList) REDACTED pre post c sq
        (Or.inr rfl) hc (by decide) hpre hpost hpre1 hpre2 (by decide) (by decide)
      have hdig : ∀ ch ∈ pre ++ ("token".toList ++ (c :: sq :: (REDACTED ++ sq :: post))),
          isPyDigit ch = false := by
        intro ch hch
        rcases memA_decomp hch with h | h | h | h | h | h
        · exact ctx_nodigit ch (hpre ch h)
        · exact keyChar_nodigit ch ((by decide : ∀ x ∈ "token".toList, keyChar x = true) ch h)
        · subst h; rcases hc with rfl | rfl <;> decide
        · subst h; decide
        · exact (by decide : ∀ x ∈ REDACTED, isPyDigit x = false) ch h
        · exact ctx_nodigit ch (hpost ch h)
      have hat : ∀ ch ∈ pre ++ ("token".toList ++ (c :: sq :: (REDACTED ++ sq :: post))),
          ch ≠ '@' := by
        intro ch hch
        rcases memA_decomp hch with h | h | h | h | h | h
        · exact ctx_ne_at ch (hpre ch h)
        · exact keyChar_ne_at ch ((by decide : ∀ x ∈ "token".toList, keyChar x = true) ch h)
        · subst h; rcases hc with rfl | rfl <;> decide
        · subst h; decide
        · exact (by decide : ∀ x ∈ REDACTED, x ≠ '@') ch h
        · exact ctx_ne_at ch (hpost ch h)
      have e6 := reSub_ipv4_noop _ hdig
      have e7 := reSub_email_noop _ hat
      rw [e1, e2, e3, e4, e5, e6, e7]

    · have e1 := reSub_quotedA_id rule1Alts dq ("credential".toList) val pre post c sq
        rule1Alts_shape (Or.inr rfl) hc hval hpre hpost hpre1 (by decide)
        (by intro prev
            first
              | rfl
              | exact quoted_none_full prev rfl hc (Or.inr rfl) (by decide)
              | (rcases hc with rfl | rfl <;> rfl))
        (by intro j hj0 hjlen prev
            have hjm : j ∈ List.range (("credential".toList).length) := List.mem_range.mpr hjlen
            fin_cases hjm <;>
              first
                | exact absurd hj0 (by decide)
                | exact Or.inl rfl
                | exact Or.inl (quoted_none_full prev rfl hc (Or.inr rfl) (by decide))
                | exact Or.inr (quotedRule_fire prev rfl hc (Or.inr rfl) (by decide))
                | (rcases hc with rfl | rfl <;> exact Or.inl rfl))
      have e2 := reSub_quotedA_id rule1Alts sq ("credential".toList) val pre post c sq
        rule1Alts_shape (Or.inr rfl) hc hval hpre hpost hpre1 (by decide)
        (by intro prev
            first
              | rfl
              | exact quoted_none_full prev rfl hc (Or.inr rfl) (by decide)
              | (rcases hc with rfl | rfl <;> rfl))
        (by intro j hj0 hjlen prev
            have hjm : j ∈ List.range (("credential".toList).length) := List.mem_range.mpr hjlen
            fin_cases hjm <;>
              first
                | exact absurd hj0 (by decide)
                | exact Or.inl rfl
                | exact Or.inl (quoted_none_full prev rfl hc (Or.inr rfl) (by decide))
                | exact Or.inr (quotedRule_fire prev rfl hc (Or.inr rfl) (by decide))
                | (rcases hc with rfl | rfl <;> exact Or.inl rfl))
      have e3 := reSub_quotedA_id rule3Alts dq ("credential".toList) val pre post c sq
        rule3Alts_shape (Or.inr rfl) hc hval hpre hpost hpre1 (by decide)
        (by intro prev
            first
              | rfl
              | exact quoted_none_full prev rfl hc (Or.inr rfl) (by decide)
              | (rcases hc with rfl | rfl <;> rfl))
        (by intro j hj0 hjlen prev
            have hjm : j ∈ List.range (("credential".toList).length) := List.mem_range.mpr hjlen
            fin_cases hjm <;>
              first
                | exact absurd hj0 (by decide)
                | exact Or.inl rfl
                | exact Or.inl (quoted_none_full prev rfl hc (Or.inr rfl) (by decide))
                | exact Or.inr (quotedRule_fire prev rfl hc (Or.inr rfl) (by decide))
                | (rcases hc with rfl | rfl <;> exact Or.inl rfl))
      have e4 := reSub_quotedA_fire rule3Alts ("credential".toList) val pre post c sq
        rule3Alts_shape (Or.inr rfl) hc hval hpre hpost rfl
      have e5 := reSub_envA_id ("credential".toList) REDACTED pre post c sq
        (Or.inr rfl) hc (by decide) hpre hpost hpre1 hpre2 (by decide) (by decide)
      have hdig : ∀ ch ∈ pre ++ ("credential".toList ++ (c :: sq :: (REDACTED ++ sq :: post))),
          isPyDigit ch = false := by
        intro ch hch
        rcases memA_decomp hch with h | h | h | h | h | h
        · exact ctx_nodigit ch (hpre ch h)
        · exact keyChar_nodigit ch ((by decide : ∀ x ∈ "credential".toList, keyChar x = true) ch h)
        · subst h; rcases hc with rfl | rfl <;> decide
        · subst h; decide
        · exact (by decide : ∀ x ∈ REDACTED, isPyDigit x = false) ch h
        · exact ctx_nodigit ch (hpost ch h)
      have hat : ∀ ch ∈ pre ++ ("credential".toList ++ (c :: sq :: (REDACTED ++ sq :: post))),
          ch ≠ '@' := by
        intro ch hch
        rcases memA_decomp hch with h | h | h | h | h | h
        · exact ctx_ne_at ch (hpre ch h)
        · exact keyChar_ne_at ch ((by decide : ∀ x ∈ "credential".toList, keyChar x = true) ch h)
        · subst h; rcases hc with rfl | rfl <;> decide
        · subst h; decide
        · exact (by decide : ∀ x ∈ REDACTED, x ≠ '@') ch h
        · exact ctx_ne_at ch (hpost ch h)
      have e6 := reSub_ipv4_noop _ hdig
      have e7 := reSub_email_noop _ hat
      rw [e1, e2, e3, e4, e5, e6, e7]


/-- Redaction of an env-style `KEY=value` line at the start of the text or
of a line: the env rule replaces the whole value (up to the end of the
line) by `***REDACTED***`, and every other rule leaves the text unchanged. -/
theorem sanitize_env_line (key val pre post : List Char)
    (hkey : key ∈ envKeyForms) (hvne : val ≠ [])
    (hval : ∀ ch ∈ val, plainValChar ch = true)
    (hpre : ∀ ch ∈ pre, ctxChar ch = true)
    (hpreLS : pre = [] ∨ pre.getLast? = some '\n')
    (hpost : ∀ ch ∈ post, ctxChar ch = true)
    (hpostNL : post = [] ∨ ∃ p2, post = '\n' :: p2) :
    sanitize_code (pre ++ (key ++ ('=' :: (val ++ post))))
      = pre ++ (key ++ ('=' :: (REDACTED ++ post))) := by
  obtain ⟨vh, vt, rfl⟩ := List.exists_cons_of_ne_nil hvne
  simp only [envKeyForms, List.mem_cons, List.not_mem_nil, or_false] at hkey
  unfold sanitize_code SANITIZE_RULES
  simp only [List.foldl_cons, List.foldl_nil]
  rcases hkey with rfl | rfl | rfl | rfl | rfl | rfl | rfl | rfl | rfl | rfl | rfl | rfl | rfl | rfl
  · have f1 := reSub_quotedB_id rule1Alts dq ("API_KEY".toList) (vh :: vt) pre post
      rule1Alts_shape hval hpre hpost (by decide)
      (by intro prev
          first
            | rfl
            | exact quoted_none_unquoted prev rfl
                (plain_not_ws vh (hval vh (List.mem_cons_self vh vt)))
                ((plain_ne_quote vh (hval vh (List.mem_cons_self vh vt))).1))
      (by intro j hj0 hjlen prev
          have hjm : j ∈ List.range (("API_KEY".toList).length) := List.mem_range.mpr hjlen
          fin_cases hjm <;>
            first
              | exact absurd hj0 (by decide)
              | rfl
              | exact quoted_none_unquoted prev rfl
                  (plain_not_ws vh (hval vh (List.mem_cons_self vh vt)))
                  ((plain_ne_quote vh (hval vh (List.mem_cons_self vh vt))).1))
    have f2 := reSub_quotedB_id rule1Alts sq ("API_KEY".toList) (vh :: vt) pre post
      rule1Alts_shape hval hpre hpost (by decide)
      (by intro prev
          first
            | rfl
            | exact quoted_none_unquoted prev rfl
                (plain_not_ws vh (hval vh (List.mem_cons_self vh vt)))
                ((plain_ne_quote vh (hval vh (List.mem_cons_self vh vt))).2))
      (by intro j hj0 hjlen prev
          have hjm : j ∈ List.range (("API_KEY".toList).length) := List.mem_range.mpr hjlen
          fin_cases hjm <;>
            first
              | exact absurd hj0 (by decide)
              | rfl
              | exact quoted_none_unquoted prev rfl
                  (plain_not_ws vh (hval vh (List.mem_cons_self vh vt)))
                  ((plain_ne_quote vh (hval vh (List.mem_cons_self vh vt))).2))
    have f3 := reSub_quotedB_id rule3Alts dq ("API_KEY".toList) (vh :: vt) pre post
      rule3Alts_shape hval hpre hpost (by decide)
      (by intro prev
          first
            | rfl
            | exact quoted_none_unquoted prev rfl
                (plain_not_ws vh (hval vh (List.mem_cons_self vh vt)))
                ((plain_ne_quote vh (hval vh (List.mem_cons_self vh vt))).1))
      (by intro j hj0 hjlen prev
          have hjm : j ∈ List.range (("API_KEY".toList).length) := List.mem_range.mpr hjlen
          fin_cases hjm <;>
            first
              | exact absurd hj0 (by decide)
              | rfl
              | exact quoted_none_unquoted prev rfl
                  (plain_not_ws vh (hval vh (List.mem_cons_self vh vt)))
                  ((plain_ne_quote vh (hval vh (List.mem_cons_self vh vt))).1))
    have f4 := reSub_quotedB_id rule3Alts sq ("API_KEY".toList) (vh :: vt) pre post
      rule3Alts_shape hval hpre hpost (by decide)
      (by intro prev
          first
            | rfl
            | exact quoted_none_unquoted prev rfl
                (plain_not_ws vh (hval vh (List.mem_cons_self vh vt)))
                ((plain_ne_quote vh (hval vh (List.mem_cons_self vh vt))).2))
      (by intro j hj0 hjlen prev
          have hjm : j ∈ List.range (("API_KEY".toList).length) := List.mem_range.mpr hjlen
          fin_cases hjm <;>
            first
              | exact absurd hj0 (by decide)
              | rfl
              | exact quoted_none_unquoted prev rfl
                  (plain_not_ws vh (hval vh (List.mem_cons_self vh vt)))
                  ((plain_ne_quote vh (hval vh (List.mem_cons_self vh vt))).2))
    have f5 := reSub_envB_fire ("API_KEY".toList) (vh :: vt) pre post hval (by simp)
      hpre hpreLS hpost hpostNL rfl
    have hdig : ∀ ch ∈ pre ++ ("API_KEY".toList ++ ('=' :: (REDACTED ++ post))),
        isPyDigit ch = false := by
      intro ch hch
      rcases memB_decomp hch with h | h | h | h | h
      · exact ctx_nodigit ch (hpre ch h)
      · exact keyChar_nodigit ch ((by decide : ∀ x ∈ "API_KEY".toList, keyChar x = true) ch h)
      · subst h; decide
      · exact (by decide : ∀ x ∈ REDACTED, isPyDigit x = false) ch h
      · exact ctx_nodigit ch (hpost ch h)
    have hat : ∀ ch ∈ pre ++ ("API_KEY".toList ++ ('=' :: (REDACTED ++ post))),
        ch ≠ '@' := by
      intro ch hch
      rcases memB_decomp hch with h | h | h | h | h
      · exact ctx_ne_at ch (hpre ch h)
      · exact keyChar_ne_at ch ((by decide : ∀ x ∈ "API_KEY".toList, keyChar x = true) ch h)
      · subst h; decide
      · exact (by decide : ∀ x ∈ REDACTED, x ≠ '@') ch h
      · exact ctx_ne_at ch (hpost ch h)
    have f6 := reSub_ipv4_noop _ hdig
    have f7 := reSub_email_noop _ hat
    rw [f1, f2, f3, f4, f5, f6, f7]

  · have f1 := reSub_quotedB_id rule1Alts dq ("SECRET_KEY".toList) (vh :: vt) pre post
      rule1Alts_shape hval hpre hpost (by decide)
      (by intro prev
          first
            | rfl
            | exact quoted_none_unquoted prev rfl
                (plain_not_ws vh (hval vh (List.mem_cons_self vh vt)))
                ((plain_ne_quote vh (hval vh (List.mem_cons_self vh vt))).1))
      (by intro j hj0 hjlen prev
          have hjm : j ∈ List.range (("SECRET_KEY".toList).length) := List.mem_range.mpr hjlen
          fin_cases hjm <;>
            first
              | exact absurd hj0 (by decide)
              | rfl
              | exact quoted_none_unquoted prev rfl
                  (plain_not_ws vh (hval vh (List.mem_cons_self vh vt)))
                  ((plain_ne_quote vh (hval vh (List.mem_cons_self vh vt))).1))
    have f2 := reSub_quotedB_id rule1Alts sq ("SECRET_KEY".toList) (vh :: vt) pre post
      rule1Alts_shape hval hpre hpost (by decide)
      (by intro prev
          first
            | rfl
            | exact quoted_none_unquoted prev rfl
                (plain_not_ws vh (hval vh (List.mem_cons_self vh vt)))
                ((plain_ne_quote vh (hval vh (List.mem_cons_self vh vt))).2))
      (by intro j hj0 hjlen prev
          have hjm : j ∈ List.range (("SECRET_KEY".toList).length) := List.mem_range.mpr hjlen
          fin_cases hjm <;>
            first
              | exact absurd hj0 (by decide)
              | rfl
              | exact quoted_none_unquoted prev rfl
                  (plain_not_ws vh (hval vh (List.mem_cons_self vh vt)))
                  ((plain_ne_quote vh (hval vh (List.mem_cons_self vh vt))).2))
    have f3 := reSub_quotedB_id rule3Alts dq ("SECRET_KEY".toList) (vh :: vt) pre post
      rule3Alts_shape hval hpre hpost (by decide)
      (by intro prev
          first
            | rfl
            | exact quoted_none_unquoted prev rfl
                (plain_not_ws vh (hval vh (List.mem_cons_self vh vt)))
                ((plain_ne_quote vh (hval vh (List.mem_cons_self vh vt))).1))
      (by intro j hj0 hjlen prev
          have hjm : j ∈ List.range (("SECRET_KEY".toList).length) := List.mem_range.mpr hjlen
          fin_cases hjm <;>
            first
              | exact absurd hj0 (by decide)
              | rfl
              | exact quoted_none_unquoted prev rfl
                  (plain_not_ws vh (hval vh (List.mem_cons_self vh vt)))
                  ((plain_ne_quote vh (hval vh (List.mem_cons_self vh vt))).1))
    have f4 := reSub_quotedB_id rule3Alts sq ("SECRET_KEY".toList) (vh :: vt) pre post
      rule3Alts_shape hval hpre hpost (by decide)
      (by intro prev
          first
            | rfl
            | exact quoted_none_unquoted prev rfl
                (plain_not_ws vh (hval vh (List.mem_cons_self vh vt)))
                ((plain_ne_quote vh (hval vh (List.mem_cons_self vh vt))).2))
      (by intro j hj0 hjlen prev
          have hjm : j ∈ List.range (("SECRET_KEY".toList).length) := List.mem_range.mpr hjlen
          fin_cases hjm <;>
            first
              | exact absurd hj0 (by decide)
              | rfl
              | exact quoted_none_unquoted prev rfl
                  (plain_not_ws vh (hval vh (List.mem_cons_self vh vt)))
                  ((plain_ne_quote vh (hval vh (List.mem_cons_self vh vt))).2))
    have f5 := reSub_envB_fire ("SECRET_KEY".toList) (vh :: vt) pre post hval (by simp)
      hpre hpreLS hpost hpostNL rfl
    have hdig : ∀ ch ∈ pre ++ ("SECRET_KEY".toList ++ ('=' :: (REDACTED ++ post))),
        isPyDigit ch = false := by
      intro ch hch
      rcases memB_decomp hch with h | h | h | h | h
      · exact ctx_nodigit ch (hpre ch h)
      · exact keyChar_nodigit ch ((by decide : ∀ x ∈ "SECRET_KEY".toList, keyChar x = true) ch h)
      · subst h; decide
      · exact (by decide : ∀ x ∈ REDACTED, isPyDigit x = false) ch h
      · exact ctx_nodigit ch (hpost ch h)
    have hat : ∀ ch ∈ pre ++ ("SECRET_KEY".toList ++ ('=' :: (REDACTED ++ post))),
        ch ≠ '@' := by
      intro ch hch
      rcases memB_decomp hch with h | h | h | h | h
      · exact ctx_ne_at ch (hpre ch h)
      · exact keyChar_ne_at ch ((by decide : ∀ x ∈ "SECRET_KEY".toList, keyChar x = true) ch h)
      · subst h; decide
      · exact (by decide : ∀ x ∈ REDACTED, x ≠ '@') ch h
      · exact ctx_ne_at ch (hpost ch h)
    have f6 := reSub_ipv4_noop _ hdig
    have f7 := reSub_email_noop _ hat
    rw [f1, f2, f3, f4, f5, f6, f7]

  · have f1 := reSub_quotedB_id rule1Alts dq ("PASSWORD".toList) (vh :: vt) pre post
      rule1Alts_shape hval hpre hpost (by decide)
      (by intro prev
          first
            | rfl
            | exact quoted_none_unquoted prev rfl
                (plain_not_ws vh (hval vh (List.mem_cons_self vh vt)))
                ((plain_ne_quote vh (hval vh (List.mem_cons_self vh vt))).1))
      (by intro j hj0 hjlen prev
          have hjm : j ∈ List.range (("PASSWORD".toList).length) := List.mem_range.mpr hjlen
          fin_cases hjm <;>
            first
              | exact absurd hj0 (by decide)
              | rfl
              | exact quoted_none_unquoted prev rfl
                  (plain_not_ws vh (hval vh (List.mem_cons_self vh vt)))
                  ((plain_ne_quote vh (hval vh (List.mem_cons_self vh vt))).1))
    have f2 := reSub_quotedB_id rule1Alts sq ("PASSWORD".toList) (vh :: vt) pre post
      rule1Alts_shape hval hpre hpost (by decide)
      (by intro prev
          first
            | rfl
            | exact quoted_none_unquoted prev rfl
                (plain_not_ws vh (hval vh (List.mem_cons_self vh vt)))
                ((plain_ne_quote vh (hval vh (List.mem_cons_self vh vt))).2))
      (by intro j hj0 hjlen prev
          have hjm : j ∈ List.range (("PASSWORD".toList).length) := List.mem_range.mpr hjlen
          fin_cases hjm <;>
            first
              | exact absurd hj0 (by decide)
              | rfl
              | exact quoted_none_unquoted prev rfl
                  (plain_not_ws vh (hval vh (List.mem_cons_self vh vt)))
                  ((plain_ne_quote vh (hval vh (List.mem_cons_self vh vt))).2))
    have f3 := reSub_quotedB_id rule3Alts dq ("PASSWORD".toList) (vh :: vt) pre post
      rule3Alts_shape hval hpre hpost (by decide)
      (by intro prev
          first
            | rfl
            | exact quoted_none_unquoted prev rfl
                (plain_not_ws vh (hval vh (List.mem_cons_self vh vt)))
                ((plain_ne_quote vh (hval vh (List.mem_cons_self vh vt))).1))
      (by intro j hj0 hjlen prev
          have hjm : j ∈ List.range (("PASSWORD".toList).length) := List.mem_range.mpr hjlen
          fin_cases hjm <;>
            first
              | exact absurd hj0 (by decide)
              | rfl
              | exact quoted_none_unquoted prev rfl
                  (plain_not_ws vh (hval vh (List.mem_cons_self vh vt)))
                  ((plain_ne_quote vh (hval vh (List.mem_cons_self vh vt))).1))
    have f4 := reSub_quotedB_id rule3Alts sq ("PASSWORD".toList) (vh :: vt) pre post
      rule3Alts_shape hval hpre hpost (by decide)
      (by intro prev
          first
            | rfl
            | exact quoted_none_unquoted prev rfl
                (plain_not_ws vh (hval vh (List.mem_cons_self vh vt)))
                ((plain_ne_quote vh (hval vh (List.mem_cons_self vh vt))).2))
      (by intro j hj0 hjlen prev
          have hjm : j ∈ List.range (("PASSWORD".toList).length) := List.mem_range.mpr hjlen
          fin_cases hjm <;>
            first
              | exact absurd hj0 (by decide)
              | rfl
              | exact quoted_none_unquoted prev rfl
                  (plain_not_ws vh (hval vh (List.mem_cons_self vh vt)))
                  ((plain_ne_quote vh (hval vh (List.mem_cons_self vh vt))).2))
    have f5 := reSub_envB_fire ("PASSWORD".toList) (vh :: vt) pre post hval (by simp)
      hpre hpreLS hpost hpostNL rfl
    have hdig : ∀ ch ∈ pre ++ ("PASSWORD".toList ++ ('=' :: (REDACTED ++ post))),
        isPyDigit ch = false := by
      intro ch hch
      rcases memB_decomp hch with h | h | h | h | h
      · exact ctx_nodigit ch (hpre ch h)
      · exact keyChar_nodigit ch ((by decide : ∀ x ∈ "PASSWORD".toList, keyChar x = true) ch h)
      · subst h; decide
      · exact (by decide : ∀ x ∈ REDACTED, isPyDigit x = false) ch h
      · exact ctx_nodigit ch (hpost ch h)
    have hat : ∀ ch ∈ pre ++ ("PASSWORD".toList ++ ('=' :: (REDACTED ++ post))),
        ch ≠ '@' := by
      intro ch hch
      rcases memB_decomp hch with h | h | h | h | h
      · exact ctx_ne_at ch (hpre ch h)
      · exact keyChar_ne_at ch ((by decide : ∀ x ∈ "PASSWORD".toList, keyChar x = true) ch h)
      · subst h; decide
      · exact (by decide : ∀ x ∈ REDACTED, x ≠ '@') ch h
      · exact ctx_ne_at ch (hpost ch h)
    have f6 := reSub_ipv4_noop _ hdig
    have f7 := reSub_email_noop _ hat
    rw [f1, f2, f3, f4, f5, f6, f7]

  · have f1 := reSub_quotedB_id rule1Alts dq ("DB_PASSWORD".toList) (vh :: vt) pre post
      rule1Alts_shape hval hpre hpost (by decide)
      (by intro prev
          first
            | rfl
            | exact quoted_none_unquoted prev rfl
                (plain_not_ws vh (hval vh (List.mem_cons_self vh vt)))
                ((plain_ne_quote vh (hval vh (List.mem_cons_self vh vt))).1))
      (by intro j hj0 hjlen prev
          have hjm : j ∈ List.range (("DB_PASSWORD".toList).length) := List.mem_range.mpr hjlen
          fin_cases hjm <;>
            first
              | exact absurd hj0 (by decide)
              | rfl
              | exact quoted_none_unquoted prev rfl
                  (plain_not_ws vh (hval vh (List.mem_cons_self vh vt)))
                  ((plain_ne_quote vh (hval vh (List.mem_cons_self vh vt))).1))
    have f2 := reSub_quotedB_id rule1Alts sq ("DB_PASSWORD".toList) (vh :: vt) pre post
      rule1Alts_shape hval hpre hpost (by decide)
      (by intro prev
          first
            | rfl
            | exact quoted_none_unquoted prev rfl
                (plain_not_ws vh (hval vh (List.mem_cons_self vh vt)))
                ((plain_ne_quote vh (hval vh (List.mem_cons_self vh vt))).2))
      (by intro j hj0 hjlen prev
          have hjm : j ∈ List.range (("DB_PASSWORD".toList).length) := List.mem_range.mpr hjlen
          fin_cases hjm <;>
            first
              | exact absurd hj0 (by decide)
              | rfl
              | exact quoted_none_unquoted prev rfl
                  (plain_not_ws vh (hval vh (List.mem_cons_self vh vt)))
                  ((plain_ne_quote vh (hval vh (List.mem_cons_self vh vt))).2))
    have f3 := reSub_quotedB_id rule3Alts dq ("DB_PASSWORD".toList) (vh :: vt) pre post
      rule3Alts_shape hval hpre hpost (by decide)
      (by intro prev
          first
            | rfl
            | exact quoted_none_unquoted prev rfl
                (plain_not_ws vh (hval vh (List.mem_cons_self vh vt)))
                ((plain_ne_quote vh (hval vh (List.mem_cons_self vh vt))).1))
      (by intro j hj0 hjlen prev
          have hjm : j ∈ List.range (("DB_PASSWORD".toList).length) := List.mem_range.mpr hjlen
          fin_cases hjm <;>
            first
              | exact absurd hj0 (by decide)
              | rfl
              | exact quoted_none_unquoted prev rfl
                  (plain_not_ws vh (hval vh (List.mem_cons_self vh vt)))
                  ((plain_ne_quote vh (hval vh (List.mem_cons_self vh vt))).1))
    have f4 := reSub_quotedB_id rule3Alts sq ("DB_PASSWORD".toList) (vh :: vt) pre post
      rule3Alts_shape hval hpre hpost (by decide)
      (by intro prev
          first
            | rfl
            | exact quoted_none_unquoted prev rfl
                (plain_not_ws vh (hval vh (List.mem_cons_self vh vt)))
                ((plain_ne_quote vh (hval vh (List.mem_cons_self vh vt))).2))
      (by intro j hj0 hjlen prev
          have hjm : j ∈ List.range (("DB_PASSWORD".toList).length) := List.mem_range.mpr hjlen
          fin_cases hjm <;>
            first
              | exact absurd hj0 (by decide)
              | rfl
              | exact quoted_none_unquoted prev rfl
                  (plain_not_ws vh (hval vh (List.mem_cons_self vh vt)))
                  ((plain_ne_quote vh (hval vh (List.mem_cons_self vh vt))).2))
    have f5 := reSub_envB_fire ("DB_PASSWORD".toList) (vh :: vt) pre post hval (by simp)
      hpre hpreLS hpost hpostNL rfl
    have hdig : ∀ ch ∈ pre ++ ("DB_PASSWORD".toList ++ ('=' :: (REDACTED ++ post))),
        isPyDigit ch = false := by
      intro ch hch
      rcases memB_decomp hch with h | h | h | h | h
      · exact ctx_nodigit ch (hpre ch h)
      · exact keyChar_nodigit ch ((by decide : ∀ x ∈ "DB_PASSWORD".toList, keyChar x = true) ch h)
      · subst h; decide
      · exact (by decide : ∀ x ∈ REDACTED, isPyDigit x = false) ch h
      · exact ctx_nodigit ch (hpost ch h)
    have hat : ∀ ch ∈ pre ++ ("DB_PASSWORD".toList ++ ('=' :: (REDACTED ++ post))),
        ch ≠ '@' := by
      intro ch hch
      rcases memB_decomp hch with h | h | h | h | h
      · exact ctx_ne_at ch (hpre ch h)
      · exact keyChar_ne_at ch ((by decide : ∀ x ∈ "DB_PASSWORD".toList, keyChar x = true) ch h)
      · subst h; decide
      · exact (by decide : ∀ x ∈ REDACTED, x ≠ '@') ch h
      · exact ctx_ne_at ch (hpost ch h)
    have f6 := reSub_ipv4_noop _ hdig
    have f7 := reSub_email_noop _ hat
    rw [f1, f2, f3, f4, f5, f6, f7]

  · have f1 := reSub_quotedB_id rule1Alts dq ("AUTH_TOKEN".toList) (vh :: vt) pre post
      rule1Alts_shape hval hpre hpost (by decide)
      (by intro prev
          first
            | rfl
            | exact quoted_none_unquoted prev rfl
                (plain_not_ws vh (hval vh (List.mem_cons_self vh vt)))
                ((plain_ne_quote vh (hval vh (List.mem_cons_self vh vt))).1))
      (by intro j hj0 hjlen prev
          have hjm : j ∈ List.range (("AUTH_TOKEN".toList).length) := List.mem_range.mpr hjlen
          fin_cases hjm <;>
            first
              | exact absurd hj0 (by decide)
              | rfl
              | exact quoted_none_unquoted prev rfl
                  (plain_not_ws vh (hval vh (List.mem_cons_self vh vt)))
                  ((plain_ne_quote vh (hval vh (List.mem_cons_self vh vt))).1))
    have f2 := reSub_quotedB_id rule1Alts sq ("AUTH_TOKEN".toList) (vh :: vt) pre post
      rule1Alts_shape hval hpre hpost (by decide)
      (by intro prev
          first
            | rfl
            | exact quoted_none_unquoted prev rfl
                (plain_not_ws vh (hval vh (List.mem_cons_self vh vt)))
                ((plain_ne_quote vh (hval vh (List.mem_cons_self vh vt))).2))
      (by intro j hj0 hjlen prev
          have hjm : j ∈ List.range (("AUTH_TOKEN".toList).length) := List.mem_range.mpr hjlen
          fin_cases hjm <;>
            first
              | exact absurd hj0 (by decide)
              | rfl
              | exact quoted_none_unquoted prev rfl
                  (plain_not_ws vh (hval vh (List.mem_cons_self vh vt)))
                  ((plain_ne_quote vh (hval vh (List.mem_cons_self vh vt))).2))
    have f3 := reSub_quotedB_id rule3Alts dq ("AUTH_TOKEN".toList) (vh :: vt) pre post
      rule3Alts_shape hval hpre hpost (by decide)
      (by intro prev
          first
            | rfl
            | exact quoted_none_unquoted prev rfl
                (plain_not_ws vh (hval vh (List.mem_cons_self vh vt)))
                ((plain_ne_quote vh (hval vh (List.mem_cons_self vh vt))).1))
      (by intro j hj0 hjlen prev
          have hjm : j ∈ List.range (("AUTH_TOKEN".toList).length) := List.mem_range.mpr hjlen
          fin_cases hjm <;>
            first
              | exact absurd hj0 (by decide)
              | rfl
              | exact quoted_none_unquoted prev rfl
                  (plain_not_ws vh (hval vh (List.mem_cons_self vh vt)))
                  ((plain_ne_quote vh (hval vh (List.mem_cons_self vh vt))).1))
    have f4 := reSub_quotedB_id rule3Alts sq ("AUTH_TOKEN".toList) (vh :: vt) pre post
      rule3Alts_shape hval hpre hpost (by decide)
      (by intro prev
          first
            | rfl
            | exact quoted_none_unquoted prev rfl
                (plain_not_ws vh (hval vh (List.mem_cons_self vh vt)))
                ((plain_ne_quote vh (hval vh (List.mem_cons_self vh vt))).2))
      (by intro j hj0 hjlen prev
          have hjm : j ∈ List.range (("AUTH_TOKEN".toList).length) := List.mem_range.mpr hjlen
          fin_cases hjm <;>
            first
              | exact absurd hj0 (by decide)
              | rfl
              | exact quoted_none_unquoted prev rfl
                  (plain_not_ws vh (hval vh (List.mem_cons_self vh vt)))
                  ((plain_ne_quote vh (hval vh (List.mem_cons_self vh vt))).2))
    have f5 := reSub_envB_fire ("AUTH_TOKEN".toList) (vh :: vt) pre post hval (by simp)
      hpre hpreLS hpost hpostNL rfl
    have hdig : ∀ ch ∈ pre ++ ("AUTH_TOKEN".toList ++ ('=' :: (REDACTED ++ post))),
        isPyDigit ch = false := by
      intro ch hch
      rcases memB_decomp hch with h | h | h | h | h
      · exact ctx_nodigit ch (hpre ch h)
      · exact keyChar_nodigit ch ((by decide : ∀ x ∈ "AUTH_TOKEN".toList, keyChar x = true) ch h)
      · subst h; decide
      · exact (by decide : ∀ x ∈ REDACTED, isPyDigit x = false) ch h
      · exact ctx_nodigit ch (hpost ch h)
    have hat : ∀ ch ∈ pre ++ ("AUTH_TOKEN".toList ++ ('=' :: (REDACTED ++ post))),
        ch ≠ '@' := by
      intro ch hch
      rcases memB_decomp hch with h | h | h | h | h
      · exact ctx_ne_at ch (hpre ch h)
      · exact keyChar_ne_at ch ((by decide : ∀ x ∈ "AUTH_TOKEN".toList, keyChar x = true) ch h)
      · subst h; decide
      · exact (by decide : ∀ x ∈ REDACTED, x ≠ '@') ch h
      · exact ctx_ne_at ch (hpost ch h)
    have f6 := reSub_ipv4_noop _ hdig
    have f7 := reSub_email_noop _ hat
    rw [f1, f2, f3, f4, f5, f6, f7]

  · have f1 := reSub_quotedB_id rule1Alts dq ("ACCESS_TOKEN".toList) (vh :: vt) pre post
      rule1Alts_shape hval hpre hpost (by decide)
      (by intro prev
          first
            | rfl
            | exact quoted_none_unquoted prev rfl
                (plain_not_ws vh (hval vh (List.mem_cons_self vh vt)))
                ((plain_ne_quote vh (hval vh (List.mem_cons_self vh vt))).1))
      (by intro j hj0 hjlen prev
          have hjm : j ∈ List.range (("ACCESS_TOKEN".toList).length) := List.mem_range.mpr hjlen
          fin_cases hjm <;>
            first
              | exact absurd hj0 (by decide)
              | rfl
              | exact quoted_none_unquoted prev rfl
                  (plain_not_ws vh (hval vh (List.mem_cons_self vh vt)))
                  ((plain_ne_quote vh (hval vh (List.mem_cons_self vh vt))).1))
    have f2 := reSub_quotedB_id rule1Alts sq ("ACCESS_TOKEN".toList) (vh :: vt) pre post
      rule1Alts_shape hval hpre hpost (by decide)
      (by intro prev
          first
            | rfl
            | exact quoted_none_unquoted prev rfl
                (plain_not_ws vh (hval vh (List.mem_cons_self vh vt)))
                ((plain_ne_quote vh (hval vh (List.mem_cons_self vh vt))).2))
      (by intro j hj0 hjlen prev
          have hjm : j ∈ List.range (("ACCESS_TOKEN".toList).length) := List.mem_range.mpr hjlen
          fin_cases hjm <;>
            first
              | exact absurd hj0 (by decide)
              | rfl
              | exact quoted_none_unquoted prev rfl
                  (plain_not_ws vh (hval vh (List.mem_cons_self vh vt)))
                  ((plain_ne_quote vh (hval vh (List.mem_cons_self vh vt))).2))
    have f3 := reSub_quotedB_id rule3Alts dq ("ACCESS_TOKEN".toList) (vh :: vt) pre post
      rule3Alts_shape hval hpre hpost (by decide)
      (by intro prev
          first
            | rfl
            | exact quoted_none_unquoted prev rfl
                (plain_not_ws vh (hval vh (List.mem_cons_self vh vt)))
                ((plain_ne_quote vh (hval vh (List.mem_cons_self vh vt))).1))
      (by intro j hj0 hjlen prev
          have hjm : j ∈ List.range (("ACCESS_TOKEN".toList).length) := List.mem_range.mpr hjlen
          fin_cases hjm <;>
            first
              | exact absurd hj0 (by decide)
              | rfl
              | exact quoted_none_unquoted prev rfl
                  (plain_not_ws vh (hval vh (List.mem_cons_self vh vt)))
                  ((plain_ne_quote vh (hval vh (List.mem_cons_self vh vt))).1))
    have f4 := reSub_quotedB_id rule3Alts sq ("ACCESS_TOKEN".toList) (vh :: vt) pre post
      rule3Alts_shape hval hpre hpost (by decide)
      (by intro prev
          first
            | rfl
            | exact quoted_none_unquoted prev rfl
                (plain_not_ws vh (hval vh (List.mem_cons_self vh vt)))
                ((plain_ne_quote vh (hval vh (List.mem_cons_self vh vt))).2))
      (by intro j hj0 hjlen prev
          have hjm : j ∈ List.range (("ACCESS_TOKEN".toList).length) := List.mem_range.mpr hjlen
          fin_cases hjm <;>
            first
              | exact absurd hj0 (by decide)
              | rfl
              | exact quoted_none_unquoted prev rfl
                  (plain_not_ws vh (hval vh (List.mem_cons_self vh vt)))
                  ((plain_ne_quote vh (hval vh (List.mem_cons_self vh vt))).2))
    have f5 := reSub_envB_fire ("ACCESS_TOKEN".toList) (vh :: vt) pre post hval (by simp)
      hpre hpreLS hpost hpostNL rfl
    have hdig : ∀ ch ∈ pre ++ ("ACCESS_TOKEN".toList ++ ('=' :: (REDACTED ++ post))),
        isPyDigit ch = false := by
      intro ch hch
      rcases memB_decomp hch with h | h | h | h | h
      · exact ctx_nodigit ch (hpre ch h)
      · exact keyChar_nodigit ch ((by decide : ∀ x ∈ "ACCESS_TOKEN".toList, keyChar x = true) ch h)
      · subst h; decide
      · exact (by decide : ∀ x ∈ REDACTED, isPyDigit x = false) ch h
      · exact ctx_nodigit ch (hpost ch h)
    have hat : ∀ ch ∈ pre ++ ("ACCESS_TOKEN".toList ++ ('=' :: (REDACTED ++ post))),
        ch ≠ '@' := by
      intro ch hch
      rcases memB_decomp hch with h | h | h | h | h
      · exact ctx_ne_at ch (hpre ch h)
      · exact keyChar_ne_at ch ((by decide : ∀ x ∈ "ACCESS_TOKEN".toList, keyChar x = true) ch h)
      · subst h; decide
      · exact (by decide : ∀ x ∈ REDACTED, x ≠ '@') ch h
      · exact ctx_ne_at ch (hpost ch h)
    have f6 := reSub_ipv4_noop _ hdig
    have f7 := reSub_email_noop _ hat
    rw [f1, f2, f3, f4, f5, f6, f7]

  · have f1 := reSub_quotedB_id rule1Alts dq ("PRIVATE_KEY".toList) (vh :: vt) pre post
      rule1Alts_shape hval hpre hpost (by decide)
      (by intro prev
          first
            | rfl
            | exact quoted_none_unquoted prev rfl
                (plain_not_ws vh (hval vh (List.mem_cons_self vh vt)))
                ((plain_ne_quote vh (hval vh (List.mem_cons_self vh vt))).1))
      (by intro j hj0 hjlen prev
          have hjm : j ∈ List.range (("PRIVATE_KEY".toList).length) := List.mem_range.mpr hjlen
          fin_cases hjm <;>
            first
              | exact absurd hj0 (by decide)
              | rfl
              | exact quoted_none_unquoted prev rfl
                  (plain_not_ws vh (hval vh (List.mem_cons_self vh vt)))
                  ((plain_ne_quote vh (hval vh (List.mem_cons_self vh vt))).1))
    have f2 := reSub_quotedB_id rule1Alts sq ("PRIVATE_KEY".toList) (vh :: vt) pre post
      rule1Alts_shape hval hpre hpost (by decide)
      (by intro prev
          first
            | rfl
            | exact quoted_none_unquoted prev rfl
                (plain_not_ws vh (hval vh (List.mem_cons_self vh vt)))
                ((plain_ne_quote vh (hval vh (List.mem_cons_self vh vt))).2))
      (by intro j hj0 hjlen prev
          have hjm : j ∈ List.range (("PRIVATE_KEY".toList).length) := List.mem_range.mpr hjlen
          fin_cases hjm <;>
            first
              | exact absurd hj0 (by decide)
              | rfl
              | exact quoted_none_unquoted prev rfl
                  (plain_not_ws vh (hval vh (List.mem_cons_self vh vt)))
                  ((plain_ne_quote vh (hval vh (List.mem_cons_self vh vt))).2))
    have f3 := reSub_quotedB_id rule3Alts dq ("PRIVATE_KEY".toList) (vh :: vt) pre post
      rule3Alts_shape hval hpre hpost (by decide)
      (by intro prev
          first
            | rfl
            | exact quoted_none_unquoted prev rfl
                (plain_not_ws vh (hval vh (List.mem_cons_self vh vt)))
                ((plain_ne_quote vh (hval vh (List.mem_cons_self vh vt))).1))
      (by intro j hj0 hjlen prev
          have hjm : j ∈ List.range (("PRIVATE_KEY".toList).length) := List.mem_range.mpr hjlen
          fin_cases hjm <;>
            first
              | exact absurd hj0 (by decide)
              | rfl
              | exact quoted_none_unquoted prev rfl
                  (plain_not_ws vh (hval vh (List.mem_cons_self vh vt)))
                  ((plain_ne_quote vh (hval vh (List.mem_cons_self vh vt))).1))
    have f4 := reSub_quotedB_id rule3Alts sq ("PRIVATE_KEY".toList) (vh :: vt) pre post
      rule3Alts_shape hval hpre hpost (by decide)
      (by intro prev
          first
            | rfl
            | exact quoted_none_unquoted prev rfl
                (plain_not_ws vh (hval vh (List.mem_cons_self vh vt)))
                ((plain_ne_quote vh (hval vh (List.mem_cons_self vh vt))).2))
      (by intro j hj0 hjlen prev
          have hjm : j ∈ List.range (("PRIVATE_KEY".toList).length) := List.mem_range.mpr hjlen
          fin_cases hjm <;>
            first
              | exact absurd hj0 (by decide)
              | rfl
              | exact quoted_none_unquoted prev rfl
                  (plain_not_ws vh (hval vh (List.mem_cons_self vh vt)))
                  ((plain_ne_quote vh (hval vh (List.mem_cons_self vh vt))).2))
    have f5 := reSub_envB_fire ("PRIVATE_KEY".toList) (vh :: vt) pre post hval (by simp)
      hpre hpreLS hpost hpostNL rfl
    have hdig : ∀ ch ∈ pre ++ ("PRIVATE_KEY".toList ++ ('=' :: (REDACTED ++ post))),
        isPyDigit ch = false := by
      intro ch hch
      rcases memB_decomp hch with h | h | h | h | h
      · exact ctx_nodigit ch (hpre ch h)
      · exact keyChar_nodigit ch ((by decide : ∀ x ∈ "PRIVATE_KEY".toList, keyChar x = true) ch h)
      · subst h; decide
      · exact (by decide : ∀ x ∈ REDACTED, isPyDigit x = false) ch h
      · exact ctx_nodigit ch (hpost ch h)
    have hat : ∀ ch ∈ pre ++ ("PRIVATE_KEY".toList ++ ('=' :: (REDACTED ++ post))),
        ch ≠ '@' := by
      intro ch hch
      rcases memB_decomp hch with h | h | h | h | h
      · exact ctx_ne_at ch (hpre ch h)
      · exact keyChar_ne_at ch ((by decide : ∀ x ∈ "PRIVATE_KEY".toList, keyChar x = true) ch h)
      · subst h; decide
      · exact (by decide : ∀ x ∈ REDACTED, x ≠ '@') ch h
      · exact ctx_ne_at ch (hpost ch h)
    have f6 := reSub_ipv4_noop _ hdig
    have f7 := reSub_email_noop _ hat
    rw [f1, f2, f3, f4, f5, f6, f7]

  · have f1 := reSub_quotedB_id rule1Alts dq ("api_key".toList) (vh :: vt) pre post
      rule1Alts_shape hval hpre hpost (by decide)
      (by intro prev
          first
            | rfl
            | exact quoted_none_unquoted prev rfl
                (plain_not_ws vh (hval vh (List.mem_cons_self vh vt)))
                ((plain_ne_quote vh (hval vh (List.mem_cons_self vh vt))).1))
      (by intro j hj0 hjlen prev
          have hjm : j ∈ List.range (("api_key".toList).length) := List.mem_range.mpr hjlen
          fin_cases hjm <;>
            first
              | exact absurd hj0 (by decide)
              | rfl
              | exact quoted_none_unquoted prev rfl
                  (plain_not_ws vh (hval vh (List.mem_cons_self vh vt)))
                  ((plain_ne_quote vh (hval vh (List.mem_cons_self vh vt))).1))
    have f2 := reSub_quotedB_id rule1Alts sq ("api_key".toList) (vh :: vt) pre post
      rule1Alts_shape hval hpre hpost (by decide)
      (by intro prev
          first
            | rfl
            | exact quoted_none_unquoted prev rfl
                (plain_not_ws vh (hval vh (List.mem_cons_self vh vt)))
                ((plain_ne_quote vh (hval vh (List.mem_cons_self vh vt))).2))
      (by intro j hj0 hjlen prev
          have hjm : j ∈ List.range (("api_key".toList).length) := List.mem_range.mpr hjlen
          fin_cases hjm <;>
            first
              | exact absurd hj0 (by decide)
              | rfl
              | exact quoted_none_unquoted prev rfl
                  (plain_not_ws vh (hval vh (List.mem_cons_self vh vt)))
                  ((plain_ne_quote vh (hval vh (List.mem_cons_self vh vt))).2))
    have f3 := reSub_quotedB_id rule3Alts dq ("api_key".toList) (vh :: vt) pre post
      rule3Alts_shape hval hpre hpost (by decide)
      (by intro prev
          first
            | rfl
            | exact quoted_none_unquoted prev rfl
                (plain_not_ws vh (hval vh (List.mem_cons_self vh vt)))
                ((plain_ne_quote vh (hval vh (List.mem_cons_self vh vt))).1))
      (by intro j hj0 hjlen prev
          have hjm : j ∈ List.range (("api_key".toList).length) := List.mem_range.mpr hjlen
          fin_cases hjm <;>
            first
              | exact absurd hj0 (by decide)
              | rfl
              | exact quoted_none_unquoted prev rfl
                  (plain_not_ws vh (hval vh (List.mem_cons_self vh vt)))
                  ((plain_ne_quote vh (hval vh (List.mem_cons_self vh vt))).1))
    have f4 := reSub_quotedB_id rule3Alts sq ("api_key".toList) (vh :: vt) pre post
      rule3Alts_shape hval hpre hpost (by decide)
      (by intro prev
          first
            | rfl
            | exact quoted_none_unquoted prev rfl
                (plain_not_ws vh (hval vh (List.mem_cons_self vh vt)))
                ((plain_ne_quote vh (hval vh (List.mem_cons_self vh vt))).2))
      (by intro j hj0 hjlen prev
          have hjm : j ∈ List.range (("api_key".toList).length) := List.mem_range.mpr hjlen
          fin_cases hjm <;>
            first
              | exact absurd hj0 (by decide)
              | rfl
              | exact quoted_none_unquoted prev rfl
                  (plain_not_ws vh (hval vh (List.mem_cons_self vh vt)))
                  ((plain_ne_quote vh (hval vh (List.mem_cons_self vh vt))).2))
    have f5 := reSub_envB_fire ("api_key".toList) (vh :: vt) pre post hval (by simp)
      hpre hpreLS hpost hpostNL rfl
    have hdig : ∀ ch ∈ pre ++ ("api_key".toList ++ ('=' :: (REDACTED ++ post))),
        isPyDigit ch = false := by
      intro ch hch
      rcases memB_decomp hch with h | h | h | h | h
      · exact ctx_nodigit ch (hpre ch h)
      · exact keyChar_nodigit ch ((by decide : ∀ x ∈ "api_key".toList, keyChar x = true) ch h)
      · subst h; decide
      · exact (by decide : ∀ x ∈ REDACTED, isPyDigit x = false) ch h
      · exact ctx_nodigit ch (hpost ch h)
    have hat : ∀ ch ∈ pre ++ ("api_key".toList ++ ('=' :: (REDACTED ++ post))),
        ch ≠ '@' := by
      intro ch hch
      rcases memB_decomp hch with h | h | h | h | h
      · exact ctx_ne_at ch (hpre ch h)
      · exact keyChar_ne_at ch ((by decide : ∀ x ∈ "api_key".toList, keyChar x = true) ch h)
      · subst h; decide
      · exact (by decide : ∀ x ∈ REDACTED, x ≠ '@') ch h
      · exact ctx_ne_at ch (hpost ch h)
    have f6 := reSub_ipv4_noop _ hdig
    have f7 := reSub_email_noop _ hat
    rw [f1, f2, f3, f4, f5, f6, f7]

  · have f1 := reSub_quotedB_id rule1Alts dq ("secret_key".toList) (vh :: vt) pre post
      rule1Alts_shape hval hpre hpost (by decide)
      (by intro prev
          first
            | rfl
            | exact quoted_none_unquoted prev rfl
                (plain_not_ws vh (hval vh (List.mem_cons_self vh vt)))
                ((plain_ne_quote vh (hval vh (List.mem_cons_self vh vt))).1))
      (by intro j hj0 hjlen prev
          have hjm : j ∈ List.range (("secret_key".toList).length) := List.mem_range.mpr hjlen
          fin_cases hjm <;>
            first
              | exact absurd hj0 (by decide)
              | rfl
              | exact quoted_none_unquoted prev rfl
                  (plain_not_ws vh (hval vh (List.mem_cons_self vh vt)))
                  ((plain_ne_quote vh (hval vh (List.mem_cons_self vh vt))).1))
    have f2 := reSub_quotedB_id rule1Alts sq ("secret_key".toList) (vh :: vt) pre post
      rule1Alts_shape hval hpre hpost (by decide)
      (by intro prev
          first
            | rfl
            | exact quoted_none_unquoted prev rfl
                (plain_not_ws vh (hval vh (List.mem_cons_self vh vt)))
                ((plain_ne_quote vh (hval vh (List.mem_cons_self vh vt))).2))
      (by intro j hj0 hjlen prev
          have hjm : j ∈ List.range (("secret_key".toList).length) := List.mem_range.mpr hjlen
          fin_cases hjm <;>
            first
              | exact absurd hj0 (by decide)
              | rfl
              | exact quoted_none_unquoted prev rfl
                  (plain_not_ws vh (hval vh (List.mem_cons_self vh vt)))
                  ((plain_ne_quote vh (hval vh (List.mem_cons_self vh vt))).2))
    have f3 := reSub_quotedB_id rule3Alts dq ("secret_key".toList) (vh :: vt) pre post
      rule3Alts_shape hval hpre hpost (by decide)
      (by intro prev
          first
            | rfl
            | exact quoted_none_unquoted prev rfl
                (plain_not_ws vh (hval vh (List.mem_cons_self vh vt)))
                ((plain_ne_quote vh (hval vh (List.mem_cons_self vh vt))).1))
      (by intro j hj0 hjlen prev
          have hjm : j ∈ List.range (("secret_key".toList).length) := List.mem_range.mpr hjlen
          fin_cases hjm <;>
            first
              | exact absurd hj0 (by decide)
              | rfl
              | exact quoted_none_unquoted prev rfl
                  (plain_not_ws vh (hval vh (List.mem_cons_self vh vt)))
                  ((plain_ne_quote vh (hval vh (List.mem_cons_self vh vt))).1))
    have f4 := reSub_quotedB_id rule3Alts sq ("secret_key".toList) (vh :: vt) pre post
      rule3Alts_shape hval hpre hpost (by decide)
      (by intro prev
          first
            | rfl
            | exact quoted_none_unquoted prev rfl
                (plain_not_ws vh (hval vh (List.mem_cons_self vh vt)))
                ((plain_ne_quote vh (hval vh (List.mem_cons_self vh vt))).2))
      (by intro j hj0 hjlen prev
          have hjm : j ∈ List.range (("secret_key".toList).length) := List.mem_range.mpr hjlen
          fin_cases hjm <;>
            first
              | exact absurd hj0 (by decide)
              | rfl
              | exact quoted_none_unquoted prev rfl
                  (plain_not_ws vh (hval vh (List.mem_cons_self vh vt)))
                  ((plain_ne_quote vh (hval vh (List.mem_cons_self vh vt))).2))
    have f5 := reSub_envB_fire ("secret_key".toList) (vh :: vt) pre post hval (by simp)
      hpre hpreLS hpost hpostNL rfl
    have hdig : ∀ ch ∈ pre ++ ("secret_key".toList ++ ('=' :: (REDACTED ++ post))),
        isPyDigit ch = false := by
      intro ch hch
      rcases memB_decomp hch with h | h | h | h | h
      · exact ctx_nodigit ch (hpre ch h)
      · exact keyChar_nodigit ch ((by decide : ∀ x ∈ "secret_key".toList, keyChar x = true) ch h)
      · subst h; decide
      · exact (by decide : ∀ x ∈ REDACTED, isPyDigit x = false) ch h
      · exact ctx_nodigit ch (hpost ch h)
    have hat : ∀ ch ∈ pre ++ ("secret_key".toList ++ ('=' :: (REDACTED ++ post))),
        ch ≠ '@' := by
      intro ch hch
      rcases memB_decomp hch with h | h | h | h | h
      · exact ctx_ne_at ch (hpre ch h)
      · exact keyChar_ne_at ch ((by decide : ∀ x ∈ "secret_key".toList, keyChar x = true) ch h)
      · subst h; decide
      · exact (by decide : ∀ x ∈ REDACTED, x ≠ '@') ch h
      · exact ctx_ne_at ch (hpost ch h)
    have f6 := reSub_ipv4_noop _ hdig
    have f7 := reSub_email_noop _ hat
    rw [f1, f2, f3, f4, f5, f6, f7]

  · have f1 := reSub_quotedB_id rule1Alts dq ("password".toList) (vh :: vt) pre post
      rule1Alts_shape hval hpre hpost (by decide)
      (by intro prev
          first
            | rfl
            | exact quoted_none_unquoted prev rfl
                (plain_not_ws vh (hval vh (List.mem_cons_self vh vt)))
                ((plain_ne_quote vh (hval vh (List.mem_cons_self vh vt))).1))
      (by intro j hj0 hjlen prev
          have hjm : j ∈ List.range (("password".toList).length) := List.mem_range.mpr hjlen
          fin_cases hjm <;>
            first
              | exact absurd hj0 (by decide)
              | rfl
              | exact quoted_none_unquoted prev rfl
                  (plain_not_ws vh (hval vh (List.mem_cons_self vh vt)))
                  ((plain_ne_quote vh (hval vh (List.mem_cons_self vh vt))).1))
    have f2 := reSub_quotedB_id rule1Alts sq ("password".toList) (vh :: vt) pre post
      rule1Alts_shape hval hpre hpost (by decide)
      (by intro prev
          first
            | rfl
            | exact quoted_none_unquoted prev rfl
                (plain_not_ws vh (hval vh (List.mem_cons_self vh vt)))
                ((plain_ne_quote vh (hval vh (List.mem_cons_self vh vt))).2))
      (by intro j hj0 hjlen prev
          have hjm : j ∈ List.range (("password".toList).length) := List.mem_range.mpr hjlen
          fin_cases hjm <;>
            first
              | exact absurd hj0 (by decide)
              | rfl
              | exact quoted_none_unquoted prev rfl
                  (plain_not_ws vh (hval vh (List.mem_cons_self vh vt)))
                  ((plain_ne_quote vh (hval vh (List.mem_cons_self vh vt))).2))
    have f3 := reSub_quotedB_id rule3Alts dq ("password".toList) (vh :: vt) pre post
      rule3Alts_shape hval hpre hpost (by decide)
      (by intro prev
          first
            | rfl
            | exact quoted_none_unquoted prev rfl
                (plain_not_ws vh (hval vh (List.mem_cons_self vh vt)))
                ((plain_ne_quote vh (hval vh (List.mem_cons_self vh vt))).1))
      (by intro j hj0 hjlen prev
          have hjm : j ∈ List.range (("password".toList).length) := List.mem_range.mpr hjlen
          fin_cases hjm <;>
            first
              | exact absurd hj0 (by decide)
              | rfl
              | exact quoted_none_unquoted prev rfl
                  (plain_not_ws vh (hval vh (List.mem_cons_self vh vt)))
                  ((plain_ne_quote vh (hval vh (List.mem_cons_self vh vt))).1))
    have f4 := reSub_quotedB_id rule3Alts sq ("password".toList) (vh :: vt) pre post
      rule3Alts_shape hval hpre hpost (by decide)
      (by intro prev
          first
            | rfl
            | exact quoted_none_unquoted prev rfl
                (plain_not_ws vh (hval vh (List.mem_cons_self vh vt)))
                ((plain_ne_quote vh (hval vh (List.mem_cons_self vh vt))).2))
      (by intro j hj0 hjlen prev
          have hjm : j ∈ List.range (("password".toList).length) := List.mem_range.mpr hjlen
          fin_cases hjm <;>
            first
              | exact absurd hj0 (by decide)
              | rfl
              | exact quoted_none_unquoted prev rfl
                  (plain_not_ws vh (hval vh (List.mem_cons_self vh vt)))
                  ((plain_ne_quote vh (hval vh (List.mem_cons_self vh vt))).2))
    have f5 := reSub_envB_fire ("password".toList) (vh :: vt) pre post hval (by simp)
      hpre hpreLS hpost hpostNL rfl
    have hdig : ∀ ch ∈ pre ++ ("password".toList ++ ('=' :: (REDACTED ++ post))),
        isPyDigit ch = false := by
      intro ch hch
      rcases memB_decomp hch with h | h | h | h | h
      · exact ctx_nodigit ch (hpre ch h)
      · exact keyChar_nodigit ch ((by decide : ∀ x ∈ "password".toList, keyChar x = true) ch h)
      · subst h; decide
      · exact (by decide : ∀ x ∈ REDACTED, isPyDigit x = false) ch h
      · exact ctx_nodigit ch (hpost ch h)
    have hat : ∀ ch ∈ pre ++ ("password".toList ++ ('=' :: (REDACTED ++ post))),
        ch ≠ '@' := by
      intro ch hch
      rcases memB_decomp hch with h | h | h | h | h
      · exact ctx_ne_at ch (hpre ch h)
      · exact keyChar_ne_at ch ((by decide : ∀ x ∈ "password".toList, keyChar x = true) ch h)
      · subst h; decide
      · exact (by decide : ∀ x ∈ REDACTED, x ≠ '@') ch h
      · exact ctx_ne_at ch (hpost ch h)
    have f6 := reSub_ipv4_noop _ hdig
    have f7 := reSub_email_noop _ hat
    rw [f1, f2, f3, f4, f5, f6, f7]

  · have f1 := reSub_quotedB_id rule1Alts dq ("db_password".toList) (vh :: vt) pre post
      rule1Alts_shape hval hpre hpost (by decide)
      (by intro prev
          first
            | rfl
            | exact quoted_none_unquoted prev rfl
                (plain_not_ws vh (hval vh (List.mem_cons_self vh vt)))
                ((plain_ne_quote vh (hval vh (List.mem_cons_self vh vt))).1))
      (by intro j hj0 hjlen prev
          have hjm : j ∈ List.range (("db_password".toList).length) := List.mem_range.mpr hjlen
          fin_cases hjm <;>
            first
              | exact absurd hj0 (by decide)
              | rfl
              | exact quoted_none_unquoted prev rfl
                  (plain_not_ws vh (hval vh (List.mem_cons_self vh vt)))
                  ((plain_ne_quote vh (hval vh (List.mem_cons_self vh vt))).1))
    have f2 := reSub_quotedB_id rule1Alts sq ("db_password".toList) (vh :: vt) pre post
      rule1Alts_shape hval hpre hpost (by decide)
      (by intro prev
          first
            | rfl
            | exact quoted_none_unquoted prev rfl
                (plain_not_ws vh (hval vh (List.mem_cons_self vh vt)))
                ((plain_ne_quote vh (hval vh (List.mem_cons_self vh vt))).2))
      (by intro j hj0 hjlen prev
          have hjm : j ∈ List.range (("db_password".toList).length) := List.mem_range.mpr hjlen
          fin_cases hjm <;>
            first
              | exact absurd hj0 (by decide)
              | rfl
              | exact quoted_none_unquoted prev rfl
                  (plain_not_ws vh (hval vh (List.mem_cons_self vh vt)))
                  ((plain_ne_quote vh (hval vh (List.mem_cons_self vh vt))).2))
    have f3 := reSub_quotedB_id rule3Alts dq ("db_password".toList) (vh :: vt) pre post
      rule3Alts_shape hval hpre hpost (by decide)
      (by intro prev
          first
            | rfl
            | exact quoted_none_unquoted prev rfl
                (plain_not_ws vh (hval vh (List.mem_cons_self vh vt)))
                ((plain_ne_quote vh (hval vh (List.mem_cons_self vh vt))).1))
      (by intro j hj0 hjlen prev
          have hjm : j ∈ List.range (("db_password".toList).length) := List.mem_range.mpr hjlen
          fin_cases hjm <;>
            first
              | exact absurd hj0 (by decide)
              | rfl
              | exact quoted_none_unquoted prev rfl
                  (plain_not_ws vh (hval vh (List.mem_cons_self vh vt)))
                  ((plain_ne_quote vh (hval vh (List.mem_cons_self vh vt))).1))
    have f4 := reSub_quotedB_id rule3Alts sq ("db_password".toList) (vh :: vt) pre post
      rule3Alts_shape hval hpre hpost (by decide)
      (by intro prev
          first
            | rfl
            | exact quoted_none_unquoted prev rfl
                (plain_not_ws vh (hval vh (List.mem_cons_self vh vt)))
                ((plain_ne_quote vh (hval vh (List.mem_cons_self vh vt))).2))
      (by intro j hj0 hjlen prev
          have hjm : j ∈ List.range (("db_password".toList).length) := List.mem_range.mpr hjlen
          fin_cases hjm <;>
            first
              | exact absurd hj0 (by decide)
              | rfl
              | exact quoted_none_unquoted prev rfl
                  (plain_not_ws vh (hval vh (List.mem_cons_self vh vt)))
                  ((plain_ne_quote vh (hval vh (List.mem_cons_self vh vt))).2))
    have f5 := reSub_envB_fire ("db_password".toList) (vh :: vt) pre post hval (by simp)
      hpre hpreLS hpost hpostNL rfl
    have hdig : ∀ ch ∈ pre ++ ("db_password".toList ++ ('=' :: (REDACTED ++ post))),
        isPyDigit ch = false := by
      intro ch hch
      rcases memB_decomp hch with h | h | h | h | h
      · exact ctx_nodigit ch (hpre ch h)
      · exact keyChar_nodigit ch ((by decide : ∀ x ∈ "db_password".toList, keyChar x = true) ch h)
      · subst h; decide
      · exact (by decide : ∀ x ∈ REDACTED, isPyDigit x = false) ch h
      · exact ctx_nodigit ch (hpost ch h)
    have hat : ∀ ch ∈ pre ++ ("db_password".toList ++ ('=' :: (REDACTED ++ post))),
        ch ≠ '@' := by
      intro ch hch
      rcases memB_decomp hch with h | h | h | h | h
      · exact ctx_ne_at ch (hpre ch h)
      · exact keyChar_ne_at ch ((by decide : ∀ x ∈ "db_password".toList, keyChar x = true) ch h)
      · subst h; decide
      · exact (by decide : ∀ x ∈ REDACTED, x ≠ '@') ch h
      · exact ctx_ne_at ch (hpost ch h)
    have f6 := reSub_ipv4_noop _ hdig
    have f7 := reSub_email_noop _ hat
    rw [f1, f2, f3, f4, f5, f6, f7]

  · have f1 := reSub_quotedB_id rule1Alts dq ("auth_token".toList) (vh :: vt) pre post
      rule1Alts_shape hval hpre hpost (by decide)
      (by intro prev
          first
            | rfl
            | exact quoted_none_unquoted prev rfl
                (plain_not_ws vh (hval vh (List.mem_cons_self vh vt)))
                ((plain_ne_quote vh (hval vh (List.mem_cons_self vh vt))).1))
      (by intro j hj0 hjlen prev
          have hjm : j ∈ List.range (("auth_token".toList).length) := List.mem_range.mpr hjlen
          fin_cases hjm <;>
            first
              | exact absurd hj0 (by decide)
              | rfl
              | exact quoted_none_unquoted prev rfl
                  (plain_not_ws vh (hval vh (List.mem_cons_self vh vt)))
                  ((plain_ne_quote vh (hval vh (List.mem_cons_self vh vt))).1))
    have f2 := reSub_quotedB_id rule1Alts sq ("auth_token".toList) (vh :: vt) pre post
      rule1Alts_shape hval hpre hpost (by decide)
      (by intro prev
          first
            | rfl
            | exact quoted_none_unquoted prev rfl
                (plain_not_ws vh (hval vh (List.mem_cons_self vh vt)))
                ((plain_ne_quote vh (hval vh (List.mem_cons_self vh vt))).2))
      (by intro j hj0 hjlen prev
          have hjm : j ∈ List.range (("auth_token".toList).length) := List.mem_range.mpr hjlen
          fin_cases hjm <;>
            first
              | exact absurd hj0 (by decide)
              | rfl
              | exact quoted_none_unquoted prev rfl
                  (plain_not_ws vh (hval vh (List.mem_cons_self vh vt)))
                  ((plain_ne_quote vh (hval vh (List.mem_cons_self vh vt))).2))
    have f3 := reSub_quotedB_id rule3Alts dq ("auth_token".toList) (vh :: vt) pre post
      rule3Alts_shape hval hpre hpost (by decide)
      (by intro prev
          first
            | rfl
            | exact quoted_none_unquoted prev rfl
                (plain_not_ws vh (hval vh (List.mem_cons_self vh vt)))
                ((plain_ne_quote vh (hval vh (List.mem_cons_self vh vt))).1))
      (by intro j hj0 hjlen prev
          have hjm : j ∈ List.range (("auth_token".toList).length) := List.mem_range.mpr hjlen
          fin_cases hjm <;>
            first
              | exact absurd hj0 (by decide)
              | rfl
              | exact quoted_none_unquoted prev rfl
                  (plain_not_ws vh (hval vh (List.mem_cons_self vh vt)))
                  ((plain_ne_quote vh (hval vh (List.mem_cons_self vh vt))).1))
    have f4 := reSub_quotedB_id rule3Alts sq ("auth_token".toList) (vh :: vt) pre post
      rule3Alts_shape hval hpre hpost (by decide)
      (by intro prev
          first
            | rfl
            | exact quoted_none_unquoted prev rfl
                (plain_not_ws vh (hval vh (List.mem_cons_self vh vt)))
                ((plain_ne_quote vh (hval vh (List.mem_cons_self vh vt))).2))
      (by intro j hj0 hjlen prev
          have hjm : j ∈ List.range (("auth_token".toList).length) := List.mem_range.mpr hjlen
          fin_cases hjm <;>
            first
              | exact absurd hj0 (by decide)
              | rfl
              | exact quoted_none_unquoted prev rfl
                  (plain_not_ws vh (hval vh (List.mem_cons_self vh vt)))
                  ((plain_ne_quote vh (hval vh (List.mem_cons_self vh vt))).2))
    have f5 := reSub_envB_fire ("auth_token".toList) (vh :: vt) pre post hval (by simp)
      hpre hpreLS hpost hpostNL rfl
    have hdig : ∀ ch ∈ pre ++ ("auth_token".toList ++ ('=' :: (REDACTED ++ post))),
        isPyDigit ch = false := by
      intro ch hch
      rcases memB_decomp hch with h | h | h | h | h
      · exact ctx_nodigit ch (hpre ch h)
      · exact keyChar_nodigit ch ((by decide : ∀ x ∈ "auth_token".toList, keyChar x = true) ch h)
      · subst h; decide
      · exact (by decide : ∀ x ∈ REDACTED, isPyDigit x = false) ch h
      · exact ctx_nodigit ch (hpost ch h)
    have hat : ∀ ch ∈ pre ++ ("auth_token".toList ++ ('=' :: (REDACTED ++ post))),
        ch ≠ '@' := by
      intro ch hch
      rcases memB_decomp hch with h | h | h | h | h
      · exact ctx_ne_at ch (hpre ch h)
      · exact keyChar_ne_at ch ((by decide : ∀ x ∈ "auth_token".toList, keyChar x = true) ch h)
      · subst h; decide
      · exact (by decide : ∀ x ∈ REDACTED, x ≠ '@') ch h
      · exact ctx_ne_at ch (hpost ch h)
    have f6 := reSub_ipv4_noop _ hdig
    have f7 := reSub_email_noop _ hat
    rw [f1, f2, f3, f4, f5, f6, f7]

  · have f1 := reSub_quotedB_id rule1Alts dq ("access_token".toList) (vh :: vt) pre post
      rule1Alts_shape hval hpre hpost (by decide)
      (by intro prev
          first
            | rfl
            | exact quoted_none_unquoted prev rfl
                (plain_not_ws vh (hval vh (List.mem_cons_self vh vt)))
                ((plain_ne_quote vh (hval vh (List.mem_cons_self vh vt))).1))
      (by intro j hj0 hjlen prev
          have hjm : j ∈ List.range (("access_token".toList).length) := List.mem_range.mpr hjlen
          fin_cases hjm <;>
            first
              | exact absurd hj0 (by decide)
              | rfl
              | exact quoted_none_unquoted prev rfl
                  (plain_not_ws vh (hval vh (List.mem_cons_self vh vt)))
                  ((plain_ne_quote vh (hval vh (List.mem_cons_self vh vt))).1))
    have f2 := reSub_quotedB_id rule1Alts sq ("access_token".toList) (vh :: vt) pre post
      rule1Alts_shape hval hpre hpost (by decide)
      (by intro prev
          first
            | rfl
            | exact quoted_none_unquoted prev rfl
                (plain_not_ws vh (hval vh (List.mem_cons_self vh vt)))
                ((plain_ne_quote vh (hval vh (List.mem_cons_self vh vt))).2))
      (by intro j hj0 hjlen prev
          have hjm : j ∈ List.range (("access_token".toList).length) := List.mem_range.mpr hjlen
          fin_cases hjm <;>
            first
              | exact absurd hj0 (by decide)
              | rfl
              | exact quoted_none_unquoted prev rfl
                  (plain_not_ws vh (hval vh (List.mem_cons_self vh vt)))
                  ((plain_ne_quote vh (hval vh (List.mem_cons_self vh vt))).2))
    have f3 := reSub_quotedB_id rule3Alts dq ("access_token".toList) (vh :: vt) pre post
      rule3Alts_shape hval hpre hpost (by decide)
      (by intro prev
          first
            | rfl
            | exact quoted_none_unquoted prev rfl
                (plain_not_ws vh (hval vh (List.mem_cons_self vh vt)))
                ((plain_ne_quote vh (hval vh (List.mem_cons_self vh vt))).1))
      (by intro j hj0 hjlen prev
          have hjm : j ∈ List.range (("access_token".toList).length) := List.mem_range.mpr hjlen
          fin_cases hjm <;>
            first
              | exact absurd hj0 (by decide)
              | rfl
              | exact quoted_none_unquoted prev rfl
                  (plain_not_ws vh (hval vh (List.mem_cons_self vh vt)))
                  ((plain_ne_quote vh (hval vh (List.mem_cons_self vh vt))).1))
    have f4 := reSub_quotedB_id rule3Alts sq ("access_token".toList) (vh :: vt) pre post
      rule3Alts_shape hval hpre hpost (by decide)
      (by intro prev
          first
            | rfl
            | exact quoted_none_unquoted prev rfl
                (plain_not_ws vh (hval vh (List.mem_cons_self vh vt)))
                ((plain_ne_quote vh (hval vh (List.mem_cons_self vh vt))).2))
      (by intro j hj0 hjlen prev
          have hjm : j ∈ List.range (("access_token".toList).length) := List.mem_range.mpr hjlen
          fin_cases hjm <;>
            first
              | exact absurd hj0 (by decide)
              | rfl
              | exact quoted_none_unquoted prev rfl
                  (plain_not_ws vh (hval vh (List.mem_cons_self vh vt)))
                  ((plain_ne_quote vh (hval vh (List.mem_cons_self vh vt))).2))
    have f5 := reSub_envB_fire ("access_token".toList) (vh :: vt) pre post hval (by simp)
      hpre hpreLS hpost hpostNL rfl
    have hdig : ∀ ch ∈ pre ++ ("access_token".toList ++ ('=' :: (REDACTED ++ post))),
        isPyDigit ch = false := by
      intro ch hch
      rcases memB_decomp hch with h | h | h | h | h
      · exact ctx_nodigit ch (hpre ch h)
      · exact keyChar_nodigit ch ((by decide : ∀ x ∈ "access_token".toList, keyChar x = true) ch h)
      · subst h; decide
      · exact (by decide : ∀ x ∈ REDACTED, isPyDigit x = false) ch h
      · exact ctx_nodigit ch (hpost ch h)
    have hat : ∀ ch ∈ pre ++ ("access_token".toList ++ ('=' :: (REDACTED ++ post))),
        ch ≠ '@' := by
      intro ch hch
      rcases memB_decomp hch with h | h | h | h | h
      · exact ctx_ne_at ch (hpre ch h)
      · exact keyChar_ne_at ch ((by decide : ∀ x ∈ "access_token".toList, keyChar x = true) ch h)
      · subst h; decide
      · exact (by decide : ∀ x ∈ REDACTED, x ≠ '@') ch h
      · exact ctx_ne_at ch (hpost ch h)
    have f6 := reSub_ipv4_noop _ hdig
    have f7 := reSub_email_noop _ hat
    rw [f1, f2, f3, f4, f5, f6, f7]

  · have f1 := reSub_quotedB_id rule1Alts dq ("private_key".toList) (vh :: vt) pre post
      rule1Alts_shape hval hpre hpost (by decide)
      (by intro prev
          first
            | rfl
            | exact quoted_none_unquoted prev rfl
                (plain_not_ws vh (hval vh (List.mem_cons_self vh vt)))
                ((plain_ne_quote vh (hval vh (List.mem_cons_self vh vt))).1))
      (by intro j hj0 hjlen prev
          have hjm : j ∈ List.range (("private_key".toList).length) := List.mem_range.mpr hjlen
          fin_cases hjm <;>
            first
              | exact absurd hj0 (by decide)
              | rfl
              | exact quoted_none_unquoted prev rfl
                  (plain_not_ws vh (hval vh (List.mem_cons_self vh vt)))
                  ((plain_ne_quote vh (hval vh (List.mem_cons_self vh vt))).1))
    have f2 := reSub_quotedB_id rule1Alts sq ("private_key".toList) (vh :: vt) pre post
      rule1Alts_shape hval hpre hpost (by decide)
      (by intro prev
          first
            | rfl
            | exact quoted_none_unquoted prev rfl
                (plain_not_ws vh (hval vh (List.mem_cons_self vh vt)))
                ((plain_ne_quote vh (hval vh (List.mem_cons_self vh vt))).2))
      (by intro j hj0 hjlen prev
          have hjm : j ∈ List.range (("private_key".toList).length) := List.mem_range.mpr hjlen
          fin_cases hjm <;>
            first
              | exact absurd hj0 (by decide)
              | rfl
              | exact quoted_none_unquoted prev rfl
                  (plain_not_ws vh (hval vh (List.mem_cons_self vh vt)))
                  ((plain_ne_quote vh (hval vh (List.mem_cons_self vh vt))).2))
    have f3 := reSub_quotedB_id rule3Alts dq ("private_key".toList) (vh :: vt) pre post
      rule3Alts_shape hval hpre hpost (by decide)
      (by intro prev
          first
            | rfl
            | exact quoted_none_unquoted prev rfl
                (plain_not_ws vh (hval vh (List.mem_cons_self vh vt)))
                ((plain_ne_quote vh (hval vh (List.mem_cons_self vh vt))).1))
      (by intro j hj0 hjlen prev
          have hjm : j ∈ List.range (("private_key".toList).length) := List.mem_range.mpr hjlen
          fin_cases hjm <;>
            first
              | exact absurd hj0 (by decide)
              | rfl
              | exact quoted_none_unquoted prev rfl
                  (plain_not_ws vh (hval vh (List.mem_cons_self vh vt)))
                  ((plain_ne_quote vh (hval vh (List.mem_cons_self vh vt))).1))
    have f4 := reSub_quotedB_id rule3Alts sq ("private_key".toList) (vh :: vt) pre post
      rule3Alts_shape hval hpre hpost (by decide)
      (by intro prev
          first
            | rfl
            | exact quoted_none_unquoted prev rfl
                (plain_not_ws vh (hval vh (List.mem_cons_self vh vt)))
                ((plain_ne_quote vh (hval vh (List.mem_cons_self vh vt))).2))
      (by intro j hj0 hjlen prev
          have hjm : j ∈ List.range (("private_key".toList).length) := List.mem_range.mpr hjlen
          fin_cases hjm <;>
            first
              | exact absurd hj0 (by decide)
              | rfl
              | exact quoted_none_unquoted prev rfl
                  (plain_not_ws vh (hval vh (List.mem_cons_self vh vt)))
                  ((plain_ne_quote vh (hval vh (List.mem_cons_self vh vt))).2))
    have f5 := reSub_envB_fire ("private_key".toList) (vh :: vt) pre post hval (by simp)
      hpre hpreLS hpost hpostNL rfl
    have hdig : ∀ ch ∈ pre ++ ("private_key".toList ++ ('=' :: (REDACTED ++ post))),
        isPyDigit ch = false := by
      intro ch hch
      rcases memB_decomp hch with h | h | h | h | h
      · exact ctx_nodigit ch (hpre ch h)
      · exact keyChar_nodigit ch ((by decide : ∀ x ∈ "private_key".toList, keyChar x = true) ch h)
      · subst h; decide
      · exact (by decide : ∀ x ∈ REDACTED, isPyDigit x = false) ch h
      · exact ctx_nodigit ch (hpost ch h)
    have hat : ∀ ch ∈ pre ++ ("private_key".toList ++ ('=' :: (REDACTED ++ post))),
        ch ≠ '@' := by
      intro ch hch
      rcases memB_decomp hch with h | h | h | h | h
      · exact ctx_ne_at ch (hpre ch h)
      · exact keyChar_ne_at ch ((by decide : ∀ x ∈ "private_key".toList, keyChar x = true) ch h)
      · subst h; decide
      · exact (by decide : ∀ x ∈ REDACTED, x ≠ '@') ch h
      · exact ctx_ne_at ch (hpost ch h)
    have f6 := reSub_ipv4_noop _ hdig
    have f7 := reSub_email_noop _ hat
    rw [f1, f2, f3, f4, f5, f6, f7]


/--
**C1 (amended).**  Per-match redaction, for every recognized
secret-assignment pattern.  (1) Quoted assignments: for each of the
eleven key alternatives of rules 1–4, each separator `:`/`=`, each quote
style, every value over the modelled value alphabet and every embedding
in surrounding text that does not put the key at the start of a line,
`sanitize_code` rewrites the assignment to `key<sep><q>***REDACTED***<q>`,
preserving the key, separator and quotes, and leaves the context intact.
(2) Env-style lines: for each of the seven env keys (upper or lower
case) at the start of the text or of a line, `KEY=value` becomes
`KEY=***REDACTED***`.  (The original claim — that the literal secret
value is absent from the whole output — fails when the value also occurs
outside the matched assignments; see the counterexample.)
-/
theorem sanitize_code_per_match_redaction :
    (∀ (key val pre post : List Char) (c q : Char),
      key ∈ quotedKeyForms → (q = dq ∨ q = sq) → (c = ':' ∨ c = '=') →
      (∀ ch ∈ val, plainValChar ch = true) →
      (∀ ch ∈ pre, ctxChar ch = true) → pre ≠ [] →
      pre.getLast? ≠ some '\n' →
      (∀ ch ∈ post, ctxChar ch = true) →
      sanitize_code (pre ++ (key ++ (c :: q :: (val ++ q :: post))))
        = pre ++ (key ++ (c :: q :: (REDACTED ++ q :: post)))) ∧
    (∀ (key val pre post : List Char),
      key ∈ envKeyForms → val ≠ [] →
      (∀ ch ∈ val, plainValChar ch = true) →
      (∀ ch ∈ pre, ctxChar ch = true) →
      (pre = [] ∨ pre.getLast? = some '\n') →
      (∀ ch ∈ post, ctxChar ch = true) →
      (post = [] ∨ ∃ p2, post = '\n' :: p2) →
      sanitize_code (pre ++ (key ++ ('=' :: (val ++ post))))
        = pre ++ (key ++ ('=' :: (REDACTED ++ post)))) :=
  ⟨fun key val pre post c q h1 h2 h3 h4 h5 h6 h7 h8 =>
     sanitize_quoted_embedded key val pre post c q h1 h2 h3 h4 h5 h6 h7 h8,
   fun key val pre post h1 h2 h3 h4 h5 h6 h7 =>
     sanitize_env_line key val pre post h1 h2 h3 h4 h5 h6 h7⟩

/-- Witness for the amended C1 theorem: the quoted part at
`; token:"hunter" ;` and the env part at `API_KEY=abc123`. -/
theorem sanitize_code_per_match_redaction_witness :
    sanitize_code ("; ".toList ++ ("token".toList
        ++ (':' :: dq :: ("hunter".toList ++ dq :: " ;".toList))))
      = "; ".toList ++ ("token".toList
        ++ (':' :: dq :: (REDACTED ++ dq :: " ;".toList))) ∧
    sanitize_code (([] : List Char) ++ ("API_KEY".toList
        ++ ('=' :: ("abc123".toList ++ ([] : List Char)))))
      = ([] : List Char) ++ ("API_KEY".toList ++ ('=' :: (REDACTED ++ ([] : List Char)))) :=
  ⟨sanitize_code_per_match_redaction.1 "token".toList "hunter".toList "; ".toList
     " ;".toList ':' dq (by decide) (Or.inl rfl) (Or.inl rfl) (by decide) (by decide)
     (by decide) (by decide) (by decide),
   sanitize_code_per_match_redaction.2 "API_KEY".toList "abc123".toList [] []
     (by decide) (by decide) (by decide) (by decide) (Or.inl rfl) (by decide) (Or.inl rfl)⟩


/--
**C1 (counterexample).**  On the input `token="x"` ++ `\n` ++ `x` — which
contains a recognized secret-assignment pattern with secret value `x` —
the sanitizer output still contains the literal secret value `x` (it also
occurs outside the matched assignment), refuting the claim that the
literal secret value is absent from the output for every such input.  The
redaction token is nevertheless present and the assignment itself is
rewritten.
-/
theorem sanitize_code_value_can_survive :
    sanitize_code ("token=\"x\"\nx".toList) = "token=\"***REDACTED***\"\nx".toList ∧
    containsSub "x".toList (sanitize_code ("token=\"x\"\nx".toList)) = true ∧
    containsSub "***REDACTED***".toList (sanitize_code ("token=\"x\"\nx".toList)) = true := by
  refine ⟨by decide, by decide, by decide⟩

/--
**C8 (amended).**  Sanitization gating is decided purely by the
lower-cased file path: the content is passed through `sanitize_code`
exactly when the path ends with one of the config extensions, or ends
with one of the code extensions, or — beyond the original claim —
**contains** the substring `/.env` anywhere (the source tests substring
containment, not only env dotfiles); every other path passes through
unmodified.
-/
theorem sanitize_file_content_gating (file_path content : List Char) :
    sanitize_file_content file_path content =
      if (config_extensions.any (fun ext => endsWithL ext (lowerL file_path))
          || containsSub "/.env".toList (lowerL file_path)
          || code_extensions.any (fun ext => endsWithL ext (lowerL file_path))) = true
      then sanitize_code content else content := by
  cases h1 : config_extensions.any (fun ext => endsWithL ext (lowerL file_path)) with
  | true => simp [sanitize_file_content, h1]
  | false =>
    have h3 : endsWithL ".env".toList (lowerL file_path) = false := by
      cases hb : endsWithL ".env".toList (lowerL file_path) with
      | false => rfl
      | true =>
        have hh : config_extensions.any (fun ext => endsWithL ext (lowerL file_path)) = true :=
          List.any_eq_true.mpr ⟨".env".toList, by simp [config_extensions], hb⟩
        rw [h1] at hh
        exact absurd hh (by simp)
    cases h4 : containsSub "/.env".toList (lowerL file_path) with
    | true =>
      simp at h3 h4
      simp [sanitize_file_content, h1, h3, h4]
    | false =>
      cases h5 : code_extensions.any (fun ext => endsWithL ext (lowerL file_path)) with
      | true =>
        simp at h3 h4
        simp [sanitize_file_content, h1, h3, h4, h5]
      | false =>
        simp at h3 h4
        simp [sanitize_file_content, h1, h3, h4, h5]

/-- Witness for the amended C8 theorem: a `.py` file is sanitized and a
`.txt` file passes through unchanged. -/
theorem sanitize_file_content_gating_witness :
    sanitize_file_content "a/b.py".toList "token=\"x\"".toList
        = sanitize_code "token=\"x\"".toList ∧
    sanitize_file_content "a/b.md".toList "token=\"x\"".toList = "token=\"x\"".toList := by
  constructor
  · rw [sanitize_file_content_gating "a/b.py".toList "token=\"x\"".toList]
    decide
  · rw [sanitize_file_content_gating "a/b.md".toList "token=\"x\"".toList]
    decide

/--
**C8 (counterexample).**  The path `a/.envy/b.txt` ends with none of the
config or code extensions and is not an env dotfile (its final component
is `b.txt`), so by the claim its content should pass through unmodified;
but the source also sanitizes any path merely containing `/.env` as a
substring, and the content is changed.
-/
theorem sanitize_file_content_env_substring :
    sanitize_file_content "a/.envy/b.txt".toList "token=\"x\"".toList
        = "token=\"***REDACTED***\"".toList ∧
    config_extensions.any (fun ext => endsWithL ext (lowerL "a/.envy/b.txt".toList)) = false ∧
    code_extensions.any (fun ext => endsWithL ext (lowerL "a/.envy/b.txt".toList)) = false ∧
    endsWithL "/.env".toList (lowerL "a/.envy/b.txt".toList) = false := by
  refine ⟨by decide, by decide, by decide, by decide⟩

end Sanitizer

namespace Chunker

/--
**C3.**  For every file whose raw size exceeds the 500 KB ceiling, the
scanning stage records `is_large = true`, skips deep extraction entirely —
no classes, functions, imports or any other structural field is collected —
and stores only the size note (with `line_count` left at 0, as the file is
never read).
-/
theorem scan_file_entry_large (relative_path : List Char) (file_size : Nat)
    (content : List Char) (h : file_size > MAX_FILE_SIZE_BYTES) :
    scan_file_entry relative_path file_size content =
      { file_path := relative_path
        file_name := pathName relative_path
        extension := Sanitizer.lowerL (pathSuffix (pathName relative_path))
        line_count := 0
        is_large := true
        note := some ("文件过大（".toList ++ (Nat.repr (file_size / 1024)).toList
          ++ "KB），仅记录元信息".toList) } ∧
    (scan_file_entry relative_path file_size content).classes = none ∧
    (scan_file_entry relative_path file_size content).functions = none ∧
    (scan_file_entry relative_path file_size content).imports = none := by
  unfold scan_file_entry
  rw [if_pos h]
  exact ⟨rfl, rfl, rfl, rfl⟩

/-- Witness for C3 at a 512001-byte file. -/
theorem scan_file_entry_large_witness :
    512001 > MAX_FILE_SIZE_BYTES ∧
    (scan_file_entry "big.py".toList 512001 "class A: pass".toList).is_large = true ∧
    (scan_file_entry "big.py".toList 512001 "class A: pass".toList).classes = none := by
  refine ⟨by decide, ?_, ?_⟩
  · rw [(scan_file_entry_large "big.py".toList 512001 "class A: pass".toList (by decide)).1]
  · exact (scan_file_entry_large "big.py".toList 512001 "class A: pass".toList (by decide)).2.1

end Chunker

namespace LLM

/--
**C5 (amended).**  `validate_and_parse_json` applies the ordered recovery
strategies — direct parse of the trimmed text; fence-stripped parse when
the text starts with a code-fence marker; the substring from the first
`{` to the last `}`; then the substring from the first `[` to the last
`]` parsed and wrapped as an object under the key `items` — returning the
first success, and when all fail it raises a typed `LLMError` carrying
the first 200 characters of the **trimmed** text as a preview, never
silently returning an empty result.
-/
theorem validate_and_parse_json_ordered_strategies (raw_text : List Char) :
    validate_and_parse_json raw_text = validate_and_parse_json_spec raw_text := by
  unfold validate_and_parse_json validate_and_parse_json_spec
  cases h1 : json_loads (Chunker.stripL raw_text) with
  | some v => simp [h1, List.findSome?]
  | none =>
    cases h2 : fenceStrategy (Chunker.stripL raw_text) with
    | some v => simp [h1, h2, List.findSome?]
    | none =>
      cases h3 : braceStrategy (Chunker.stripL raw_text) with
      | some v => simp [h1, h2, h3, List.findSome?]
      | none =>
        cases h4 : bracketStrategy (Chunker.stripL raw_text) with
        | some v => simp [h1, h2, h3, h4, List.findSome?]
        | none => simp [h1, h2, h3, h4, List.findSome?]

/--
**C5 (counterexample).**  On the unparseable input `" ?"` (one leading
space), all strategies fail and the raised error's preview is the first
200 characters of the **trimmed** text (`"?"`), not of the original text
(`" ?"`), refuting the claim that the error carries the first 200
characters of the text.
-/
theorem validate_and_parse_json_preview_is_trimmed :
    validate_and_parse_json " ?".toList
        = Except.error (LLMError.llmError (errPrefix ++ "?".toList)) ∧
    ("?".toList : List Char) ≠ (" ?".toList : List Char).take 200 := by
  exact ⟨rfl, by decide⟩

end LLM

namespace Service

/--
**C7.**  Every upload whose byte length exceeds the configured ceiling
(`MAX_UPLOAD_SIZE_MB × 1024²`) or whose bytes are not a valid ZIP archive
is rejected synchronously with a `ValueError` before any unpacking: the
returned outcome is the raised error and the state — the task registry,
the extraction counter and the working directory — is exactly the input
state, so no task is created.
-/
theorem upload_and_parse_rejects (o : UploadOracle) (mb fileLen : Nat) (isZip : Bool)
    (st : SState) (h : fileLen > max_upload_size_bytes mb ∨ isZip = false) :
    (upload_and_parse o mb fileLen isZip st).2 = st ∧
    ∃ msg, (upload_and_parse o mb fileLen isZip st).1 = .error (.other msg) := by
  by_cases hs : fileLen > max_upload_size_bytes mb
  · unfold upload_and_parse
    rw [if_pos hs]
    exact ⟨rfl, ⟨_, rfl⟩⟩
  · have hz : isZip = false := h.resolve_left hs
    subst hz
    unfold upload_and_parse
    rw [if_neg hs]
    exact ⟨rfl, ⟨_, rfl⟩⟩

/-- Witness for C7: an upload one byte over the default 500 MB ceiling is
rejected with the registry untouched. -/
theorem upload_and_parse_rejects_witness :
    (upload_and_parse ⟨.ok (), [], "t1".toList, 0⟩ 500 (500 * 1024 * 1024 + 1) true
        stEmpty).2 = stEmpty ∧
    ∃ msg, (upload_and_parse ⟨.ok (), [], "t1".toList, 0⟩ 500 (500 * 1024 * 1024 + 1) true
        stEmpty).1 = .error (.other msg) :=
  upload_and_parse_rejects _ 500 _ true stEmpty (Or.inl (by norm_num [max_upload_size_bytes]))

theorem foldl_filter_eq (ids : List (List Char)) (l : List (List Char × Task)) :
    ids.foldl (fun acc tid => acc.filter (fun p => p.1 ≠ tid)) l
      = l.filter (fun p => ids.all (fun tid => p.1 ≠ tid)) := by
  induction ids generalizing l with
  | nil => simp
  | cons i ids ih =>
    rw [List.foldl_cons, ih, List.filter_filter]
    apply List.filter_congr
    intro p _
    simp [List.all_cons, Bool.and_comm]

theorem keys_nodup_entry_eq (l : List (List Char × Task))
    (hnd : (l.map Prod.fst).Nodup) :
    ∀ p ∈ l, ∀ q ∈ l, p.1 = q.1 → p = q := by
  induction l with
  | nil => intro p hp; simp at hp
  | cons a t ih =>
    simp only [List.map_cons, List.nodup_cons] at hnd
    intro p hp q hq hpq
    rcases List.mem_cons.mp hp with hp | hp <;> rcases List.mem_cons.mp hq with hq | hq
    · rw [hp, hq]
    · exfalso
      apply hnd.1
      have h1 : a.1 = q.1 := by rw [← hp, hpq]
      rw [h1]
      exact List.mem_map_of_mem Prod.fst hq
    · exfalso
      apply hnd.1
      have h1 : a.1 = p.1 := by rw [← hq, ← hpq]
      rw [h1]
      exact List.mem_map_of_mem Prod.fst hp
    · exact ih hnd.2 p hp q hq hpq

/--
**C10.**  The status and result queries never mutate the registry: each
returns the state unchanged, whatever the task's age.  Expired tasks go
away only when `_cleanup_expired_tasks` is invoked, and that call removes
exactly the entries older than `TASK_EXPIRY_SECONDS`, keeping every
younger entry (with its data) unchanged.
-/
theorem queries_pure_cleanup_exact (tid : List Char) (now : Int) (st : SState)
    (hnd : (st.tasks.map Prod.fst).Nodup) :
    (get_task_status tid st).2 = st ∧
    (get_project_data tid st).2 = st ∧
    (get_file_summaries tid st).2 = st ∧
    (cleanup_expired_tasks now st).tasks
      = st.tasks.filter (fun p => now - p.2.created_at ≤ TASK_EXPIRY_SECONDS) := by
  refine ⟨?_, ?_, ?_, ?_⟩
  · unfold get_task_status
    cases lookupTask st.tasks tid <;> rfl
  · unfold get_project_data
    cases lookupTask st.tasks tid with
    | none => rfl
    | some t =>
      split <;> try rfl
      split <;> rfl
  · unfold get_file_summaries
    cases lookupTask st.tasks tid with
    | none => rfl
    | some t =>
      split <;> try rfl
      split <;> rfl
  · unfold cleanup_expired_tasks
    dsimp only
    rw [foldl_filter_eq]
    apply List.filter_congr
    intro p hp
    by_cases hexp : now - p.2.created_at > TASK_EXPIRY_SECONDS
    · have hmem : p.1 ∈ (st.tasks.filter
          (fun q => now - q.2.created_at > TASK_EXPIRY_SECONDS)).map (fun q => q.1) :=
        List.mem_map_of_mem (fun q => q.1) (List.mem_filter.mpr ⟨hp, decide_eq_true hexp⟩)
      have hall : ((st.tasks.filter
          (fun q => now - q.2.created_at > TASK_EXPIRY_SECONDS)).map (fun q => q.1)).all
            (fun i => p.1 ≠ i) = false := by
        rcases List.mem_map.mp hmem with ⟨q, hq, hqe⟩
        apply Bool.eq_false_iff.mpr
        intro hc
        have := (List.all_eq_true.mp hc) q.1 (List.mem_map.mpr ⟨q, hq, rfl⟩)
        simp [← hqe] at this
      rw [hall]
      have : decide (now - p.2.created_at ≤ TASK_EXPIRY_SECONDS) = false := by
        simp; omega
      rw [this]
    · have hnot : p.1 ∉ (st.tasks.filter
          (fun q => now - q.2.created_at > TASK_EXPIRY_SECONDS)).map (fun q => q.1) := by
        intro hc
        rcases List.mem_map.mp hc with ⟨q, hq, hqe⟩
        have hqmem := (List.mem_filter.mp hq).1
        have hqexp := (List.mem_filter.mp hq).2
        have : p = q := keys_nodup_entry_eq st.tasks hnd p hp q hqmem hqe.symm
        rw [this] at hexp
        simp at hqexp
        omega
      have hall : ((st.tasks.filter
          (fun q => now - q.2.created_at > TASK_EXPIRY_SECONDS)).map (fun q => q.1)).all
            (fun i => p.1 ≠ i) = true := by
        apply List.all_eq_true.mpr
        intro i hi
        simp only [ne_eq, decide_eq_true_eq]
        intro hc
        exact hnot (hc ▸ hi)
      rw [hall]
      have : decide (now - p.2.created_at ≤ TASK_EXPIRY_SECONDS) = true := by
        simp; omega
      rw [this]

theorem safe_cleanup_ghost (b : Bool) (st : SState) :
    (safe_cleanup b st).cleanupCalls = st.cleanupCalls + 1 ∧
    (safe_cleanup b st).progTrace = st.progTrace ∧
    (safe_cleanup b st).statusTrace = st.statusTrace ∧
    (safe_cleanup b st).tasks = st.tasks ∧
    (b = true → (safe_cleanup b st).dirExists = false) := by
  unfold safe_cleanup
  by_cases h : st.dirExists <;> by_cases hb : b <;> simp [h, hb]

theorem safe_cleanup_progTrace (b : Bool) (st : SState) :
    (safe_cleanup b st).progTrace = st.progTrace := (safe_cleanup_ghost b st).2.1

theorem safe_cleanup_statusTrace (b : Bool) (st : SState) :
    (safe_cleanup b st).statusTrace = st.statusTrace := (safe_cleanup_ghost b st).2.2.1

theorem safe_cleanup_spec (b : Bool) (st st0 : SState)
    (h : st.cleanupCalls ≥ st0.cleanupCalls) :
    (safe_cleanup b st).cleanupCalls ≥ st0.cleanupCalls + 1 ∧
    (b = true → (safe_cleanup b st).dirExists = false) := by
  refine ⟨?_, fun hb => ?_⟩
  · rw [(safe_cleanup_ghost b st).1]
    omega
  · subst hb
    exact (safe_cleanup_ghost true st).2.2.2.2 rfl

/--
**C4 (amended).**  On every exit path of `_parse_project` — success, the
empty-project failure, any stage exception — the cleanup routine
`_safe_cleanup` is invoked on the task's working directory (the cleanup
counter strictly increases), and whenever the underlying `shutil.rmtree`
does not raise, the directory is actually removed.  (The removal itself
is best-effort: an `OSError` from `rmtree` is logged and swallowed, so
unconditional removal — what the original claim states — does not hold;
see the counterexample.)
-/
theorem parse_project_cleanup_on_every_exit (o : ParseOracle) (tid : List Char)
    (st0 : SState) :
    (parse_project o tid st0).cleanupCalls ≥ st0.cleanupCalls + 1 ∧
    (o.rmtreeOk = true → (parse_project o tid st0).dirExists = false) := by
  obtain ⟨u, sc, ss, sa, lb, lm, rm⟩ := o
  unfold parse_project
  dsimp only
  cases u with
  | error e =>
    exact safe_cleanup_spec rm _ st0
      (by simp [fail_task, set_status, set_message, update_progress])
  | ok _ =>
    dsimp only
    cases sc with
    | error e =>
      exact safe_cleanup_spec rm _ st0
        (by simp [fail_task, set_status, set_message, update_progress])
    | ok tree =>
      dsimp only
      by_cases he : is_empty_project tree = true
      · rw [if_pos he]
        refine safe_cleanup_spec rm _ st0 ?_
        rw [(safe_cleanup_ghost rm _).1]
        simp [set_status, set_message, update_progress]
      · rw [if_neg he]
        cases ss with
        | error e =>
          exact safe_cleanup_spec rm _ st0
            (by simp [fail_task, set_status, set_message, update_progress])
        | ok _ =>
          dsimp only
          cases sa with
          | error e =>
            exact safe_cleanup_spec rm _ st0
              (by simp [fail_task, set_status, set_message, update_progress])
          | ok sanitized =>
            dsimp only
            cases henr : enrich_tree_with_summaries tree sanitized lb with
            | error e =>
              exact safe_cleanup_spec rm _ st0
                (by simp [fail_task, set_status, set_message, update_progress])
            | ok enr =>
              dsimp only
              cases hmer : generate_mermaid_with_llm enr.2 lm with
              | error e =>
                exact safe_cleanup_spec rm _ st0
                  (by simp [fail_task, set_status, set_message, update_progress])
              | ok mer =>
                exact safe_cleanup_spec rm _ st0
                  (by simp [set_status, set_message, update_progress])

/--
**C4 (counterexample).**  When `shutil.rmtree` raises an `OSError`, the
`except OSError` branch of `_safe_cleanup` swallows it: on a run in which
every stage succeeds but removal fails, the pipeline finishes
(cleanup was invoked) with the working directory still present — so the
directory is **not** removed on every exit path; removal is best-effort.
-/
theorem parse_project_rmtree_failure_leaves_dir :
    (parse_project okOracleRmFail "t".toList stOne).dirExists = true ∧
    (parse_project okOracleRmFail "t".toList stOne).cleanupCalls = 1 := by
  refine ⟨rfl, rfl⟩

/-- Witness for the amended C4 theorem: with a succeeding `rmtree`, the
directory is removed and cleanup was invoked. -/
theorem parse_project_cleanup_witness :
    (parse_project { okOracleRmFail with rmtreeOk := true } "t".toList stOne).cleanupCalls
        ≥ stOne.cleanupCalls + 1 ∧
    (parse_project { okOracleRmFail with rmtreeOk := true } "t".toList stOne).dirExists
        = false := by
  have h := parse_project_cleanup_on_every_exit
    { okOracleRmFail with rmtreeOk := true } "t".toList stOne
  exact ⟨h.1, h.2 rfl⟩

theorem safe_cleanup_tasks (b : Bool) (st : SState) :
    (safe_cleanup b st).tasks = st.tasks := (safe_cleanup_ghost b st).2.2.2.1

theorem lookupTask_updateTask (ts : List (List Char × Task)) (tid : List Char)
    (f : Task → Task) :
    lookupTask (updateTask ts tid f) tid = (lookupTask ts tid).map f := by
  unfold lookupTask updateTask
  rw [← List.map_reverse]
  generalize ts.reverse = l
  induction l with
  | nil => rfl
  | cons p l ih =>
    by_cases h : p.1 = tid
    · simp [List.find?, h]
    · simp only [List.map_cons, List.find?, if_neg h, decide_eq_false h]
      exact ih

theorem enrich_llm_fallback (tree : Tree) (sans : List Chunker.FileSummary)
    (eb : List Char) :
    enrich_tree_with_summaries tree sans (.error (.llm eb))
      = .ok (apply_summaries_to_tree tree (fallback_summaries_for sans),
             fallback_summaries_for sans) := by
  unfold enrich_tree_with_summaries fallback_summaries_for
  dsimp only
  split
  · rfl
  · rfl

theorem mermaid_llm_fallback (fs : List Chunker.FileSummary) (em : List Char) :
    generate_mermaid_with_llm fs (.error (.llm em))
      = .ok (generate_fallback_mermaid fs) := rfl

/--
**C6.**  When the text-generation calls of both the enrichment (batch
summary) stage and the diagram stage fail with the typed `LLMError`, the
errors do not propagate past their stages and the task does not fail: the
pipeline completes (status `completed`, progress 100), the saved summary
list carries the static type-based descriptions as `ai_summary`, and the
saved diagram is the deterministic locally generated fallback Mermaid
graph.
-/
theorem parse_project_llm_errors_fall_back (o : ParseOracle) (tid : List Char)
    (st0 : SState) (tree : Tree) (raws sans : List Chunker.FileSummary)
    (eb em : List Char) (t0 : Task)
    (hu : o.unzip = .ok ()) (hsc : o.scanTree = .ok tree)
    (hne : is_empty_project tree = false)
    (hss : o.scanSummaries = .ok raws) (hsa : o.sanitized = .ok sans)
    (hb : o.llmBatch = .error (.llm eb)) (hm : o.llmMermaid = .error (.llm em))
    (ht : lookupTask st0.tasks tid = some t0) :
    ∃ t, lookupTask (parse_project o tid st0).tasks tid = some t ∧
      t.status = "completed".toList ∧
      t.progress = 100 ∧
      t.project_data = some ⟨apply_summaries_to_tree tree (fallback_summaries_for sans),
        generate_fallback_mermaid (fallback_summaries_for sans)⟩ ∧
      t.file_summaries = fallback_summaries_for sans := by
  unfold parse_project
  rw [hu, hsc, hss, hsa, hb, hm]
  dsimp only
  rw [if_neg (by simp [hne])]
  rw [enrich_llm_fallback tree sans eb]
  dsimp only
  rw [mermaid_llm_fallback]
  dsimp only
  rw [safe_cleanup_tasks]
  simp only [set_message, set_status, update_progress]
  simp only [lookupTask_updateTask, ht, Option.map_some]
  exact ⟨_, rfl, rfl, rfl, rfl, rfl⟩

theorem parse_project_llm_errors_fall_back_witness :
    is_empty_project (Tree.file "a.py".toList "a.py".toList [] []) = false ∧
    lookupTask stOne.tasks "t".toList = some taskAt0 ∧
    ∃ t, lookupTask (parse_project oLLMFail "t".toList stOne).tasks "t".toList = some t ∧
      t.status = "completed".toList ∧
      t.progress = 100 ∧
      t.project_data = some ⟨apply_summaries_to_tree
          (Tree.file "a.py".toList "a.py".toList [] []) (fallback_summaries_for []),
        generate_fallback_mermaid (fallback_summaries_for [])⟩ ∧
      t.file_summaries = fallback_summaries_for [] :=
  ⟨by decide, rfl,
   parse_project_llm_errors_fall_back oLLMFail "t".toList stOne
     (Tree.file "a.py".toList "a.py".toList [] []) [] [] "x".toList "y".toList taskAt0
     rfl rfl (by decide) rfl rfl rfl rfl rfl⟩

/--
**C9.**  Starting from a freshly created task (initial progress 0, empty
write histories), the sequence of progress values written over a
`_parse_project` run is monotonically non-decreasing — on the success
path it is exactly `10, 25, 40, 50, 60, 80, 95, 100` — and always a
prefix of the success sequence, so a stage failure freezes the progress
at its last value; the status receives exactly one terminal write
(`completed` or `failed`), moving one-directionally out of `processing`.
-/
theorem parse_project_progress_monotone (o : ParseOracle) (tid : List Char)
    (st0 : SState) (hp : st0.progTrace = []) (hs : st0.statusTrace = []) :
    List.Chain' (· ≤ ·) (0 :: (parse_project o tid st0).progTrace) ∧
    ((parse_project o tid st0).statusTrace = ["completed".toList] ∨
      (parse_project o tid st0).statusTrace = ["failed".toList]) ∧
    ((parse_project o tid st0).statusTrace = ["completed".toList] →
      (parse_project o tid st0).progTrace = fullProgress) ∧
    (∃ n, (parse_project o tid st0).progTrace = fullProgress.take n) := by
  obtain ⟨u, sc, ss, sa, lb, lm, rm⟩ := o
  unfold parse_project
  dsimp only
  cases u with
  | error e =>
    refine ⟨?_, Or.inr ?_, ?_, ⟨1, ?_⟩⟩ <;>
      simp [safe_cleanup_progTrace, safe_cleanup_statusTrace, fail_task, set_status,
            set_message, update_progress, hp, hs, fullProgress,
            List.chain'_cons, List.chain'_singleton]
  | ok _ =>
    dsimp only
    cases sc with
    | error e =>
      refine ⟨?_, Or.inr ?_, ?_, ⟨2, ?_⟩⟩ <;>
        simp [safe_cleanup_progTrace, safe_cleanup_statusTrace, fail_task, set_status,
              set_message, update_progress, hp, hs, fullProgress,
              List.chain'_cons, List.chain'_singleton]
    | ok tree =>
      dsimp only
      by_cases he : is_empty_project tree = true
      · rw [if_pos he]
        refine ⟨?_, Or.inr ?_, ?_, ⟨2, ?_⟩⟩ <;>
          simp [safe_cleanup_progTrace, safe_cleanup_statusTrace, fail_task, set_status,
                set_message, update_progress, hp, hs, fullProgress,
                List.chain'_cons, List.chain'_singleton]
      · rw [if_neg he]
        cases ss with
        | error e =>
          refine ⟨?_, Or.inr ?_, ?_, ⟨3, ?_⟩⟩ <;>
            simp [safe_cleanup_progTrace, safe_cleanup_statusTrace, fail_task, set_status,
                  set_message, update_progress, hp, hs, fullProgress,
                  List.chain'_cons, List.chain'_singleton]
        | ok _ =>
          dsimp only
          cases sa with
          | error e =>
            refine ⟨?_, Or.inr ?_, ?_, ⟨4, ?_⟩⟩ <;>
              simp [safe_cleanup_progTrace, safe_cleanup_statusTrace, fail_task, set_status,
                    set_message, update_progress, hp, hs, fullProgress,
                    List.chain'_cons, List.chain'_singleton]
          | ok sanitized =>
            dsimp only
            cases henr : enrich_tree_with_summaries tree sanitized lb with
            | error e =>
              refine ⟨?_, Or.inr ?_, ?_, ⟨5, ?_⟩⟩ <;>
                simp [safe_cleanup_progTrace, safe_cleanup_statusTrace, fail_task, set_status,
                      set_message, update_progress, hp, hs, fullProgress,
                      List.chain'_cons, List.chain'_singleton]
            | ok enr =>
              dsimp only
              cases hmer : generate_mermaid_with_llm enr.2 lm with
              | error e =>
                refine ⟨?_, Or.inr ?_, ?_, ⟨6, ?_⟩⟩ <;>
                  simp [safe_cleanup_progTrace, safe_cleanup_statusTrace, fail_task, set_status,
                        set_message, update_progress, hp, hs, fullProgress,
                        List.chain'_cons, List.chain'_singleton]
              | ok mer =>
                refine ⟨?_, Or.inl ?_, ?_, ⟨8, ?_⟩⟩ <;>
                  simp [safe_cleanup_progTrace, safe_cleanup_statusTrace, set_status,
                        set_message, update_progress, hp, hs, fullProgress,
                        List.chain'_cons, List.chain'_singleton]

/-- Witness for C9: a run that fails at the mermaid stage with an
unexpected error freezes the progress trace at `[10, ..., 80]` and writes
the single terminal status `failed`. -/
theorem parse_project_progress_monotone_witness :
    List.Chain' (· ≤ ·) (0 :: (parse_project
        { okOracleRmFail with llmMermaid := .error (.other "boom".toList) }
        "t".toList stOne).progTrace) ∧
    (parse_project { okOracleRmFail with llmMermaid := .error (.other "boom".toList) }
        "t".toList stOne).statusTrace = ["failed".toList] ∧
    (parse_project { okOracleRmFail with llmMermaid := .error (.other "boom".toList) }
        "t".toList stOne).progTrace = [10, 25, 40, 50, 60, 80] := by
  have h := parse_project_progress_monotone
    { okOracleRmFail with llmMermaid := .error (.other "boom".toList) }
    "t".toList stOne rfl rfl
  exact ⟨h.1, by rfl, by rfl⟩

/-- Witness for C10 at time 100000: task `a` (age 100000 > 86400) is
evicted, task `b` (age 10000) survives untouched, and the getters leave
the state alone. -/
theorem queries_pure_cleanup_exact_witness :
    (get_task_status "a".toList stTwo).2 = stTwo ∧
    (cleanup_expired_tasks 100000 stTwo).tasks
      = [("b".toList, taskAt "b".toList 90000)] := by
  have h := queries_pure_cleanup_exact "a".toList 100000 stTwo (by
    show (([("a".toList, taskAt "a".toList 0),
           ("b".toList, taskAt "b".toList 90000)].map Prod.fst)).Nodup
    decide)
  refine ⟨h.1, ?_⟩
  rw [h.2.2.2]
  rfl

end Service

end CodeViz
